import Mathlib

/-!
Soar kernel and CLI: a verification development.

Shallow embedding of parts of the Soar kernel (`episodic_memory.cpp`,
`production.cpp`, `vm_map.cpp`, the interfaces documented in `decide.h`) and of
the CLI commands (`cli_epmem.cpp`, `cli_maxchunks.cpp`, `cli_maxelaborations.cpp`,
`cli_multiattributes.cpp`), followed by theorems about them.

Conventions.
* C++ overloads get distinct Lean names (suffix `_name_` / `_param_` and the
  value type).
* A `long` is an `Int`; a `double` is carried as a `Rat` (the embedded functions
  only store and pass such values, they do no arithmetic on them).
* Function pointers are Lean functions.
* Functions that mutate the agent return the new agent next to their result.
* In `production.cpp` a pointer to a symbol is its index in the table of symbols, a test, a
  condition or a list of conditions that is only read is given as a value, and a structure
  that is built is laid out in a memory of cells.

Part I holds the definitions, Part II the theorems.
-/

/-! ## Part I. Definitions -/

/-! ### episodic_memory.cpp : parameters -/

namespace EpisodicMemory

/-- The `epmem_param_type` tag of a parameter. -/
inductive epmem_param_type where
  | epmem_param_constant
  | epmem_param_number
  | epmem_param_string
  | epmem_param_invalid
deriving DecidableEq, Repr

/-- The `number_param` member of `epmem_parameter_union`. -/
structure epmem_number_parameter where
  value : Rat
  val_func : Rat → Bool

/-- The `constant_param` member of `epmem_parameter_union`. -/
structure epmem_constant_parameter where
  value : Int
  val_func : Int → Bool
  to_str : Int → Option String
  from_str : String → Int

/-- The `string_param` member of `epmem_parameter_union`. -/
structure epmem_string_parameter where
  value : String
  val_func : String → Bool

/-- The union `epmem_parameter_union`; the three `epmem_add_parameter` overloads set the
`type` tag together with the member they fill, so the union and its tag form a tagged sum. -/
inductive epmem_parameter_union where
  | number_param (p : epmem_number_parameter)
  | constant_param (p : epmem_constant_parameter)
  | string_param (p : epmem_string_parameter)

/-- One entry of `epmem_params`. -/
structure epmem_parameter where
  param : epmem_parameter_union
  name : String

/-- The `type` field of a parameter, as set by `epmem_add_parameter`. -/
def epmem_parameter.type (p : epmem_parameter) : epmem_param_type :=
  match p.param with
  | .number_param _ => .epmem_param_number
  | .constant_param _ => .epmem_param_constant
  | .string_param _ => .epmem_param_string

/-- The part of the agent that the parameter functions read and write: the array
`epmem_params[EPMEM_PARAMS]` and the `sysparams` array. -/
structure agent where
  epmem_params : List epmem_parameter
  sysparams : Nat → Int

/-- Constants of `episodic_memory.h` and `gsysparam.h` used by the setters; the headers
are not among the sources, so the values are parameters. -/
structure epmem_constants where
  EPMEM_PARAM_LEARNING : Int
  EPMEM_ENABLED : Nat

/-- The number of entries with which the array `epmem_params` is declared. -/
def EPMEM_PARAMS (my_agent : agent) : Int := my_agent.epmem_params.length

/-- Array read `my_agent->epmem_params[ param ]`. -/
def epmem_params_at (my_agent : agent) (param : Int) : Option epmem_parameter :=
  if 0 ≤ param then my_agent.epmem_params[param.toNat]? else none

/-- The function `set_sysparam( my_agent, param_number, new_value )`: stores the value. -/
def set_sysparam (my_agent : agent) (param_number : Nat) (new_value : Int) : agent :=
  { my_agent with
    sysparams := fun i => if i = param_number then new_value else my_agent.sysparams i }

/-- The function `epmem_convert_parameter( my_agent, const long param )`: the name, `none` for NULL. -/
def epmem_convert_parameter_param (my_agent : agent) (param : Int) : Option String :=
  if param < 0 ∨ param ≥ EPMEM_PARAMS my_agent then none
  else (epmem_params_at my_agent param).map (fun p => p.name)

/-- The loop of `epmem_convert_parameter( my_agent, const char *name )` from index `i` on,
over the entries not yet visited; running off the end yields `EPMEM_PARAMS`. -/
def epmem_convert_parameter_loop (name : String) : List epmem_parameter → Int → Int
  | [], i => i
  | p :: rest, i => if name = p.name then i else epmem_convert_parameter_loop name rest (i + 1)

/-- The function `epmem_convert_parameter( my_agent, const char *name )`. -/
def epmem_convert_parameter_name (my_agent : agent) (name : String) : Int :=
  epmem_convert_parameter_loop name my_agent.epmem_params 0

/-- The function `epmem_valid_parameter( my_agent, const char *name )`. -/
def epmem_valid_parameter_name (my_agent : agent) (name : String) : Bool :=
  decide (epmem_convert_parameter_name my_agent name ≠ EPMEM_PARAMS my_agent)

/-- The function `epmem_valid_parameter( my_agent, const long param )`. -/
def epmem_valid_parameter_param (my_agent : agent) (param : Int) : Bool :=
  (epmem_convert_parameter_param my_agent param).isSome

/-- The function `epmem_get_parameter_type( my_agent, const long param )`. -/
def epmem_get_parameter_type_param (my_agent : agent) (param : Int) : epmem_param_type :=
  if !epmem_valid_parameter_param my_agent param then .epmem_param_invalid
  else
    match epmem_params_at my_agent param with
    | some p => p.type
    | none => .epmem_param_invalid

/-- The function `epmem_valid_parameter_value( my_agent, const long param, double new_val )`. -/
def epmem_valid_parameter_value_param_double (my_agent : agent) (param : Int) (new_val : Rat) :
    Bool :=
  if !epmem_valid_parameter_param my_agent param then false
  else if epmem_get_parameter_type_param my_agent param ≠ .epmem_param_number then false
  else
    match epmem_params_at my_agent param with
    | some ⟨.number_param np, _⟩ => np.val_func new_val
    | _ => false

/-- The function `epmem_valid_parameter_value( my_agent, const long param, const char *new_val )`. -/
def epmem_valid_parameter_value_param_string (my_agent : agent) (param : Int) (new_val : String) :
    Bool :=
  if !epmem_valid_parameter_param my_agent param then false
  else if epmem_get_parameter_type_param my_agent param = .epmem_param_string then
    match epmem_params_at my_agent param with
    | some ⟨.string_param sp, _⟩ => sp.val_func new_val
    | _ => false
  else if epmem_get_parameter_type_param my_agent param ≠ .epmem_param_constant then false
  else
    match epmem_params_at my_agent param with
    | some ⟨.constant_param cp, _⟩ => cp.val_func (cp.from_str new_val)
    | _ => false

/-- The function `epmem_valid_parameter_value( my_agent, const long param, const long new_val )`. -/
def epmem_valid_parameter_value_param_long (my_agent : agent) (param : Int) (new_val : Int) :
    Bool :=
  if !epmem_valid_parameter_param my_agent param then false
  else if epmem_get_parameter_type_param my_agent param ≠ .epmem_param_constant then false
  else
    match epmem_params_at my_agent param with
    | some ⟨.constant_param cp, _⟩ => cp.val_func new_val
    | _ => false

/-- Assignment `p->param->number_param.value = new_val`. -/
def epmem_parameter.set_number_value (p : epmem_parameter) (new_val : Rat) : epmem_parameter :=
  match p.param with
  | .number_param np => { p with param := .number_param { np with value := new_val } }
  | _ => p

/-- Assignment `p->param->constant_param.value = new_val`. -/
def epmem_parameter.set_constant_value (p : epmem_parameter) (new_val : Int) : epmem_parameter :=
  match p.param with
  | .constant_param cp => { p with param := .constant_param { cp with value := new_val } }
  | _ => p

/-- Assignment `(*p->param->string_param.value) = new_val`. -/
def epmem_parameter.set_string_value (p : epmem_parameter) (new_val : String) : epmem_parameter :=
  match p.param with
  | .string_param sp => { p with param := .string_param { sp with value := new_val } }
  | _ => p

/-- Write through `my_agent->epmem_params[ param ]` with the update `f`. -/
def epmem_params_update (my_agent : agent) (param : Int) (f : epmem_parameter → epmem_parameter) :
    agent :=
  { my_agent with epmem_params := my_agent.epmem_params.modify f param.toNat }

/-- The function `epmem_set_parameter( my_agent, const long param, double new_val )`. -/
def epmem_set_parameter_param_double (my_agent : agent) (param : Int) (new_val : Rat) :
    Bool × agent :=
  if !epmem_valid_parameter_value_param_double my_agent param new_val then (false, my_agent)
  else (true, epmem_params_update my_agent param (fun p => p.set_number_value new_val))

/-- The function `epmem_set_parameter( my_agent, const long param, const char *new_val )`. -/
def epmem_set_parameter_param_string (K : epmem_constants) (my_agent : agent) (param : Int)
    (new_val : String) : Bool × agent :=
  if !epmem_valid_parameter_value_param_string my_agent param new_val then (false, my_agent)
  else if epmem_get_parameter_type_param my_agent param = .epmem_param_string then
    (true, epmem_params_update my_agent param (fun p => p.set_string_value new_val))
  else
    let converted_val : Int :=
      match epmem_params_at my_agent param with
      | some ⟨.constant_param cp, _⟩ => cp.from_str new_val
      | _ => 0
    -- learning special case
    let my_agent1 :=
      if param = K.EPMEM_PARAM_LEARNING then set_sysparam my_agent K.EPMEM_ENABLED converted_val
      else my_agent
    (true, epmem_params_update my_agent1 param (fun p => p.set_constant_value converted_val))

/-- The function `epmem_set_parameter( my_agent, const long param, const long new_val )`. -/
def epmem_set_parameter_param_long (K : epmem_constants) (my_agent : agent) (param : Int)
    (new_val : Int) : Bool × agent :=
  if !epmem_valid_parameter_value_param_long my_agent param new_val then (false, my_agent)
  else
    -- learning special case
    let my_agent1 :=
      if param = K.EPMEM_PARAM_LEARNING then set_sysparam my_agent K.EPMEM_ENABLED new_val
      else my_agent
    (true, epmem_params_update my_agent1 param (fun p => p.set_constant_value new_val))

/-- The function `epmem_set_parameter( my_agent, const char *name, double new_val )`. -/
def epmem_set_parameter_name_double (my_agent : agent) (name : String) (new_val : Rat) :
    Bool × agent :=
  let param := epmem_convert_parameter_name my_agent name
  if param = EPMEM_PARAMS my_agent then (false, my_agent)
  else if !epmem_valid_parameter_value_param_double my_agent param new_val then (false, my_agent)
  else (true, epmem_params_update my_agent param (fun p => p.set_number_value new_val))

/-- The function `epmem_set_parameter( my_agent, const char *name, const char *new_val )`. -/
def epmem_set_parameter_name_string (K : epmem_constants) (my_agent : agent) (name : String)
    (new_val : String) : Bool × agent :=
  let param := epmem_convert_parameter_name my_agent name
  if param = EPMEM_PARAMS my_agent then (false, my_agent)
  else if !epmem_valid_parameter_value_param_string my_agent param new_val then (false, my_agent)
  else if epmem_get_parameter_type_param my_agent param = .epmem_param_string then
    (true, epmem_params_update my_agent param (fun p => p.set_string_value new_val))
  else
    let converted_val : Int :=
      match epmem_params_at my_agent param with
      | some ⟨.constant_param cp, _⟩ => cp.from_str new_val
      | _ => 0
    -- learning special case
    let my_agent1 :=
      if param = K.EPMEM_PARAM_LEARNING then set_sysparam my_agent K.EPMEM_ENABLED converted_val
      else my_agent
    (true, epmem_params_update my_agent1 param (fun p => p.set_constant_value converted_val))

/-- The function `epmem_set_parameter( my_agent, const char *name, const long new_val )`. -/
def epmem_set_parameter_name_long (K : epmem_constants) (my_agent : agent) (name : String)
    (new_val : Int) : Bool × agent :=
  let param := epmem_convert_parameter_name my_agent name
  if param = EPMEM_PARAMS my_agent then (false, my_agent)
  else if !epmem_valid_parameter_value_param_long my_agent param new_val then (false, my_agent)
  else
    -- learning special case
    let my_agent1 :=
      if param = K.EPMEM_PARAM_LEARNING then set_sysparam my_agent K.EPMEM_ENABLED new_val
      else my_agent
    (true, epmem_params_update my_agent1 param (fun p => p.set_constant_value new_val))

/-- A sample validator in the style of `epmem_validate_learning`: two admissible values. -/
def sample_validate_learning (new_val : Int) : Bool := new_val == 1 || new_val == 2

/-- A sample converter in the style of `epmem_convert_learning( const char *val )`. -/
def sample_convert_learning (val : String) : Int :=
  if val = "on" then 1 else if val = "off" then 2 else 0

/-- Sample constants: the learning parameter is entry 0, `EPMEM_ENABLED` is sysparam 7. -/
def sample_constants : epmem_constants := ⟨0, 7⟩

/-- A sample agent with a constant parameter, a number parameter and a string parameter. -/
def sample_agent : agent where
  epmem_params :=
    [ ⟨.constant_param ⟨2, sample_validate_learning, fun _ => none, sample_convert_learning⟩,
        "learning"⟩,
      ⟨.number_param ⟨1, fun v => decide (0 ≤ v)⟩, "balance"⟩,
      ⟨.string_param ⟨"", fun _ => true⟩, "path"⟩ ]
  sysparams := fun _ => 0

end EpisodicMemory

/-! ### cli_epmem.cpp : the `epmem --set` command -/

namespace CliEpmem

/-- The enumeration `epmem_param_container::db_choices`. -/
inductive db_choices where
  | memory
  | file
deriving DecidableEq, Repr

/-- The enumeration `soar_module::boolean`. -/
inductive boolean where
  | off
  | on
deriving DecidableEq, Repr

/-- The enumeration `soar_module::db_status`. -/
inductive db_status where
  | disconnected
  | connected
  | problem
deriving DecidableEq, Repr

/-- What `DoEpMem` uses of the agent and of `soar_module::param`, whose class definitions are
not among the sources: the lookup `epmem_params->get( name )` (`none` for a null pointer),
the two virtual methods `validate_string` and `set_string` of a parameter (`set_string` may
change the agent and reports whether it did the change), and the three getters the messages
depend on. -/
structure epmem_interface (Agent Param : Type) where
  get : Agent → String → Option Param
  validate_string : Agent → Param → String → Bool
  set_string : Agent → Param → String → Bool × Agent
  database_get_value : Agent → db_choices
  append_db_get_value : Agent → boolean
  epmem_db_get_status : Agent → db_status

/-- The state of the command line interface that `DoEpMem` touches: the agent, the last
error, the messages printed so far, and a record of the `set_string` calls made (the record
is not a field of the C++ class; it makes "is invoked" a statement about the state). -/
structure CommandLineInterface (Agent Param : Type) where
  thisAgent : Agent
  m_LastError : Option String
  m_Result : List String
  set_string_calls : List (Param × String)

/-- Modelled from the spec: `CommandLineInterface::SetError` is defined in
`cli_CommandLineInterface.cpp`, which is not among the sources. A rejected request records
its error and the command fails: the message becomes the last error and the result is
`false`. -/
def SetError {Agent Param : Type} (cli : CommandLineInterface Agent Param) (error : String) :
    Bool × CommandLineInterface Agent Param :=
  (false, { cli with m_LastError := some error })

/-- The call `PrintCLIMessage( msg )`: appends the message to the output. -/
def PrintCLIMessage {Agent Param : Type} (cli : CommandLineInterface Agent Param)
    (msg : String) : CommandLineInterface Agent Param :=
  { cli with m_Result := cli.m_Result ++ [msg] }

/-- The branch `pOp == 's'` of `CommandLineInterface::DoEpMem( pOp, pAttr, pVal, memory_id )`. -/
def DoEpMem_set {Agent Param : Type} (I : epmem_interface Agent Param)
    (cli : CommandLineInterface Agent Param) (pAttr pVal : String) :
    Bool × CommandLineInterface Agent Param :=
  match I.get cli.thisAgent pAttr with
  | none => SetError cli "Invalid epmem parameter."
  | some my_param =>
    if !I.validate_string cli.thisAgent my_param pVal then
      SetError cli "Invalid setting for epmem parameter."
    else
      let last_db_mode := I.database_get_value cli.thisAgent
      let result := I.set_string cli.thisAgent my_param pVal
      let cli1 : CommandLineInterface Agent Param :=
        { cli with thisAgent := result.2,
                   set_string_calls := cli.set_string_calls ++ [(my_param, pVal)] }
      if !result.1 then
        (result.1, (SetError cli1
          "This parameter is protected while the episodic memory database is open.").2)
      else
        let cli2 := PrintCLIMessage cli1 (pAttr ++ " = " ++ pVal)
        let cli3 :=
          if I.epmem_db_get_status cli2.thisAgent = db_status.connected then
            if (pAttr = "database" ∧ I.database_get_value cli2.thisAgent ≠ last_db_mode) ∨
                pAttr = "path" then
              PrintCLIMessage cli2
                "To finalize episodic memory database switch, issue an epmem --init command.\n"
            else cli2
          else cli2
        let cli4 :=
          if pAttr = "append" then
            if I.append_db_get_value cli3.thisAgent = boolean.off then
              PrintCLIMessage cli3
                ("Warning: Since append mode is off, starting/reinitializing,\n" ++
                 "         Soar will erase the episodic memory database.\n")
            else cli3
          else cli3
        (result.1, cli4)

/-- A sample agent for `DoEpMem_set`: the values of `learning` and `database`, and whether
the database is open. -/
structure sample_agent where
  learning : String
  database : String
  db_open : Bool
deriving DecidableEq, Repr

/-- A sample interface: parameters `learning` (values `on`, `off`) and `database` (values
`memory`, `file`, protected while the database is open). -/
def sample_interface : epmem_interface sample_agent String where
  get := fun _ name => if name = "learning" ∨ name = "database" then some name else none
  validate_string := fun _ p v =>
    if p = "learning" then decide (v = "on" ∨ v = "off") else decide (v = "memory" ∨ v = "file")
  set_string := fun a p v =>
    if p = "learning" then (true, { a with learning := v })
    else if a.db_open then (false, a) else (true, { a with database := v })
  database_get_value := fun a => if a.database = "memory" then .memory else .file
  append_db_get_value := fun _ => .on
  epmem_db_get_status := fun a => if a.db_open then .connected else .disconnected

/-- A sample command line interface whose agent has its database open. -/
def sample_cli : CommandLineInterface sample_agent String :=
  ⟨⟨"off", "memory", true⟩, none, [], []⟩

end CliEpmem

/-! ### decide.h : slots, preferences and the decider's interface

`decide.h` declares the slot structure and documents the decider; the bodies
(`decide.cpp`, `prefmem.cpp`) are not among the sources. The operations below are therefore
modelled from the specification (sections 3 and 4) and from the documentation in `decide.h`.
-/

namespace Decide

/-- Symbols (identifiers and values) are referred to by number. -/
abbrev Symbol := Nat

/-- The classes of preferences: acceptable, require, reject, prohibit, best, worst, unary and
binary indifferent, and the binary better / worse. -/
inductive preference_type where
  | ACCEPTABLE_PREFERENCE_TYPE
  | REQUIRE_PREFERENCE_TYPE
  | REJECT_PREFERENCE_TYPE
  | PROHIBIT_PREFERENCE_TYPE
  | BEST_PREFERENCE_TYPE
  | WORST_PREFERENCE_TYPE
  | UNARY_INDIFFERENT_PREFERENCE_TYPE
  | BINARY_INDIFFERENT_PREFERENCE_TYPE
  | BETTER_PREFERENCE_TYPE
  | WORSE_PREFERENCE_TYPE
deriving DecidableEq, Repr

/-- The impasse kinds a resolution can yield. -/
inductive impasse_type where
  | NONE_IMPASSE_TYPE
  | CONSTRAINT_FAILURE_IMPASSE_TYPE
  | CONFLICT_IMPASSE_TYPE
  | TIE_IMPASSE_TYPE
  | NO_CHANGE_IMPASSE_TYPE
deriving DecidableEq, Repr

/-- A preference: a typed assertion proposing or vetoing `value` for a slot (`referent` is the
second value of a binary preference), tagged with the goal-stack depth of its match goal and
with the instantiation that produced it. -/
structure preference where
  type : preference_type
  value : Symbol
  referent : Symbol
  depth : Nat
  inst : Nat
deriving DecidableEq, Repr

/-- A working-memory element: the triple, its timetag. -/
structure wme where
  id : Symbol
  attr : Symbol
  value : Symbol
  timetag : Nat
deriving DecidableEq, Repr

/-- The structure `slot_struct` of `decide.h` (the links `next`, `prev` of the enclosing list
and the activation bookkeeping `wma_val_references` are left out; `changed` and
`acceptable_preference_changed` are kept as the zero / nonzero flags they stand for).
`all_preferences` is kept in creation order, oldest first. -/
structure slot where
  id : Symbol
  attr : Symbol
  wmes : List wme
  acceptable_preference_wmes : List wme
  all_preferences : List preference
  preferences : preference_type → List preference
  CDPS : List preference
  impasse_id : Option Symbol
  isa_context_slot : Bool
  impasse_type : impasse_type
  marked_for_possible_removal : Bool
  changed : Bool
  acceptable_preference_changed : Bool

/-- A slot for `(id, attr)` that holds nothing yet. -/
def empty_slot (id attr : Symbol) (isa_context_slot : Bool) : slot where
  id := id
  attr := attr
  wmes := []
  acceptable_preference_wmes := []
  all_preferences := []
  preferences := fun _ => []
  CDPS := []
  impasse_id := none
  isa_context_slot := isa_context_slot
  impasse_type := .NONE_IMPASSE_TYPE
  marked_for_possible_removal := false
  changed := false
  acceptable_preference_changed := false

/-- Modelled from the spec: the ordered insertion of `add_preference` (the body is in
`prefmem.cpp`, not among the sources). The list is kept in ascending support depth; the
new preference goes behind the ones of the same depth, so equal depths stay in creation
order. -/
def insert_by_depth (pref : preference) : List preference → List preference
  | [] => [pref]
  | q :: rest =>
    if pref.depth < q.depth then pref :: q :: rest else q :: insert_by_depth pref rest

/-- Modelled from the spec: `add_preference(slot, preference)` (section 4.1; the body is in
`prefmem.cpp`, not among the sources) "inserts into the appropriate per-type ordered list by
ascending support-depth; marks the slot dirty; for context slots, also sets the
acceptable/require-changed flag when the preference type is acceptable or require". -/
def add_preference (s : slot) (pref : preference) : slot :=
  { s with
    all_preferences := s.all_preferences ++ [pref]
    preferences := fun t =>
      if t = pref.type then insert_by_depth pref (s.preferences t) else s.preferences t
    changed := true
    acceptable_preference_changed :=
      if s.isa_context_slot ∧
          (pref.type = .ACCEPTABLE_PREFERENCE_TYPE ∨ pref.type = .REQUIRE_PREFERENCE_TYPE)
      then true else s.acceptable_preference_changed }

/-- Modelled from the spec: `remove_preference(slot, preference)` (section 4.1; the body is in
`prefmem.cpp`, not among the sources) "removes from both the type list and the
all-preferences list; if this was the sole support for a fact, schedules that fact for
removal; marks slot dirty analogously to add". Removing a preference that the slot does not
hold is a contract violation and yields an error. The second component lists the facts
scheduled for removal: the facts of the slot carrying the preference's value when no
remaining preference proposes that value. -/
def remove_preference (s : slot) (pref : preference) : Except String (slot × List wme) :=
  if pref ∈ s.all_preferences ∧ pref ∈ s.preferences pref.type then
    let remaining := s.all_preferences.erase pref
    let s1 : slot :=
      { s with
        all_preferences := remaining
        preferences := fun t =>
          if t = pref.type then (s.preferences t).erase pref else s.preferences t
        changed := true
        acceptable_preference_changed :=
          if s.isa_context_slot ∧
              (pref.type = .ACCEPTABLE_PREFERENCE_TYPE ∨ pref.type = .REQUIRE_PREFERENCE_TYPE)
          then true else s.acceptable_preference_changed }
    let scheduled :=
      if remaining.any (fun q => decide (q.value = pref.value)) then []
      else s.wmes.filter (fun w => decide (w.value = pref.value))
    .ok (s1, scheduled)
  else .error "Internal error: preference is not in the slot"

/-- One change of a slot's preference memory. -/
inductive preference_change where
  | add (pref : preference)
  | remove (pref : preference)
deriving DecidableEq, Repr

/-- Runs a sequence of preference additions and removals on a slot; `none` when a removal
hits the contract violation. -/
def apply_preference_changes (s : slot) : List preference_change → Option slot
  | [] => some s
  | .add pref :: rest => apply_preference_changes (add_preference s pref) rest
  | .remove pref :: rest =>
    match remove_preference s pref with
    | .ok r => apply_preference_changes r.1 rest
    | .error _ => none

/-- A sample run: acceptable preferences of depths 3, 1 and 2 are added, then the first one is
removed. -/
def sample_changes : List preference_change :=
  [.add ⟨.ACCEPTABLE_PREFERENCE_TYPE, 10, 0, 3, 0⟩,
   .add ⟨.ACCEPTABLE_PREFERENCE_TYPE, 11, 0, 1, 1⟩,
   .add ⟨.ACCEPTABLE_PREFERENCE_TYPE, 12, 0, 2, 2⟩,
   .remove ⟨.ACCEPTABLE_PREFERENCE_TYPE, 10, 0, 3, 0⟩]

/-- The ordering invariant of the per-type lists: every `preferences[t]` is in ascending
goal-stack depth, the preference supported by the highest goal at the head. -/
def preferences_sorted (s : slot) : Prop :=
  ∀ t, (s.preferences t).Pairwise (fun p q => p.depth ≤ q.depth)

/-- Tells whether the list `preferences[t]` has a preference for the value `v`. -/
def has_preference (prefs : preference_type → List preference) (t : preference_type)
    (v : Symbol) : Bool :=
  (prefs t).any (fun p => decide (p.value = v))

/-- Modelled from the spec: step 2 of the resolution algorithm (section 4.2; the body of
`run_preference_semantics` is in `decide.cpp`, not among the sources): a value with a prohibit
preference or with a reject preference is eliminated. A reject preference is unary, so it
names its value without ambiguity. -/
def value_is_vetoed (prefs : preference_type → List preference) (v : Symbol) : Bool :=
  has_preference prefs .PROHIBIT_PREFERENCE_TYPE v || has_preference prefs .REJECT_PREFERENCE_TYPE v

/-- Modelled from the spec: steps 1 to 4, the distinct values that have a preference of
type `t` and survive the vetoes (`t` is require in step 3 and acceptable in step 4). -/
def surviving_values (prefs : preference_type → List preference) (t : preference_type) :
    List Symbol :=
  (((prefs t).filter (fun p => !value_is_vetoed prefs p.value)).map (fun p => p.value)).dedup

/-- Modelled from the spec: step 9, `a` is better than `b` when a better preference says so
or a worse preference says the converse. -/
def is_better (prefs : preference_type → List preference) (a b : Symbol) : Bool :=
  (prefs .BETTER_PREFERENCE_TYPE).any (fun p => decide (p.value = a ∧ p.referent = b)) ||
  (prefs .WORSE_PREFERENCE_TYPE).any (fun p => decide (p.value = b ∧ p.referent = a))

/-- Modelled from the spec: step 9, the candidates that some candidate is better than. -/
def dominated_candidates (prefs : preference_type → List preference) (cands : List Symbol) :
    List Symbol :=
  cands.filter (fun b => cands.any (fun a => is_better prefs a b))

/-- Modelled from the spec: step 9, the candidates left after `n` rounds of discarding the
candidates that no remaining candidate is better than. The better-than order has a cycle
among the candidates exactly when something is left after as many rounds as there are
candidates. -/
def candidates_on_cycles (prefs : preference_type → List preference) :
    Nat → List Symbol → List Symbol
  | 0, cands => cands
  | n + 1, cands => candidates_on_cycles prefs n (dominated_candidates prefs cands)

/-- Modelled from the spec: step 9, the candidates that no candidate is better than. -/
def undominated_candidates (prefs : preference_type → List preference) (cands : List Symbol) :
    List Symbol :=
  cands.filter (fun b => !cands.any (fun a => is_better prefs a b))

/-- Modelled from the spec: step 5, best: when some candidate has a best preference, the
candidates with a best preference go above the others. -/
def promote_best (prefs : preference_type → List preference) (cands : List Symbol) :
    List Symbol :=
  if cands.any (fun v => has_preference prefs .BEST_PREFERENCE_TYPE v) then
    cands.filter (fun v => has_preference prefs .BEST_PREFERENCE_TYPE v)
  else cands

/-- Modelled from the spec: step 5, worst: the candidates with a worst preference go below
the others, "unless doing so would empty the candidate set". -/
def demote_worst (prefs : preference_type → List preference) (cands : List Symbol) :
    List Symbol :=
  if cands.all (fun v => has_preference prefs .WORST_PREFERENCE_TYPE v) then cands
  else cands.filter (fun v => !has_preference prefs .WORST_PREFERENCE_TYPE v)

/-- Modelled from the spec: step 8, the candidates are mutually marked indifferent: each one
has a unary indifferent preference or is tied by a binary indifferent preference to every
other candidate. -/
def mutually_indifferent (prefs : preference_type → List preference) (cands : List Symbol) :
    Bool :=
  cands.all (fun a =>
    has_preference prefs .UNARY_INDIFFERENT_PREFERENCE_TYPE a ||
    cands.all (fun b =>
      decide (b = a) ||
      (prefs .BINARY_INDIFFERENT_PREFERENCE_TYPE).any (fun p =>
        decide ((p.value = a ∧ p.referent = b) ∨ (p.value = b ∧ p.referent = a)))))

/-- Modelled from the spec: step 8, the stable selection among mutually indifferent
candidates: the value of the first acceptable preference, in the order of the list
`preferences[ACCEPTABLE]`, that is for one of the candidates (there is one, the candidates
being values of acceptable preferences). That list is in ascending support depth and, at
equal depth, in creation order: closest-to-root support first, then "lowest creation
order". -/
def select_by_creation_order (prefs : preference_type → List preference)
    (cands : List Symbol) : List Symbol :=
  match (prefs .ACCEPTABLE_PREFERENCE_TYPE).find? (fun p => decide (p.value ∈ cands)) with
  | some p => [p.value]
  | none => []

/-- Modelled from the spec: steps 6 to 8 on the ranked candidates. -/
def decide_candidates (prefs : preference_type → List preference) :
    List Symbol → impasse_type × List Symbol
  | [] => (.CONSTRAINT_FAILURE_IMPASSE_TYPE, [])
  | [v] => (.NONE_IMPASSE_TYPE, [v])
  | v :: w :: rest =>
    if mutually_indifferent prefs (v :: w :: rest) then
      (.NONE_IMPASSE_TYPE, select_by_creation_order prefs (v :: w :: rest))
    else (.TIE_IMPASSE_TYPE, v :: w :: rest)

/-- Modelled from the spec: `run_preference_semantics` (declared in `decide.h`; the body is in
`decide.cpp`, not among the sources), the resolution algorithm of section 4.2 on the per-type
preference lists of the slot. It returns the impasse type and the winning or impassed
candidate values. Vetoes first (step 2); then require (step 3): one required value wins
outright, several are a constraint failure; otherwise the acceptable values are the
candidates (step 4), the better / worse order is applied, a cycle in it being a conflict
(step 9), then best and worst (step 5), and the count of what remains decides (steps 6 to
8). The consistency mode runs "the same algorithm" and commits nothing, as does this
function. -/
def run_preference_semantics (s : slot) : impasse_type × List Symbol :=
  let prefs := s.preferences
  match surviving_values prefs .REQUIRE_PREFERENCE_TYPE with
  | [v] => (.NONE_IMPASSE_TYPE, [v])
  | v :: w :: rest => (.CONSTRAINT_FAILURE_IMPASSE_TYPE, v :: w :: rest)
  | [] =>
    let cands := surviving_values prefs .ACCEPTABLE_PREFERENCE_TYPE
    match candidates_on_cycles prefs cands.length cands with
    | c :: cs => (.CONFLICT_IMPASSE_TYPE, c :: cs)
    | [] =>
      decide_candidates prefs
        (demote_worst prefs (promote_best prefs (undominated_candidates prefs cands)))

/-- The context slot for `(id, attr)` obtained from the empty slot by adding the given
preferences, oldest first. -/
def slot_of_preferences (id attr : Symbol) (prefs : List preference) : slot :=
  prefs.foldl add_preference (empty_slot id attr true)

/-- A buffered link change: the link `from_id -> to_id` was added or removed. -/
structure link_change where
  from_id : Symbol
  to_id : Symbol
  added : Bool
deriving DecidableEq, Repr

/-- The dependency set `gds_struct` of `decide.h`: the goal it was created for and the WMEs
in it. -/
structure goal_dependency_set where
  goal : Symbol
  wmes_in_gds : List wme
deriving DecidableEq, Repr

/-- A goal of the goal stack with its pointer to the dependency set (`none` for NIL). -/
structure goal where
  id : Symbol
  gds : Option goal_dependency_set
deriving DecidableEq, Repr

/-- The part of the agent the decider's bookkeeping works on: the top goal (the root), the
identifiers alive in the store, the links between identifiers (one pair for every fact
`(from ^attr to)` whose value is an identifier), the goal-stack level of the identifiers,
the link changes buffered since the last flush, and the goal stack, top goal first. -/
structure agent where
  top_goal : Symbol
  identifiers : List Symbol
  links : List (Symbol × Symbol)
  levels : List (Symbol × Nat)
  buffered_link_changes : List link_change
  goal_stack : List goal
deriving DecidableEq, Repr

/-- Modelled from the spec: `post_link_addition` (declared and documented in `decide.h`; the
body is in `decide.cpp`, not among the sources) "records the link addition and buffers it for
later processing". -/
def post_link_addition (thisAgent : agent) (from_id to_id : Symbol) : agent :=
  { thisAgent with
    buffered_link_changes := thisAgent.buffered_link_changes ++ [⟨from_id, to_id, true⟩] }

/-- Modelled from the spec: `post_link_removal` (declared and documented in `decide.h`; the
body is in `decide.cpp`, not among the sources) "buffers the removal for later processing". -/
def post_link_removal (thisAgent : agent) (from_id to_id : Symbol) : agent :=
  { thisAgent with
    buffered_link_changes := thisAgent.buffered_link_changes ++ [⟨from_id, to_id, false⟩] }

/-- Modelled from the spec: the effect of one buffered event on the link graph. -/
def apply_link_change (links : List (Symbol × Symbol)) (c : link_change) :
    List (Symbol × Symbol) :=
  if c.added then links ++ [(c.from_id, c.to_id)] else links.erase (c.from_id, c.to_id)

/-- Modelled from the spec: one round of the breadth-first propagation: the identifiers seen
so far and the ones a link leads to from them. -/
def reach_step (links : List (Symbol × Symbol)) (seen : List Symbol) : List Symbol :=
  seen ++ (links.filter (fun e => decide (e.1 ∈ seen ∧ e.2 ∉ seen))).map Prod.snd

/-- Modelled from the spec: `n` rounds of the breadth-first propagation. -/
def reach_rounds (links : List (Symbol × Symbol)) : Nat → List Symbol → List Symbol
  | 0, seen => seen
  | n + 1, seen => reach_rounds links n (reach_step links seen)

/-- Modelled from the spec: the identifiers found by the breadth-first propagation from the
root; every round that finds something uses up a link, so as many rounds as there are links
are enough. -/
def reachable_from (links : List (Symbol × Symbol)) (root : Symbol) : List Symbol :=
  reach_rounds links links.length [root]

/-- Modelled from the spec: the depth of an identifier, the first round of the propagation
that reaches it (`none` when no round does). -/
def level_of (links : List (Symbol × Symbol)) (root o : Symbol) : Option Nat :=
  (List.range (links.length + 1)).find? (fun k => decide (o ∈ reach_rounds links k [root]))

/-- Modelled from the spec: `do_buffered_link_changes` (documented in `decide.h`; the body is
in `decide.cpp`, not among the sources), the flush of section 4.3. It processes all buffered
events, recomputes the depth of the identifiers by breadth-first propagation from the root
and destroys the identifiers that have no path from the root. Destroying an identifier
releases its facts: the links that leave it are queued as removals for the next flush. -/
def do_buffered_link_changes (thisAgent : agent) : agent :=
  let links := thisAgent.buffered_link_changes.foldl apply_link_change thisAgent.links
  let found := reachable_from links thisAgent.top_goal
  let kept := thisAgent.identifiers.filter (fun o => decide (o ∈ found))
  let destroyed := thisAgent.identifiers.filter (fun o => decide (o ∉ found))
  { thisAgent with
    identifiers := kept
    links := links
    levels := kept.filterMap (fun o => (level_of links thisAgent.top_goal o).map (fun k => (o, k)))
    buffered_link_changes :=
      (links.filter (fun e => decide (e.1 ∈ destroyed))).map (fun e => ⟨e.1, e.2, false⟩) }

/-- An identifier is reachable from the root when a chain of links leads from the root to
it. -/
def reachable (links : List (Symbol × Symbol)) (root o : Symbol) : Prop :=
  Relation.ReflTransGen (fun a b => (a, b) ∈ links) root o

/-- An identifier lies on a cycle when a nonempty chain of links leads from it back to
itself. -/
def on_cycle (links : List (Symbol × Symbol)) (o : Symbol) : Prop :=
  Relation.TransGen (fun a b => (a, b) ∈ links) o o

/-- A set of identifiers is closed when no link leaves it. -/
def closed_under_links (links : List (Symbol × Symbol)) (seen : List Symbol) : Prop :=
  ∀ e ∈ links, e.1 ∈ seen → e.2 ∈ seen

/-- The store of the scenario of section 8: root `0`, identifiers `1` and `2` on a cycle, one
link from the root to `1`. -/
def cycle_store : agent where
  top_goal := 0
  identifiers := [0, 1, 2]
  links := [(0, 1), (1, 2), (2, 1)]
  levels := [(0, 0), (1, 1), (2, 2)]
  buffered_link_changes := []
  goal_stack := []

/-- The scenario of section 8: the removal of the only link from the root to the cycle has
been posted. -/
def cycle_scenario : agent := post_link_removal cycle_store 0 1

/-- Modelled from the spec: `remove_existing_context_and_descendents` (declared in
`decide.h`; the body is in `decide.cpp`, not among the sources) removes the goal "and
everything below it in the goal stack, in a single transactional pass". -/
def remove_existing_context_and_descendents (thisAgent : agent) (g : Symbol) : agent :=
  { thisAgent with goal_stack := thisAgent.goal_stack.takeWhile (fun x => decide (x.id ≠ g)) }

/-- Tells whether the WME is in the dependency set of the goal. -/
def in_gds_of (w : wme) (g : goal) : Bool :=
  match g.gds with
  | some d => decide (w ∈ d.wmes_in_gds)
  | none => false

/-- Modelled from the spec: `gds_invalid_so_remove_goal` (declared in `decide.h`; the body is
in `decide.cpp`, not among the sources), called on a change to the WME `w`: "if a WME changes
that is on a GDS, the goal that the GDS points to is immediately removed". The removal is
part of the change; every later decision starts from the agent returned here. -/
def gds_invalid_so_remove_goal (thisAgent : agent) (w : wme) : agent :=
  match thisAgent.goal_stack.find? (fun g => in_gds_of w g) with
  | some g => remove_existing_context_and_descendents thisAgent g.id
  | none => thisAgent

/-- A sample goal stack: the top goal `1`, below it goal `2` whose dependency set holds the
WME `(1 ^5 6)`, below it goal `3`. -/
def gds_scenario : agent where
  top_goal := 1
  identifiers := [1, 2, 3]
  links := [(1, 2), (2, 3)]
  levels := [(1, 1), (2, 2), (3, 3)]
  buffered_link_changes := []
  goal_stack := [⟨1, none⟩, ⟨2, some ⟨2, [⟨1, 5, 6, 40⟩]⟩⟩, ⟨3, none⟩]

end Decide

/-! ### production.cpp : transitive-closure numbers and production deallocation -/

namespace Production

/-- The kinds of symbols. -/
inductive symbol_type where
  | VARIABLE_SYMBOL_TYPE
  | IDENTIFIER_SYMBOL_TYPE
  | SYM_CONSTANT_SYMBOL_TYPE
  | INT_CONSTANT_SYMBOL_TYPE
  | FLOAT_CONSTANT_SYMBOL_TYPE
deriving DecidableEq, Repr

/-- A symbol: its kind, its print name and its `tc_num` mark. A `tc_number` is an unsigned
machine integer, carried as a natural number; the typedef is in `kernel.h`, not among the
sources, so its width `tc_bits` is a parameter of the function that does arithmetic on it. -/
structure Symbol where
  symbol_type : symbol_type
  name : String
  tc_num : Nat
deriving DecidableEq, Repr

/-- A release of memory or of a reference done by one of the deallocation routines called in
`deallocate_production`; the arguments identify what is released. -/
inductive release where
  | deallocate_action_list (action_list : List Nat)
  | deallocate_symbol_list_removing_references (syms : List Symbol)
  | symbol_remove_ref (sym : Symbol)
  | free_memory_block_for_string (str : String)
  | deallocate_condition_list (cond_list : List Nat)
  | delete_rl_template_instantiations (insts : List Nat)
  | free_with_pool_production (name : Symbol)
deriving DecidableEq, Repr

/-- The part of the agent these routines work on: the counter `current_tc_number`, the
symbols that exist (the symbol tables), and the releases done so far, oldest first. -/
structure agent where
  current_tc_number : Nat
  symbols : List Symbol
  released : List release
deriving DecidableEq, Repr

/-- The fields of a `production` that `deallocate_production` reads; actions, conditions and
instantiations are referred to by number, a NIL list is the empty list, a null pointer is
`none`. -/
structure production where
  name : Symbol
  documentation : Option String
  filename : Option String
  action_list : List Nat
  rhs_unbound_variables : List Symbol
  instantiations : List Nat
  rl_template_conds : List Nat
  rl_template_instantiations : Option (List Nat)
deriving DecidableEq, Repr

/-- How a routine that may hit a fatal internal error ends: it returns, or it is aborted
with a message, in the agent state reached at that point. -/
inductive outcome (α : Type) where
  | returned (a : α)
  | fatal_error (msg : String) (a : α)
deriving DecidableEq, Repr

/-- Modelled from the spec: `reset_id_and_variable_tc_numbers` is defined in `symtab.cpp`,
which is not among the sources; as the documentation of `get_new_tc_number` says, it resets
"the tc_num fields on all existing identifiers and variables to 0". -/
def reset_id_and_variable_tc_numbers (thisAgent : agent) : agent :=
  { thisAgent with
    symbols := thisAgent.symbols.map (fun sym =>
      if sym.symbol_type = .IDENTIFIER_SYMBOL_TYPE ∨ sym.symbol_type = .VARIABLE_SYMBOL_TYPE
      then { sym with tc_num := 0 } else sym) }

/-- The function `get_new_tc_number (thisAgent)`: the incremented counter, bumped to 1 with all marks
reset when the increment wraps around to 0. -/
def get_new_tc_number (tc_bits : Nat) (thisAgent : agent) : Nat × agent :=
  let thisAgent1 : agent :=
    { thisAgent with current_tc_number := (thisAgent.current_tc_number + 1) % 2 ^ tc_bits }
  if thisAgent1.current_tc_number = 0 then
    let thisAgent2 := reset_id_and_variable_tc_numbers thisAgent1
    let thisAgent3 : agent := { thisAgent2 with current_tc_number := 1 }
    (thisAgent3.current_tc_number, thisAgent3)
  else (thisAgent1.current_tc_number, thisAgent1)

/-- Modelled from the spec: `abort_with_fatal_error` is not among the sources; a contract
violation must "abort the operation with a diagnosable internal error, never silently
ignored", and `hash_condition` marks the statement that follows such a call as unreachable.
The routine that calls it ends there, with the message, in the agent state it had. -/
def abort_with_fatal_error {α : Type} (thisAgent : α) (msg : String) : outcome α :=
  .fatal_error msg thisAgent

/-- The string left in a buffer of `size` characters by `strncpy (msg, src, size)` followed
by `msg[size - 1] = 0`: the first `size - 1` characters of `src`. -/
def strncpy_terminated (src : String) (size : Nat) : String :=
  ⟨src.data.take (size - 1)⟩

/-- Records one release in the agent. -/
def do_release (thisAgent : agent) (r : release) : agent :=
  { thisAgent with released := thisAgent.released ++ [r] }

/-- The function `deallocate_production (thisAgent, prod)`. The message buffer holds `BUFFER_MSG_SIZE`
characters, the last one being the terminator; the constant is not among the sources. -/
def deallocate_production (BUFFER_MSG_SIZE : Nat) (thisAgent : agent) (prod : production) :
    outcome agent :=
  if prod.instantiations ≠ [] then
    let msg := strncpy_terminated "Internal error: deallocating prod. that still has inst's\n"
      BUFFER_MSG_SIZE
    abort_with_fatal_error thisAgent msg
  else
    let a1 := do_release thisAgent (.deallocate_action_list prod.action_list)
    let a2 := do_release a1 (.deallocate_symbol_list_removing_references prod.rhs_unbound_variables)
    let a3 := do_release a2 (.symbol_remove_ref prod.name)
    let a4 :=
      match prod.documentation with
      | some str => do_release a3 (.free_memory_block_for_string str)
      | none => a3
    let a5 :=
      match prod.filename with
      | some str => do_release a4 (.free_memory_block_for_string str)
      | none => a4
    let a6 :=
      if prod.rl_template_conds ≠ [] then
        do_release a5 (.deallocate_condition_list prod.rl_template_conds)
      else a5
    let a7 :=
      match prod.rl_template_instantiations with
      | some insts => do_release a6 (.delete_rl_template_instantiations insts)
      | none => a6
    .returned (do_release a7 (.free_with_pool_production prod.name))

/-- The releases a completed `deallocate_production` does, in order. -/
def production_releases (prod : production) : List release :=
  [.deallocate_action_list prod.action_list,
   .deallocate_symbol_list_removing_references prod.rhs_unbound_variables,
   .symbol_remove_ref prod.name] ++
  (prod.documentation.toList.map .free_memory_block_for_string) ++
  (prod.filename.toList.map .free_memory_block_for_string) ++
  (if prod.rl_template_conds ≠ [] then [.deallocate_condition_list prod.rl_template_conds]
   else []) ++
  (prod.rl_template_instantiations.toList.map .delete_rl_template_instantiations) ++
  [.free_with_pool_production prod.name]

/-- A sample agent whose counter is at the largest 64-bit value. -/
def sample_agent : agent where
  current_tc_number := 2 ^ 64 - 1
  symbols := [⟨.IDENTIFIER_SYMBOL_TYPE, "S1", 2 ^ 64 - 1⟩, ⟨.VARIABLE_SYMBOL_TYPE, "<x>", 5⟩,
    ⟨.SYM_CONSTANT_SYMBOL_TYPE, "name", 0⟩]
  released := []

/-- A sample production that still has one instantiation. -/
def sample_production : production where
  name := ⟨.SYM_CONSTANT_SYMBOL_TYPE, "propose*move", 0⟩
  documentation := some "doc"
  filename := none
  action_list := [1, 2]
  rhs_unbound_variables := []
  instantiations := [9]
  rl_template_conds := []
  rl_template_instantiations := none

/-! ### production.cpp : tests, conditions and the transitive-closure routines

A pointer to a symbol is the index of the symbol in `agent.symbols`; a pointer that is not
such an index refers to no symbol. -/

/-- A test, as far as the routines of `production.cpp` read it: the blank test, an equality
test with its referent, and the complex tests: goal and impasse tests, a disjunction (it
lists constants, which these routines never read), a conjunction with its list of conjuncts,
and the relational tests other than equality, each with its kind and its referent. -/
inductive test where
  | blank_test
  | equality_test (referent : Nat)
  | GOAL_ID_TEST
  | IMPASSE_ID_TEST
  | DISJUNCTION_TEST
  | CONJUNCTIVE_TEST (conjunct_list : List test)
  | relational_test (type : Nat) (referent : Nat)
deriving Repr

/-- A condition: a positive condition with its backtrace information, a negative condition,
or a conjunctive negation with the list of its conditions from `data.ncc.top` on. -/
inductive condition where
  | POSITIVE_CONDITION (bt : Nat) (id_test attr_test value_test : test)
      (test_for_acceptable_preference : Bool)
  | NEGATIVE_CONDITION (id_test attr_test value_test : test)
      (test_for_acceptable_preference : Bool)
  | CONJUNCTIVE_NEGATION_CONDITION (top : List condition)
deriving Repr

/-- The agent together with the two list headers `*id_list` and `*var_list` that the marking
routines update; `none` stands for a null `id_list` or `var_list` (no list wanted). -/
structure marking where
  thisAgent : agent
  id_list : Option (List Nat)
  var_list : Option (List Nat)
deriving DecidableEq, Repr

/-- The assignment `sym->tc_num = tc`. -/
def set_tc_num (thisAgent : agent) (sym : Nat) (tc : Nat) : agent :=
  { thisAgent with symbols := thisAgent.symbols.modify (fun s => { s with tc_num := tc }) sym }

/-- The macro `push (thisAgent, sym, *list)` on a list header that may be null. -/
def push_if_list (sym : Nat) (list : Option (List Nat)) : Option (List Nat) :=
  match list with
  | some l => some (sym :: l)
  | none => none

/-- The function `mark_identifier_if_unmarked (thisAgent, ident, tc, id_list)`. -/
def mark_identifier_if_unmarked (m : marking) (ident : Nat) (tc : Nat) : marking :=
  match m.thisAgent.symbols[ident]? with
  | some s =>
    if s.tc_num ≠ tc then
      { m with thisAgent := set_tc_num m.thisAgent ident tc
               id_list := push_if_list ident m.id_list }
    else m
  | none => m

/-- The function `mark_variable_if_unmarked (thisAgent, v, tc, var_list)`. -/
def mark_variable_if_unmarked (m : marking) (v : Nat) (tc : Nat) : marking :=
  match m.thisAgent.symbols[v]? with
  | some s =>
    if s.tc_num ≠ tc then
      { m with thisAgent := set_tc_num m.thisAgent v tc
               var_list := push_if_list v m.var_list }
    else m
  | none => m

/-- The function `unmark_identifiers_and_free_list (thisAgent, id_list)`. -/
def unmark_identifiers_and_free_list (thisAgent : agent) : List Nat → agent
  | [] => thisAgent
  | sym :: next => unmark_identifiers_and_free_list (set_tc_num thisAgent sym 0) next

/-- The function `unmark_variables_and_free_list (thisAgent, var_list)`. -/
def unmark_variables_and_free_list (thisAgent : agent) : List Nat → agent
  | [] => thisAgent
  | sym :: next => unmark_variables_and_free_list (set_tc_num thisAgent sym 0) next

/-- The function `add_symbol_to_tc (thisAgent, sym, tc, id_list, var_list)`. -/
def add_symbol_to_tc (m : marking) (sym : Nat) (tc : Nat) : marking :=
  match m.thisAgent.symbols[sym]? with
  | some s =>
    if s.symbol_type = .VARIABLE_SYMBOL_TYPE then mark_variable_if_unmarked m sym tc
    else if s.symbol_type = .IDENTIFIER_SYMBOL_TYPE then mark_identifier_if_unmarked m sym tc
    else m
  | none => m

/-- The function `symbol_is_in_tc (sym, tc)`. -/
def symbol_is_in_tc (thisAgent : agent) (sym : Nat) (tc : Nat) : Bool :=
  match thisAgent.symbols[sym]? with
  | some s =>
    if s.symbol_type = .VARIABLE_SYMBOL_TYPE then decide (s.tc_num = tc)
    else if s.symbol_type = .IDENTIFIER_SYMBOL_TYPE then decide (s.tc_num = tc)
    else false
  | none => false

mutual
/-- The function `add_test_to_tc (thisAgent, t, tc, id_list, var_list)`. -/
def add_test_to_tc (m : marking) : test → Nat → marking
  | .blank_test, _ => m
  | .equality_test referent, tc => add_symbol_to_tc m referent tc
  | .CONJUNCTIVE_TEST conjunct_list, tc => add_tests_to_tc m conjunct_list tc
  | _, _ => m
/-- The loop of `add_test_to_tc` over the conjuncts of a conjunctive test. -/
def add_tests_to_tc (m : marking) : List test → Nat → marking
  | [], _ => m
  | t :: rest, tc => add_tests_to_tc (add_test_to_tc m t tc) rest tc
end

/-- The function `add_cond_to_tc (thisAgent, c, tc, id_list, var_list)`. -/
def add_cond_to_tc (m : marking) (c : condition) (tc : Nat) : marking :=
  match c with
  | .POSITIVE_CONDITION _ id_test _ value_test _ =>
    add_test_to_tc (add_test_to_tc m id_test tc) value_test tc
  | _ => m

mutual
/-- The function `test_is_in_tc (t, tc)`. -/
def test_is_in_tc (thisAgent : agent) : test → Nat → Bool
  | .blank_test, _ => false
  | .equality_test referent, tc => symbol_is_in_tc thisAgent referent tc
  | .CONJUNCTIVE_TEST conjunct_list, tc => tests_are_in_tc thisAgent conjunct_list tc
  | _, _ => false
/-- The loop of `test_is_in_tc` over the conjuncts of a conjunctive test: `true` at the first
conjunct in the closure. -/
def tests_are_in_tc (thisAgent : agent) : List test → Nat → Bool
  | [], _ => false
  | t :: rest, tc => if test_is_in_tc thisAgent t tc then true else tests_are_in_tc thisAgent rest tc
end

/-- A condition of a conjunctive negation as the loops of `cond_is_in_tc` see it: its flag
`already_in_tc`, the call `cond_is_in_tc (thisAgent, c, tc)` on it (`none` when that call
does not come to an end) and the condition itself. -/
structure ncc_entry where
  already_in_tc : Bool
  is_in_tc : agent → Option (Bool × agent)
  c : condition

/-- One run of the inner `for` loop of `cond_is_in_tc` over the conditions of the conjunctive
negation from `c` on: every condition not yet in the closure is tested and, when it is in
the closure, added to it and flagged. The result holds the conditions with their new flags,
the agent with the lists `new_ids` and `new_vars`, and `anything_changed`. -/
def ncc_pass (tc : Nat) :
    List ncc_entry → marking → Bool → Option (List ncc_entry × marking × Bool)
  | [], m, anything_changed => some ([], m, anything_changed)
  | e :: next, m, anything_changed =>
    if e.already_in_tc then
      match ncc_pass tc next m anything_changed with
      | some (es, m', ch) => some (e :: es, m', ch)
      | none => none
    else
      match e.is_in_tc m.thisAgent with
      | none => none
      | some (true, a1) =>
        match ncc_pass tc next (add_cond_to_tc { m with thisAgent := a1 } e.c tc) true with
        | some (es, m', ch) => some ({ e with already_in_tc := true } :: es, m', ch)
        | none => none
      | some (false, a1) =>
        match ncc_pass tc next { m with thisAgent := a1 } anything_changed with
        | some (es, m', ch) => some (e :: es, m', ch)
        | none => none

/-- The loop `while (true)` of `cond_is_in_tc`, run for at most `passes` runs of the inner
loop: it ends at the first run that changes nothing; `none` when `passes` runs do not reach
that point or a call on a condition does not come to an end. -/
def ncc_while (tc : Nat) : Nat → List ncc_entry → marking → Option (List ncc_entry × marking)
  | 0, _, _ => none
  | passes + 1, es, m =>
    match ncc_pass tc es m false with
    | none => none
    | some (es', m', anything_changed) =>
      if !anything_changed then some (es', m') else ncc_while tc passes es' m'

/-- The part of `cond_is_in_tc` for a conjunctive negation, on its conditions with their
flags cleared: the loop until nothing changes, the test that every condition got hit, and
the unmarking of the identifiers and variables marked on the way. Every run of the inner
loop but the last flags a condition, so one run more than there are conditions is enough. -/
def ncc_is_in_tc (tc : Nat) (es : List ncc_entry) (thisAgent : agent) : Option (Bool × agent) :=
  match ncc_while tc (es.length + 1) es ⟨thisAgent, some [], some []⟩ with
  | none => none
  | some (es', m) =>
    -- complete TC found, look for anything that didn't get hit
    let result := es'.all (fun e => e.already_in_tc)
    -- unmark identifiers and variables that we just marked
    let a1 := unmark_identifiers_and_free_list m.thisAgent (m.id_list.getD [])
    let a2 := unmark_variables_and_free_list a1 (m.var_list.getD [])
    some (result, a2)

mutual
/-- The function `cond_is_in_tc (thisAgent, cond, tc)`: the result and the agent afterwards;
`none` when the call does not come to an end. -/
def cond_is_in_tc : condition → Nat → agent → Option (Bool × agent)
  | .POSITIVE_CONDITION _ id_test _ _ _, tc, thisAgent =>
    some (test_is_in_tc thisAgent id_test tc, thisAgent)
  | .NEGATIVE_CONDITION id_test _ _ _, tc, thisAgent =>
    some (test_is_in_tc thisAgent id_test tc, thisAgent)
  | .CONJUNCTIVE_NEGATION_CONDITION top, tc, thisAgent =>
    -- conjunctive negations:  keep trying to add stuff to the TC
    ncc_is_in_tc tc (ncc_entries top tc) thisAgent
/-- The conditions of a conjunctive negation from `c` on, each with `already_in_tc` cleared
and with the call of `cond_is_in_tc` on it. -/
def ncc_entries : List condition → Nat → List ncc_entry
  | [], _ => []
  | c :: next, tc => ⟨false, cond_is_in_tc c tc, c⟩ :: ncc_entries next tc
end

/-- The lists of a marking are well formed for `tc` when every entry of `id_list` is an
identifier marked with `tc`, every entry of `var_list` is a variable marked with `tc`, and no
pointer occurs twice in the two lists together. -/
def tc_lists_wf (tc : Nat) (m : marking) : Prop :=
  (∀ p ∈ m.id_list.getD [], ∃ s, m.thisAgent.symbols[p]? = some s ∧
    s.symbol_type = .IDENTIFIER_SYMBOL_TYPE ∧ s.tc_num = tc) ∧
  (∀ p ∈ m.var_list.getD [], ∃ s, m.thisAgent.symbols[p]? = some s ∧
    s.symbol_type = .VARIABLE_SYMBOL_TYPE ∧ s.tc_num = tc) ∧
  (m.id_list.getD [] ++ m.var_list.getD []).Nodup

/-- Two states of the agent agree on the transitive closure `tc`: every pointer refers to a
symbol of the same type in both, and is marked with `tc` in the one exactly when it is in
the other. -/
def tc_equiv (tc : Nat) (a a' : agent) : Prop :=
  ∀ p : Nat, (a'.symbols[p]?).map (fun s => s.symbol_type) =
      (a.symbols[p]?).map (fun s => s.symbol_type) ∧
    ((a'.symbols[p]?).map (fun s => s.tc_num) = some tc ↔
      (a.symbols[p]?).map (fun s => s.tc_num) = some tc)

/-- The state `a` with the lists `new_ids` and `new_vars` inside a call of `cond_is_in_tc`
that started in the state `a0`: the types of the symbols are those of `a0`, the symbols
marked with `tc` are those marked in `a0` and those on the lists, and no symbol on the lists
was marked in `a0`. -/
def ncc_invariant (tc : Nat) (a0 a : agent) (ids vars : List Nat) : Prop :=
  ∀ p : Nat, (a.symbols[p]?).map (fun s => s.symbol_type) =
      (a0.symbols[p]?).map (fun s => s.symbol_type) ∧
    ((a.symbols[p]?).map (fun s => s.tc_num) = some tc ↔
      ((a0.symbols[p]?).map (fun s => s.tc_num) = some tc ∨ p ∈ ids ∨ p ∈ vars)) ∧
    ((p ∈ ids ∨ p ∈ vars) → (a0.symbols[p]?).map (fun s => s.tc_num) ≠ some tc)

/-- A call on a condition comes to an end in every state and leaves the transitive closure
`tc` as it was. -/
def returns_with_same_tc (tc : Nat) (f : agent → Option (Bool × agent)) : Prop :=
  ∀ a, ∃ r a', f a = some (r, a') ∧ tc_equiv tc a a'

/-- The number of conditions not yet flagged `already_in_tc`. -/
def not_yet_in_tc : List ncc_entry → Nat
  | [] => 0
  | e :: next => (if e.already_in_tc then 0 else 1) + not_yet_in_tc next

/-! ### production.cpp : `conditions_are_equal` -/

/-- The values of the field `type` of a condition. -/
inductive condition_type where
  | POSITIVE_CONDITION
  | NEGATIVE_CONDITION
  | CONJUNCTIVE_NEGATION_CONDITION
deriving DecidableEq, Repr

/-- The field `type` of a condition. -/
def condition.type : condition → condition_type
  | .POSITIVE_CONDITION _ _ _ _ _ => .POSITIVE_CONDITION
  | .NEGATIVE_CONDITION _ _ _ _ => .NEGATIVE_CONDITION
  | .CONJUNCTIVE_NEGATION_CONDITION _ => .CONJUNCTIVE_NEGATION_CONDITION

mutual
/-- The function `conditions_are_equal (c1, c2)`; the function `tests_are_equal (t1, t2, neg)`
of `test.cpp` is a parameter. -/
def conditions_are_equal (tests_are_equal : test → test → Bool → Bool) :
    condition → condition → Bool
  | .POSITIVE_CONDITION _ id1 attr1 value1 acc1, .POSITIVE_CONDITION _ id2 attr2 value2 acc2 =>
    if !tests_are_equal id1 id2 false then false
    else if !tests_are_equal attr1 attr2 false then false
    else if !tests_are_equal value1 value2 false then false
    else if acc1 != acc2 then false
    else true
  | .NEGATIVE_CONDITION id1 attr1 value1 acc1, .NEGATIVE_CONDITION id2 attr2 value2 acc2 =>
    if !tests_are_equal id1 id2 true then false
    else if !tests_are_equal attr1 attr2 true then false
    else if !tests_are_equal value1 value2 true then false
    else if acc1 != acc2 then false
    else true
  | .CONJUNCTIVE_NEGATION_CONDITION top1, .CONJUNCTIVE_NEGATION_CONDITION top2 =>
    condition_lists_are_equal tests_are_equal top1 top2
  | _, _ => false
/-- The loop of `conditions_are_equal` over the conditions of two conjunctive negations in
step, with the test that both lists hit their end together. -/
def condition_lists_are_equal (tests_are_equal : test → test → Bool → Bool) :
    List condition → List condition → Bool
  | [], [] => true
  | c1 :: next1, c2 :: next2 =>
    if !conditions_are_equal tests_are_equal c1 c2 then false
    else condition_lists_are_equal tests_are_equal next1 next2
  | _, _ => false
end

/-- A key of a test for the sample below: its kind, with the referent or the number of
conjuncts. -/
def sample_test_key : test → Nat × Nat × Nat
  | .blank_test => (0, 0, 0)
  | .equality_test referent => (1, 0, referent)
  | .GOAL_ID_TEST => (2, 0, 0)
  | .IMPASSE_ID_TEST => (3, 0, 0)
  | .DISJUNCTION_TEST => (4, 0, 0)
  | .CONJUNCTIVE_TEST conjunct_list => (5, 0, conjunct_list.length)
  | .relational_test type referent => (6, type, referent)

/-- A sample for `tests_are_equal`: the two tests have the same key. -/
def sample_tests_are_equal (t1 t2 : test) (_neg : Bool) : Bool :=
  decide (sample_test_key t1 = sample_test_key t2)

/-! ### production.cpp : `copy_condition` and `copy_condition_list`

The list to copy is given as the list of its conditions; the copy is built in memory, cell
by cell, so that its links can be read. -/

/-- The null pointer. -/
def NIL : Nat := 0

/-- A condition in memory, `struct condition_struct`: its type, the backtrace information,
the three tests and the acceptable-preference flag of a positive or negative condition, the
pointers `data.ncc.top` and `data.ncc.bottom` of a conjunctive negation, and the links
`next` and `prev`. -/
structure condition_struct where
  type : condition_type
  bt : Nat
  id_test : test
  attr_test : test
  value_test : test
  test_for_acceptable_preference : Bool
  ncc_top : Nat
  ncc_bottom : Nat
  next : Nat
  prev : Nat

/-- Modelled from the spec: the memory pool `thisAgent->condition_pool` of `mem.h`, which is
not among the sources: the cells by address, whatever they hold, and the last address handed
out; the addresses above it are free. -/
structure memory_pool where
  cells : Nat → condition_struct
  next_free : Nat

/-- Modelled from the spec: the macro `allocate_with_pool` of `mem.h`, which is not among the
sources: it hands out a free cell, never the null pointer, and leaves the contents of the
memory alone. -/
def allocate_with_pool (pool : memory_pool) : Nat × memory_pool :=
  (pool.next_free + 1, { pool with next_free := pool.next_free + 1 })

/-- An assignment to fields of the cell at `p`. -/
def memory_pool.assign (pool : memory_pool) (p : Nat) (f : condition_struct → condition_struct) :
    memory_pool :=
  { pool with cells := fun q => if q = p then f (pool.cells q) else pool.cells q }

/-- The end of `copy_condition_list`, after its loop:
`if (prev) prev->next = NIL; else *dest_top = NIL; *dest_bottom = prev;`. The result is
`*dest_top`, `*dest_bottom` and the memory. -/
def copy_condition_list_finish (r : Nat × Nat × memory_pool) : Nat × Nat × memory_pool :=
  if r.2.1 ≠ NIL then (r.1, r.2.1, r.2.2.assign r.2.1 (fun c => { c with next := NIL }))
  else (NIL, r.2.1, r.2.2)

mutual
/-- The function `copy_condition (thisAgent, cond)` on a condition that is not null (for a
null pointer it returns NIL at once): the new condition and the memory afterwards. The
function `copy_test` of `test.cpp` is a parameter. -/
def copy_condition (copy_test : test → test) (pool : memory_pool) :
    condition → Nat × memory_pool
  | .POSITIVE_CONDITION bt id_test attr_test value_test acc =>
    let New := (allocate_with_pool pool).1
    let pool1 := (allocate_with_pool pool).2
    (New, pool1.assign New (fun c => { c with
      type := .POSITIVE_CONDITION
      bt := bt
      id_test := copy_test id_test
      attr_test := copy_test attr_test
      value_test := copy_test value_test
      test_for_acceptable_preference := acc }))
  | .NEGATIVE_CONDITION id_test attr_test value_test acc =>
    let New := (allocate_with_pool pool).1
    let pool1 := (allocate_with_pool pool).2
    (New, pool1.assign New (fun c => { c with
      type := .NEGATIVE_CONDITION
      id_test := copy_test id_test
      attr_test := copy_test attr_test
      value_test := copy_test value_test
      test_for_acceptable_preference := acc }))
  | .CONJUNCTIVE_NEGATION_CONDITION top =>
    let New := (allocate_with_pool pool).1
    let pool1 := (allocate_with_pool pool).2
    let pool2 := pool1.assign New (fun c => { c with type := .CONJUNCTIVE_NEGATION_CONDITION })
    let r := copy_condition_list_finish
      (copy_condition_loop copy_test pool2 top NIL (pool2.cells New).ncc_top)
    (New, r.2.2.assign New (fun c => { c with ncc_top := r.1, ncc_bottom := r.2.1 }))
/-- The loop of `copy_condition_list` from the condition `top_cond` on, with the current
`prev` and `*dest_top`: the result is `*dest_top`, `prev` and the memory at the end of the
loop. -/
def copy_condition_loop (copy_test : test → test) (pool : memory_pool) :
    List condition → Nat → Nat → Nat × Nat × memory_pool
  | [], prev, dest_top => (dest_top, prev, pool)
  | top_cond :: next, prev, dest_top =>
    let New := (copy_condition copy_test pool top_cond).1
    let pool1 := (copy_condition copy_test pool top_cond).2
    -- if (prev) prev->next = New; else *dest_top = New;
    let pool2 := if prev ≠ NIL then pool1.assign prev (fun c => { c with next := New }) else pool1
    let dest_top1 := if prev ≠ NIL then dest_top else New
    let pool3 := pool2.assign New (fun c => { c with prev := prev })
    copy_condition_loop copy_test pool3 next New dest_top1
end

/-- The function `copy_condition_list (thisAgent, top_cond, dest_top, dest_bottom)`: the
arguments are the list from `top_cond` on and what `*dest_top` holds before the call, the
result is `*dest_top`, `*dest_bottom` and the memory afterwards. -/
def copy_condition_list (copy_test : test → test) (pool : memory_pool)
    (top_cond : List condition) (dest_top : Nat) : Nat × Nat × memory_pool :=
  copy_condition_list_finish (copy_condition_loop copy_test pool top_cond NIL dest_top)

mutual
/-- The cell at `p` and, for a conjunctive negation, the list hanging from it hold the
condition `c`. -/
def represents (pool : memory_pool) : condition → Nat → Prop
  | .POSITIVE_CONDITION bt id_test attr_test value_test acc, p =>
    p ≠ NIL ∧ (pool.cells p).type = .POSITIVE_CONDITION ∧ (pool.cells p).bt = bt ∧
    (pool.cells p).id_test = id_test ∧ (pool.cells p).attr_test = attr_test ∧
    (pool.cells p).value_test = value_test ∧
    (pool.cells p).test_for_acceptable_preference = acc
  | .NEGATIVE_CONDITION id_test attr_test value_test acc, p =>
    p ≠ NIL ∧ (pool.cells p).type = .NEGATIVE_CONDITION ∧
    (pool.cells p).id_test = id_test ∧ (pool.cells p).attr_test = attr_test ∧
    (pool.cells p).value_test = value_test ∧
    (pool.cells p).test_for_acceptable_preference = acc
  | .CONJUNCTIVE_NEGATION_CONDITION top, p =>
    p ≠ NIL ∧ (pool.cells p).type = .CONJUNCTIVE_NEGATION_CONDITION ∧
    represents_list pool top (pool.cells p).ncc_top NIL (pool.cells p).ncc_bottom
/-- The cells from `first` on hold the conditions of the list, one after the other, linked
by `next` and `prev` in both directions: the `prev` of the first cell is `prev`, the `next`
of the last cell is NIL, and `last` is the last cell, or `prev` when the list is empty (then
`first` is NIL). -/
def represents_list (pool : memory_pool) : List condition → Nat → Nat → Nat → Prop
  | [], first, prev, last => first = NIL ∧ last = prev
  | c :: rest, first, prev, last =>
    represents pool c first ∧ (pool.cells first).prev = prev ∧
    represents_list pool rest (pool.cells first).next first last
end

mutual
/-- What a copy of the condition holds: the condition with every test replaced by its copy. -/
def copied_condition (copy_test : test → test) : condition → condition
  | .POSITIVE_CONDITION bt id_test attr_test value_test acc =>
    .POSITIVE_CONDITION bt (copy_test id_test) (copy_test attr_test) (copy_test value_test) acc
  | .NEGATIVE_CONDITION id_test attr_test value_test acc =>
    .NEGATIVE_CONDITION (copy_test id_test) (copy_test attr_test) (copy_test value_test) acc
  | .CONJUNCTIVE_NEGATION_CONDITION top =>
    .CONJUNCTIVE_NEGATION_CONDITION (copied_condition_list copy_test top)
/-- What a copy of the condition list holds. -/
def copied_condition_list (copy_test : test → test) : List condition → List condition
  | [] => []
  | c :: rest => copied_condition copy_test c :: copied_condition_list copy_test rest
end

mutual
/-- The number of cells of a condition: one, and those of the conditions of a conjunctive
negation. -/
def condition_cells : condition → Nat
  | .POSITIVE_CONDITION _ _ _ _ _ => 1
  | .NEGATIVE_CONDITION _ _ _ _ => 1
  | .CONJUNCTIVE_NEGATION_CONDITION top => 1 + condition_list_cells top
/-- The number of cells of a condition list. -/
def condition_list_cells : List condition → Nat
  | [] => 0
  | c :: rest => condition_cells c + condition_list_cells rest
end

/-- A cell without its links `next` and `prev`. -/
def unlinked (c : condition_struct) : condition_struct :=
  { c with next := NIL, prev := NIL }

/-- A sample memory: nothing handed out yet, every cell blank. -/
def sample_pool : memory_pool where
  cells := fun _ => ⟨.POSITIVE_CONDITION, 0, .blank_test, .blank_test, .blank_test, false, 0, 0, 0, 0⟩
  next_free := 0

/-- A sample condition list: `(S1 ^name <x>)`, then `-{ (S1 ^name <x>) }`, then
`-(<x> ^name S1)`. -/
def sample_condition_list : List condition :=
  [.POSITIVE_CONDITION 4 (.equality_test 0) (.equality_test 2) (.equality_test 1) false,
   .CONJUNCTIVE_NEGATION_CONDITION
     [.POSITIVE_CONDITION 0 (.equality_test 0) (.equality_test 2) (.equality_test 1) false],
   .NEGATIVE_CONDITION (.equality_test 1) (.equality_test 2) (.equality_test 0) true]

/-! ### production.cpp : collecting variables, and the variable generator -/

/-- A right-hand-side value: a symbol, or a function call with the function and the list of
its arguments (`fl->first` and `fl->rest` of the funcall list). -/
inductive rhs_value where
  | symbol (sym : Nat)
  | funcall (rhs_function : Nat) (args : List rhs_value)
deriving Repr

/-- The values of the field `type` of an action. -/
inductive action_type where
  | MAKE_ACTION
  | FUNCALL_ACTION
deriving DecidableEq, Repr

/-- An action: its type, the preference type and the support, the symbol `a->id` of a make
action, and the values `attr`, `value` and `referent`; a function call action uses `value`
only. -/
structure action where
  type : action_type
  preference_type : Nat
  support : Nat
  id : Nat
  attr : rhs_value
  value : rhs_value
  referent : rhs_value
deriving Repr

/-- The statement `if (sym->symbol_type==VARIABLE_SYMBOL_TYPE)
mark_variable_if_unmarked (thisAgent, sym, tc, var_list);` of the collecting routines. -/
def mark_if_variable (m : marking) (sym : Nat) (tc : Nat) : marking :=
  match m.thisAgent.symbols[sym]? with
  | some s =>
    if s.symbol_type = .VARIABLE_SYMBOL_TYPE then mark_variable_if_unmarked m sym tc else m
  | none => m

mutual
/-- The function `add_bound_variables_in_test (thisAgent, t, tc, var_list)`. -/
def add_bound_variables_in_test (m : marking) : test → Nat → marking
  | .blank_test, _ => m
  | .equality_test referent, tc => mark_if_variable m referent tc
  | .CONJUNCTIVE_TEST conjunct_list, tc => add_bound_variables_in_tests m conjunct_list tc
  | _, _ => m
/-- The loop of `add_bound_variables_in_test` over the conjuncts of a conjunctive test. -/
def add_bound_variables_in_tests (m : marking) : List test → Nat → marking
  | [], _ => m
  | t :: rest, tc => add_bound_variables_in_tests (add_bound_variables_in_test m t tc) rest tc
end

/-- The function `add_bound_variables_in_condition (thisAgent, c, tc, var_list)`. -/
def add_bound_variables_in_condition (m : marking) (c : condition) (tc : Nat) : marking :=
  match c with
  | .POSITIVE_CONDITION _ id_test attr_test value_test _ =>
    add_bound_variables_in_test
      (add_bound_variables_in_test (add_bound_variables_in_test m id_test tc) attr_test tc)
      value_test tc
  | _ => m

/-- The function `add_bound_variables_in_condition_list (thisAgent, cond_list, tc, var_list)`. -/
def add_bound_variables_in_condition_list (m : marking) : List condition → Nat → marking
  | [], _ => m
  | c :: next, tc =>
    add_bound_variables_in_condition_list (add_bound_variables_in_condition m c tc) next tc

mutual
/-- The function `add_all_variables_in_test (thisAgent, t, tc, var_list)`. -/
def add_all_variables_in_test (m : marking) : test → Nat → marking
  | .blank_test, _ => m
  | .equality_test referent, tc => mark_if_variable m referent tc
  | .GOAL_ID_TEST, _ => m
  | .IMPASSE_ID_TEST, _ => m
  | .DISJUNCTION_TEST, _ => m
  | .CONJUNCTIVE_TEST conjunct_list, tc => add_all_variables_in_tests m conjunct_list tc
  | .relational_test _ referent, tc => mark_if_variable m referent tc
/-- The loop of `add_all_variables_in_test` over the conjuncts of a conjunctive test. -/
def add_all_variables_in_tests (m : marking) : List test → Nat → marking
  | [], _ => m
  | t :: rest, tc => add_all_variables_in_tests (add_all_variables_in_test m t tc) rest tc
end

mutual
/-- The function `add_all_variables_in_condition (thisAgent, c, tc, var_list)`. -/
def add_all_variables_in_condition (m : marking) : condition → Nat → marking
  | .CONJUNCTIVE_NEGATION_CONDITION top, tc => add_all_variables_in_condition_list m top tc
  | .POSITIVE_CONDITION _ id_test attr_test value_test _, tc =>
    add_all_variables_in_test
      (add_all_variables_in_test (add_all_variables_in_test m id_test tc) attr_test tc)
      value_test tc
  | .NEGATIVE_CONDITION id_test attr_test value_test _, tc =>
    add_all_variables_in_test
      (add_all_variables_in_test (add_all_variables_in_test m id_test tc) attr_test tc)
      value_test tc
/-- The function `add_all_variables_in_condition_list (thisAgent, cond_list, tc, var_list)`. -/
def add_all_variables_in_condition_list (m : marking) : List condition → Nat → marking
  | [], _ => m
  | c :: next, tc =>
    add_all_variables_in_condition_list (add_all_variables_in_condition m c tc) next tc
end

mutual
/-- The function `add_all_variables_in_rhs_value (thisAgent, rv, tc, var_list)`. -/
def add_all_variables_in_rhs_value (m : marking) : rhs_value → Nat → marking
  | .symbol sym, tc => mark_if_variable m sym tc
  | .funcall _ args, tc => add_all_variables_in_rhs_values m args tc
/-- The loop of `add_all_variables_in_rhs_value` over the arguments of a function call. -/
def add_all_variables_in_rhs_values (m : marking) : List rhs_value → Nat → marking
  | [], _ => m
  | rv :: rest, tc =>
    add_all_variables_in_rhs_values (add_all_variables_in_rhs_value m rv tc) rest tc
end

/-- The function `add_all_variables_in_action (thisAgent, a, tc, var_list)`; the macro
`preference_is_binary` of `gdatastructs.h` is a parameter. -/
def add_all_variables_in_action (preference_is_binary : Nat → Bool) (m : marking) (a : action)
    (tc : Nat) : marking :=
  if a.type = .MAKE_ACTION then
    let m1 := mark_if_variable m a.id tc
    let m2 := add_all_variables_in_rhs_value m1 a.attr tc
    let m3 := add_all_variables_in_rhs_value m2 a.value tc
    if preference_is_binary a.preference_type then add_all_variables_in_rhs_value m3 a.referent tc
    else m3
  else add_all_variables_in_rhs_value m a.value tc

/-- The function `add_all_variables_in_action_list (thisAgent, actions, tc, var_list)`. -/
def add_all_variables_in_action_list (preference_is_binary : Nat → Bool) (m : marking) :
    List action → Nat → marking
  | [], _ => m
  | a :: next, tc =>
    add_all_variables_in_action_list preference_is_binary
      (add_all_variables_in_action preference_is_binary m a tc) next tc

/-- Record of a production as `make_production` fills it in. -/
structure production_struct where
  name : Nat
  documentation : Option String
  filename : Option String
  firing_count : Nat
  reference_count : Nat
  type : Nat
  declared_support : Nat
  trace_firings : Bool
  action_list : List action
  instantiations : List Nat
  interrupt : Bool
  rl_rule : Bool
  rl_efr : Int

/-- The agent as the variable generator and `make_production` see it: the part defined
above, the gensym number in use, the counters per first letter, the `gensym_number` and the
reference count of each symbol, and the registry of productions: the name of the production
being reordered, the productions of each type, newest first, their number, the field
`sc->production` of each symbol, and what has been printed. -/
structure agent_struct where
  kernel : agent
  current_variable_gensym_number : Nat
  gensymed_variable_count : Nat → Nat
  gensym_number : Nat → Nat
  reference_count : Nat → Nat
  name_of_production_being_reordered : String
  all_productions_of_type : Nat → List production_struct
  num_productions_of_type : Nat → Nat
  sc_production : Nat → Option production_struct
  printed : List String

/-- Modelled from the spec: `reset_variable_gensym_numbers` is defined in `symtab.cpp`, which
is not among the sources; it sets the gensym number of every variable back to 0. -/
def reset_variable_gensym_numbers (thisAgent : agent_struct) : agent_struct :=
  { thisAgent with gensym_number := fun _ => 0 }

/-- The loop `for (c=var_list; c!=NIL; c=c->rest)` of `reset_variable_generator`, which gives
each variable of the list the gensym number in use. -/
def set_gensym_numbers (thisAgent : agent_struct) : List Nat → agent_struct
  | [] => thisAgent
  | sym :: rest =>
    set_gensym_numbers
      { thisAgent with
        gensym_number := fun p =>
          if p = sym then thisAgent.current_variable_gensym_number
          else thisAgent.gensym_number p } rest

/-- The function `reset_variable_generator (thisAgent, conds_with_vars_to_avoid,
actions_with_vars_to_avoid)`; the widths of a `tc_number` and of the gensym number are
parameters. -/
def reset_variable_generator (tc_bits gensym_bits : Nat) (preference_is_binary : Nat → Bool)
    (thisAgent : agent_struct) (conds_with_vars_to_avoid : List condition)
    (actions_with_vars_to_avoid : List action) : agent_struct :=
  -- reset counts, and increment the gensym number
  let a1 : agent_struct := { thisAgent with
    gensymed_variable_count := fun i => if i < 26 then 1 else thisAgent.gensymed_variable_count i
    current_variable_gensym_number :=
      (thisAgent.current_variable_gensym_number + 1) % 2 ^ gensym_bits }
  let a2 : agent_struct :=
    if a1.current_variable_gensym_number = 0 then
      { reset_variable_gensym_numbers a1 with current_variable_gensym_number := 1 }
    else a1
  -- mark all variables in the given conds and actions
  let r := get_new_tc_number tc_bits a2.kernel
  let m1 := add_all_variables_in_condition_list ⟨r.2, none, some []⟩ conds_with_vars_to_avoid r.1
  let m2 := add_all_variables_in_action_list preference_is_binary m1 actions_with_vars_to_avoid r.1
  set_gensym_numbers { a2 with kernel := m2.thisAgent } (m2.var_list.getD [])

/-- The search of the table of variables for a name. -/
def find_variable (name : String) : List Symbol → Option Nat
  | [] => none
  | s :: rest =>
    if s.symbol_type = .VARIABLE_SYMBOL_TYPE ∧ s.name = name then some 0
    else (find_variable name rest).map (fun i => i + 1)

/-- Modelled from the spec: `make_variable` is defined in `symtab.cpp`, which is not among
the sources; it returns the variable of that name with one more reference when there is
one, and a new variable otherwise, with no mark, the gensym number 0 and one reference. -/
def make_variable (thisAgent : agent_struct) (name : String) : Nat × agent_struct :=
  match find_variable name thisAgent.kernel.symbols with
  | some sym =>
    (sym, { thisAgent with
      reference_count := fun p =>
        if p = sym then thisAgent.reference_count p + 1 else thisAgent.reference_count p })
  | none =>
    let sym := thisAgent.kernel.symbols.length
    let kernel1 : agent := { thisAgent.kernel with
      symbols := thisAgent.kernel.symbols ++ [⟨.VARIABLE_SYMBOL_TYPE, name, 0⟩] }
    (sym, { thisAgent with
      kernel := kernel1
      gensym_number := fun p => if p = sym then 0 else thisAgent.gensym_number p
      reference_count := fun p => if p = sym then 1 else thisAgent.reference_count p })

/-- Modelled from the spec: the macro `symbol_remove_ref` of `symtab.h`, which is not among
the sources, takes one reference away; the symbol is deallocated only when none is left,
which is not the case of a symbol that was in the table before `make_variable` added a
reference. -/
def symbol_remove_ref (thisAgent : agent_struct) (sym : Nat) : agent_struct :=
  { thisAgent with
    reference_count := fun p =>
      if p = sym then thisAgent.reference_count p - 1 else thisAgent.reference_count p }

/-- The index `first_letter - 'a'` that `generate_new_variable` computes from the first
character of the prefix: the letter in lower case, and `v` when there is no letter. -/
def first_letter_index (pfx : String) : Nat :=
  let first_letter := pfx.data.headD (Char.ofNat 0)
  let first_letter1 :=
    if first_letter.isAlpha then
      (if first_letter.isUpper then first_letter.toLower else first_letter)
    else 'v'
  first_letter1.toNat - 'a'.toNat

/-- The loop `while (true)` of `generate_new_variable`, run for at most `fuel` rounds: the new
symbol and the agent at the `break`, `none` when `fuel` rounds do not reach it. The call of
`SNPRINTF` that writes the name from the prefix and the counter into the buffer of 200
characters is a parameter; `count_bits` is the width of a counter. -/
def generate_new_variable_loop (SNPRINTF : String → Nat → String) (count_bits : Nat)
    (pfx : String) : Nat → agent_struct → Option (Nat × agent_struct)
  | 0, _ => none
  | fuel + 1, thisAgent =>
    let i := first_letter_index pfx
    let name := SNPRINTF pfx (thisAgent.gensymed_variable_count i)
    let a1 : agent_struct := { thisAgent with
      gensymed_variable_count := fun j =>
        if j = i then (thisAgent.gensymed_variable_count j + 1) % 2 ^ count_bits
        else thisAgent.gensymed_variable_count j }
    let r := make_variable a1 name
    if r.2.gensym_number r.1 ≠ r.2.current_variable_gensym_number then some r
    else generate_new_variable_loop SNPRINTF count_bits pfx fuel (symbol_remove_ref r.2 r.1)

/-- The function `generate_new_variable (thisAgent, prefix)`: the new variable and the agent
afterwards; `none` when the loop does not come to its `break` within `fuel` rounds. -/
def generate_new_variable (SNPRINTF : String → Nat → String) (count_bits : Nat) (fuel : Nat)
    (thisAgent : agent_struct) (pfx : String) : Option (Nat × agent_struct) :=
  match generate_new_variable_loop SNPRINTF count_bits pfx fuel thisAgent with
  | none => none
  | some (New, a1) =>
    some (New, { a1 with
      gensym_number := fun p =>
        if p = New then a1.current_variable_gensym_number else a1.gensym_number p })

/-- A run of calls of `generate_new_variable`, one for each prefix of the list: the variables
returned, in the order of the calls, and the agent afterwards. -/
def generate_new_variables (SNPRINTF : String → Nat → String) (count_bits : Nat) (fuel : Nat) :
    agent_struct → List String → Option (List Nat × agent_struct)
  | thisAgent, [] => some ([], thisAgent)
  | thisAgent, pfx :: rest =>
    match generate_new_variable SNPRINTF count_bits fuel thisAgent pfx with
    | none => none
    | some (New, a1) =>
      match generate_new_variables SNPRINTF count_bits fuel a1 rest with
      | none => none
      | some (vars, a2) => some (New :: vars, a2)

mutual
/-- The symbols a test refers to: the referent of an equality or other relational test, and
those of the conjuncts of a conjunctive test. -/
def symbols_in_test : test → List Nat
  | .blank_test => []
  | .equality_test referent => [referent]
  | .GOAL_ID_TEST => []
  | .IMPASSE_ID_TEST => []
  | .DISJUNCTION_TEST => []
  | .CONJUNCTIVE_TEST conjunct_list => symbols_in_tests conjunct_list
  | .relational_test _ referent => [referent]
/-- The symbols the tests of a list refer to. -/
def symbols_in_tests : List test → List Nat
  | [] => []
  | t :: rest => symbols_in_test t ++ symbols_in_tests rest
end

mutual
/-- The symbols that occur in a condition, those inside a conjunctive negation included. -/
def symbols_in_condition : condition → List Nat
  | .POSITIVE_CONDITION _ id_test attr_test value_test _ =>
    symbols_in_test id_test ++ (symbols_in_test attr_test ++ symbols_in_test value_test)
  | .NEGATIVE_CONDITION id_test attr_test value_test _ =>
    symbols_in_test id_test ++ (symbols_in_test attr_test ++ symbols_in_test value_test)
  | .CONJUNCTIVE_NEGATION_CONDITION top => symbols_in_condition_list top
/-- The symbols that occur in a condition list. -/
def symbols_in_condition_list : List condition → List Nat
  | [] => []
  | c :: next => symbols_in_condition c ++ symbols_in_condition_list next
end

mutual
/-- The symbols that occur in a right-hand-side value. -/
def symbols_in_rhs_value : rhs_value → List Nat
  | .symbol sym => [sym]
  | .funcall _ args => symbols_in_rhs_values args
/-- The symbols that occur in a list of right-hand-side values. -/
def symbols_in_rhs_values : List rhs_value → List Nat
  | [] => []
  | rv :: rest => symbols_in_rhs_value rv ++ symbols_in_rhs_values rest
end

/-- The symbols that occur in an action; the referent counts for a binary preference only. -/
def symbols_in_action (preference_is_binary : Nat → Bool) (a : action) : List Nat :=
  if a.type = .MAKE_ACTION then
    a.id :: (symbols_in_rhs_value a.attr ++ (symbols_in_rhs_value a.value ++
      (if preference_is_binary a.preference_type then symbols_in_rhs_value a.referent else [])))
  else symbols_in_rhs_value a.value

/-- The symbols that occur in an action list. -/
def symbols_in_action_list (preference_is_binary : Nat → Bool) : List action → List Nat
  | [] => []
  | a :: next =>
    symbols_in_action preference_is_binary a ++ symbols_in_action_list preference_is_binary next

/-- The pointer refers to a variable. -/
def is_variable (thisAgent : agent) (sym : Nat) : Prop :=
  ∃ s, thisAgent.symbols[sym]? = some s ∧ s.symbol_type = .VARIABLE_SYMBOL_TYPE

/-- The state of the marking while the variables are collected into `var_list`, starting
from the agent `a0`: there is a list, the types of the symbols are those of `a0`, every
variable marked with `tc` is on the list, and so is every variable among `ps`. -/
def marks_cover (tc : Nat) (a0 : agent) (m : marking) (ps : List Nat) : Prop :=
  ∃ l, m.var_list = some l ∧
    (∀ p : Nat, (m.thisAgent.symbols[p]?).map (fun s => s.symbol_type) =
      (a0.symbols[p]?).map (fun s => s.symbol_type)) ∧
    (∀ (p : Nat) (s : Symbol), m.thisAgent.symbols[p]? = some s →
      s.symbol_type = .VARIABLE_SYMBOL_TYPE → s.tc_num = tc → p ∈ l) ∧
    (∀ p ∈ ps, is_variable a0 p → p ∈ l)

/-- The symbol exists and carries the gensym number in use: the generator must avoid it. -/
def in_use (thisAgent : agent_struct) (sym : Nat) : Prop :=
  sym < thisAgent.kernel.symbols.length ∧
    thisAgent.gensym_number sym = thisAgent.current_variable_gensym_number

/-- A sample for the call of `SNPRINTF` in `generate_new_variable`: the prefix and the counter
between angle brackets, cut to 199 characters. -/
def sample_SNPRINTF (pfx : String) (n : Nat) : String :=
  ⟨("<" ++ pfx ++ toString n ++ ">").data.take 199⟩

/-- A sample agent for the variable generator: the variable `<x1>` (pointer 1) and the
variable `<x2>` (pointer 3) exist, no production is registered. -/
def sample_agent_struct : agent_struct where
  kernel :=
    { current_tc_number := 7
      symbols := [⟨.IDENTIFIER_SYMBOL_TYPE, "S1", 0⟩, ⟨.VARIABLE_SYMBOL_TYPE, "<x1>", 7⟩,
        ⟨.SYM_CONSTANT_SYMBOL_TYPE, "name", 0⟩, ⟨.VARIABLE_SYMBOL_TYPE, "<x2>", 3⟩]
      released := [] }
  current_variable_gensym_number := 4
  gensymed_variable_count := fun _ => 9
  gensym_number := fun _ => 0
  reference_count := fun _ => 1
  name_of_production_being_reordered := ""
  all_productions_of_type := fun _ => []
  num_productions_of_type := fun _ => 0
  sc_production := fun _ => none
  printed := []

/-- A sample left-hand side `(S1 ^name <x1>)`. -/
def sample_lhs : List condition :=
  [.POSITIVE_CONDITION 0 (.equality_test 0) (.equality_test 2) (.equality_test 1) false]

/-! ### production.cpp : `make_production` -/

/-- What `make_production` uses and the sources do not hold: the constants of the production
types and of the supports, the compile-time switches, and the routines of the reorderer, of
semantic memory, of the o-support calculation and of reinforcement learning. The reorderers
get the list by reference, so they return the list afterwards along with their result and
the agent. -/
structure make_production_env where
  JUSTIFICATION_PRODUCTION_TYPE : Nat
  TEMPLATE_PRODUCTION_TYPE : Nat
  UNKNOWN_SUPPORT : Nat
  UNDECLARED_SUPPORT : Nat
  DO_COMPILE_TIME_O_SUPPORT_CALCS : Bool
  LIST_COMPILE_TIME_O_SUPPORT_FAILURES : Bool
  preference_is_binary : Nat → Bool
  reorder_action_list : agent_struct → List action → Nat → Bool × agent_struct × List action
  reorder_lhs : agent_struct → List condition → Bool → Bool × agent_struct × List condition
  smem_valid_production : List condition → List action → Bool
  calculate_compile_time_o_support : List condition → List action → List action
  rl_valid_rule : production_struct → Bool
  get_number_from_symbol : rhs_value → Int
  rl_update_template_tracking : agent_struct → String → agent_struct

/-- What `make_production` returns and leaves behind: the production, `none` for NIL, the
agent, and the lists `*lhs_top` and `*rhs_top`. -/
structure make_production_result where
  p : Option production_struct
  thisAgent : agent_struct
  lhs_top : List condition
  rhs_top : List action

/-- The function `print` on a constant string: what is printed is kept with the agent. -/
def print (thisAgent : agent_struct) (msg : String) : agent_struct :=
  { thisAgent with printed := thisAgent.printed ++ [msg] }

/-- The name `name->sc->name` of a symbol. -/
def sc_name (thisAgent : agent_struct) (name : Nat) : String :=
  match thisAgent.kernel.symbols[name]? with
  | some s => s.name
  | none => ""

/-- The loop `for (a = *rhs_top; a!=NIL; a=a->next) a->support = UNKNOWN_SUPPORT;`. -/
def set_unknown_support (env : make_production_env) : List action → List action
  | [] => []
  | a :: next => { a with support := env.UNKNOWN_SUPPORT } :: set_unknown_support env next

/-- The start of `make_production` for a production that is not a justification, up to the
call of `reorder_action_list`: the name is noted, the variable generator is reset, a new tc
number is taken and the bound variables of the conditions are marked with it. The result is
the tc number and the agent. -/
def make_production_begin (env : make_production_env) (tc_bits gensym_bits : Nat)
    (thisAgent : agent_struct) (name : Nat) (lhs_top : List condition) (rhs_top : List action) :
    Nat × agent_struct :=
  let a0 : agent_struct :=
    { thisAgent with name_of_production_being_reordered := sc_name thisAgent name }
  let a1 := reset_variable_generator tc_bits gensym_bits env.preference_is_binary a0 lhs_top
    rhs_top
  let r := get_new_tc_number tc_bits a1.kernel
  let m := add_bound_variables_in_condition_list ⟨r.2, none, none⟩ lhs_top r.1
  (r.1, { a1 with kernel := m.thisAgent })

/-- The end of `make_production`, from `allocate_with_pool` on: the production is filled in
and registered under its name, at the head of the productions of its type, and counted. A
rule that `rl_valid_rule` accepts has an action, whose referent gives `rl_efr`. -/
def make_production_register (env : make_production_env) (thisAgent : agent_struct)
    (type : Nat) (name : Nat) (lhs_top : List condition) (rhs_top : List action) :
    make_production_result :=
  let a1 :=
    if (thisAgent.sc_production name).isSome then
      print
        (print thisAgent
          ("Internal error: make_production called with name " ++
            thisAgent.name_of_production_being_reordered ++ "\n"))
        "for which a production already exists\n"
    else thisAgent
  let p0 : production_struct :=
    { name := name
      documentation := none
      filename := none
      firing_count := 0
      reference_count := 1
      type := type
      declared_support := env.UNDECLARED_SUPPORT
      trace_firings := false
      action_list := rhs_top
      instantiations := []
      interrupt := false
      rl_rule := false
      rl_efr := 0 }
  let p1 : production_struct :=
    if type ≠ env.JUSTIFICATION_PRODUCTION_TYPE ∧ type ≠ env.TEMPLATE_PRODUCTION_TYPE then
      if env.rl_valid_rule p0 then
        { p0 with
          rl_rule := true
          rl_efr :=
            match p0.action_list with
            | a :: _ => env.get_number_from_symbol a.referent
            | [] => 0 }
      else p0
    else p0
  let a2 : agent_struct :=
    { a1 with
      sc_production := fun sym => if sym = name then some p1 else a1.sc_production sym
      all_productions_of_type := fun t =>
        if t = type then p1 :: a1.all_productions_of_type t else a1.all_productions_of_type t
      num_productions_of_type := fun t =>
        if t = type then a1.num_productions_of_type t + 1 else a1.num_productions_of_type t }
  ⟨some p1, env.rl_update_template_tracking a2 (sc_name a2 name), lhs_top, rhs_top⟩

/-- The function `make_production (thisAgent, type, name, lhs_top, lhs_bottom, rhs_top,
reorder_nccs)`; `*lhs_bottom` is the end of the list `*lhs_top`. -/
def make_production (env : make_production_env) (tc_bits gensym_bits : Nat)
    (thisAgent : agent_struct) (type : Nat) (name : Nat) (lhs_top : List condition)
    (rhs_top : List action) (reorder_nccs : Bool) : make_production_result :=
  if type ≠ env.JUSTIFICATION_PRODUCTION_TYPE then
    let b := make_production_begin env tc_bits gensym_bits thisAgent name lhs_top rhs_top
    let ra := env.reorder_action_list b.2 rhs_top b.1
    if !ra.1 then ⟨none, ra.2.1, lhs_top, ra.2.2⟩
    else
      let rl := env.reorder_lhs ra.2.1 lhs_top reorder_nccs
      if !rl.1 then ⟨none, rl.2.1, rl.2.2, ra.2.2⟩
      else if !env.smem_valid_production rl.2.2 ra.2.2 then
        ⟨none, print rl.2.1 "ungrounded LTI in production\n", rl.2.2, ra.2.2⟩
      else if env.DO_COMPILE_TIME_O_SUPPORT_CALCS then
        let rhs1 := env.calculate_compile_time_o_support rl.2.2 ra.2.2
        let a1 :=
          if env.LIST_COMPILE_TIME_O_SUPPORT_FAILURES ∧
              rhs1.any (fun a => a.type = .MAKE_ACTION ∧ a.support = env.UNKNOWN_SUPPORT) then
            print rl.2.1 ("\nCan't classify " ++ sc_name rl.2.1 name ++ "\n")
          else rl.2.1
        make_production_register env a1 type name rl.2.2 rhs1
      else
        make_production_register env rl.2.1 type name rl.2.2 (set_unknown_support env ra.2.2)
  else
    -- for justifications: force run-time o-support (it'll only be done once)
    let a0 : agent_struct :=
      { thisAgent with name_of_production_being_reordered := sc_name thisAgent name }
    make_production_register env a0 type name lhs_top (set_unknown_support env rhs_top)

/-- The registry of productions is the same in two states of the agent: the productions of
each type, their numbers, and the production of each name. -/
def same_registry (a a' : agent_struct) : Prop :=
  a'.all_productions_of_type = a.all_productions_of_type ∧
  a'.num_productions_of_type = a.num_productions_of_type ∧
  a'.sc_production = a.sc_production

/-- A sample for what `make_production` uses: the reorderer of actions fails when there is no
action, the reorderer of conditions fails when there is no condition, and neither changes
anything; every production is valid for semantic memory and none is a rule of reinforcement
learning. -/
def sample_env : make_production_env where
  JUSTIFICATION_PRODUCTION_TYPE := 3
  TEMPLATE_PRODUCTION_TYPE := 4
  UNKNOWN_SUPPORT := 0
  UNDECLARED_SUPPORT := 0
  DO_COMPILE_TIME_O_SUPPORT_CALCS := false
  LIST_COMPILE_TIME_O_SUPPORT_FAILURES := false
  preference_is_binary := fun _ => false
  reorder_action_list := fun a rhs _ => (!rhs.isEmpty, a, rhs)
  reorder_lhs := fun a lhs _ => (!lhs.isEmpty, a, lhs)
  smem_valid_production := fun _ _ => true
  calculate_compile_time_o_support := fun _ rhs => rhs
  rl_valid_rule := fun _ => false
  get_number_from_symbol := fun _ => 0
  rl_update_template_tracking := fun a _ => a

/-- A sample action `(S1 ^name <x1>)`. -/
def sample_action : action :=
  ⟨.MAKE_ACTION, 0, 0, 0, .symbol 2, .symbol 1, .symbol 2⟩

/-- A sample agent for the transitive-closure routines: the identifier `S1` (pointer 0) has
the mark 0, the variable `<x>` (pointer 1) has the mark 7, the constant `name` (pointer 2)
has none. -/
def tc_sample_agent : agent where
  current_tc_number := 7
  symbols := [⟨.IDENTIFIER_SYMBOL_TYPE, "S1", 0⟩, ⟨.VARIABLE_SYMBOL_TYPE, "<x>", 7⟩,
    ⟨.SYM_CONSTANT_SYMBOL_TYPE, "name", 0⟩]
  released := []

/-- A second sample agent: the identifier `S1` (pointer 0) is marked with 7 and the variable
`<x>` (pointer 1) with 3. -/
def tc_sample_agent_marked : agent where
  current_tc_number := 7
  symbols := [⟨.IDENTIFIER_SYMBOL_TYPE, "S1", 7⟩, ⟨.VARIABLE_SYMBOL_TYPE, "<x>", 3⟩,
    ⟨.SYM_CONSTANT_SYMBOL_TYPE, "name", 0⟩]
  released := []

/-- A sample conjunctive negation `-{ (S1 ^name <x>) }`. -/
def tc_sample_ncc : condition :=
  .CONJUNCTIVE_NEGATION_CONDITION
    [.POSITIVE_CONDITION 0 (.equality_test 0) (.equality_test 2) (.equality_test 1) false]

end Production

/-! ### vm_map.cpp : the maps of the variablization manager -/

namespace VariablizationManager

/-- A pointer to a symbol. -/
abbrev Symbol := Nat

/-- The record `variablization`: the instantiated symbol, the variable it was replaced by and
the grounding id. -/
structure variablization where
  instantiated_symbol : Symbol
  variablized_symbol : Symbol
  grounding_id : Nat
deriving DecidableEq, Repr

/-- The maps of the class `Variablization_Manager`, each a `std::map` kept as the list of its
entries (a key occurs in at most one entry, `find` is the lookup of the key), and the
reference counts of the agent's symbols, which `symbol_add_ref` increments. -/
structure Variablization_Manager where
  sym_to_var_map : List (Symbol × variablization)
  g_id_to_var_map : List (Nat × variablization)
  orig_var_to_g_id_map : List (Symbol × Nat)
  reference_count : Symbol → Nat

/-- The call `symbol_add_ref(thisAgent, sym)`: one more reference to the symbol. -/
def symbol_add_ref (vm : Variablization_Manager) (sym : Symbol) : Variablization_Manager :=
  { vm with
    reference_count := fun x => if x = sym then vm.reference_count x + 1 else vm.reference_count x }

/-- The method `Variablization_Manager::get_gid_for_orig_var(index_sym)`. -/
def get_gid_for_orig_var (vm : Variablization_Manager) (index_sym : Symbol) : Nat :=
  match vm.orig_var_to_g_id_map.lookup index_sym with
  | some g_id => g_id
  | none => 0

/-- The method `Variablization_Manager::add_orig_var_to_gid_mapping(index_sym, index_g_id)`:
the value returned and the manager afterwards. -/
def add_orig_var_to_gid_mapping (vm : Variablization_Manager) (index_sym : Symbol)
    (index_g_id : Nat) : Nat × Variablization_Manager :=
  match vm.orig_var_to_g_id_map.lookup index_sym with
  | none =>
    let vm1 : Variablization_Manager :=
      { vm with orig_var_to_g_id_map := (index_sym, index_g_id) :: vm.orig_var_to_g_id_map }
    (0, symbol_add_ref vm1 index_sym)
  | some g_id => (g_id, vm)

/-- A sample manager in which the symbol 3 is mapped to the grounding id 7. -/
def sample_manager : Variablization_Manager where
  sym_to_var_map := []
  g_id_to_var_map := []
  orig_var_to_g_id_map := [(3, 7)]
  reference_count := fun _ => 1

/-- The null pointer. -/
def NULL : Symbol := 0

/-- Modelled from the spec: the record `identity_info` of a test is declared in `test.h`,
which is not among the sources; `store_variablization` reads its field `grounding_id` only. -/
structure identity_info where
  grounding_id : Nat
deriving DecidableEq, Repr

/-- The assignment `(*map)[key] = value` on a `std::map`: the value of the entry of the key
is replaced when there is one, a new entry is made otherwise. -/
def map_assign {β : Type} : List (Nat × β) → Nat → β → List (Nat × β)
  | [], key, value => [(key, value)]
  | (k, v) :: rest, key, value =>
    if k = key then (key, value) :: rest else (k, v) :: map_assign rest key value

/-- The function `copy_variablization (thisAgent, v)`: the new record and the manager with
one more reference to each of its two symbols. -/
def copy_variablization (vm : Variablization_Manager) (v : variablization) :
    variablization × Variablization_Manager :=
  let new_variablization : variablization :=
    { instantiated_symbol := v.instantiated_symbol
      variablized_symbol := v.variablized_symbol
      grounding_id := v.grounding_id }
  (new_variablization,
    symbol_add_ref (symbol_add_ref vm new_variablization.instantiated_symbol)
      new_variablization.variablized_symbol)

/-- The method `Variablization_Manager::get_variablization(uint64_t index_id)`; `none` is the
null pointer. -/
def get_variablization_uint64_t (vm : Variablization_Manager) (index_id : Nat) :
    Option variablization :=
  if index_id = 0 then none
  else
    match vm.g_id_to_var_map.lookup index_id with
    | some v => some v
    | none => none

/-- The method `Variablization_Manager::get_variablization_for_symbol(pMap, index_sym)`;
`none` is the null pointer. -/
def get_variablization_for_symbol (pMap : List (Symbol × variablization)) (index_sym : Symbol) :
    Option variablization :=
  match pMap.lookup index_sym with
  | some v => some v
  | none => none

/-- The method `Variablization_Manager::get_variablization(Symbol *index_sym)`. -/
def get_variablization_Symbol (vm : Variablization_Manager) (index_sym : Symbol) :
    Option variablization :=
  get_variablization_for_symbol vm.sym_to_var_map index_sym

/-- The method `Variablization_Manager::store_variablization(instantiated_sym, variable,
identity)`: the manager afterwards, `none` when one of its assertions fails. The parameter
`variable` of the source is `variable_sym` here. The method `is_sti` of a symbol is declared
in `symtab.h`, which is not among the sources, and is a parameter; a null `identity` is
`none`. -/
def store_variablization (is_sti : Symbol → Bool) (vm : Variablization_Manager)
    (instantiated_sym variable_sym : Symbol) (identity : Option identity_info) :
    Option Variablization_Manager :=
  -- assert(instantiated_sym && variable);
  if instantiated_sym = NULL ∨ variable_sym = NULL then none
  else
    let vm1 := symbol_add_ref vm instantiated_sym
    let vm2 := symbol_add_ref vm1 variable_sym
    let new_variablization : variablization :=
      { instantiated_symbol := instantiated_sym
        variablized_symbol := variable_sym
        grounding_id :=
          match identity with
          | some i => i.grounding_id
          | none => 0 }
    if is_sti instantiated_sym then
      let vm3 : Variablization_Manager :=
        { vm2 with
          sym_to_var_map := map_assign vm2.sym_to_var_map instantiated_sym new_variablization }
      let c := copy_variablization vm3 new_variablization
      let vm4 := c.2
      some { vm4 with sym_to_var_map := map_assign vm4.sym_to_var_map variable_sym c.1 }
    else
      match identity with
      | some i =>
        -- A constant symbol is being variablized, so store variablization info
        -- indexed by the constant's grounding id.
        some { vm2 with
          g_id_to_var_map := map_assign vm2.g_id_to_var_map i.grounding_id new_variablization }
      | none => none

/-- A sample for `is_sti`: the symbols 1 to 4 are short-term identifiers. -/
def sample_is_sti (sym : Symbol) : Bool :=
  decide (1 ≤ sym ∧ sym ≤ 4)

end VariablizationManager

/-! ### cli_maxchunks.cpp (Soar-Suite-8.6.4-beta) : the `max-chunks` command -/

namespace CliMaxChunks

/-- The error codes of `CLIError` that the command uses. -/
inductive CLIError where
  | kTooManyArgs
  | kIntegerMustBePositive
  | kAgentRequired
deriving DecidableEq, Repr

/-- Modelled from the spec: the class `gSKI::Agent` is not among the sources. What the command
uses of it is the max-chunks setting, read by `GetMaxChunks` and stored by `SetMaxChunks`;
the calls of `SetMaxChunks` are recorded, oldest first, so that "is called" is a statement
about the state. -/
structure Agent where
  max_chunks : Int
  SetMaxChunks_calls : List Int
deriving DecidableEq, Repr

/-- The method `pAgent->GetMaxChunks()`. -/
def Agent.GetMaxChunks (pAgent : Agent) : Int := pAgent.max_chunks

/-- The method `pAgent->SetMaxChunks(n)`. -/
def Agent.SetMaxChunks (pAgent : Agent) (n : Int) : Agent :=
  { max_chunks := n, SetMaxChunks_calls := pAgent.SetMaxChunks_calls ++ [n] }

/-- The state of the command line interface that the command touches: the output mode, the
text written to `m_Result`, the argument tags appended to the response, and the last error. -/
structure CommandLineInterface where
  m_RawOutput : Bool
  m_Result : List String
  m_ResponseTags : List (String × String × String)
  m_LastError : Option CLIError
deriving DecidableEq, Repr

/-- Modelled from the spec: `CommandLineInterface::SetError` is not among the sources; it
records the error code and the command fails (the result is `false`). -/
def SetError (cli : CommandLineInterface) (code : CLIError) : Bool × CommandLineInterface :=
  (false, { cli with m_LastError := some code })

/-- Modelled from the spec: `CommandLineInterface::RequireAgent` is not among the sources; it
accepts an agent that is present and fails with `kAgentRequired` on a null pointer. -/
def RequireAgent (cli : CommandLineInterface) (pAgent : Option Agent) :
    Bool × CommandLineInterface :=
  match pAgent with
  | some _ => (true, cli)
  | none => SetError cli .kAgentRequired

/-- The method `CommandLineInterface::DoMaxChunks(pAgent, n)`: the result, the interface and
the agent afterwards. -/
def DoMaxChunks (cli : CommandLineInterface) (pAgent : Option Agent) (n : Int) :
    Bool × CommandLineInterface × Option Agent :=
  match pAgent with
  | none => ((RequireAgent cli none).1, (RequireAgent cli none).2, none)
  | some a =>
    if n = 0 then
      -- query
      if cli.m_RawOutput then
        (true, { cli with m_Result := cli.m_Result ++ [toString a.GetMaxChunks] }, some a)
      else
        (true, { cli with m_ResponseTags :=
            cli.m_ResponseTags ++ [("kParamValue", "kTypeInt", toString a.GetMaxChunks)] }, some a)
    else (true, cli, some (a.SetMaxChunks n))

/-- The method `CommandLineInterface::ParseMaxChunks(pAgent, argv)`; the library function
`atoi` is a parameter. -/
def ParseMaxChunks (atoi : String → Int) (cli : CommandLineInterface) (pAgent : Option Agent)
    (argv : List String) : Bool × CommandLineInterface × Option Agent :=
  -- n defaults to 0 (print current value)
  if argv.length > 2 then
    ((SetError cli .kTooManyArgs).1, (SetError cli .kTooManyArgs).2, pAgent)
  else if argv.length = 2 then
    -- one argument, figure out if it is a positive integer
    let n := atoi (argv.getD 1 "")
    if n ≤ 0 then
      ((SetError cli .kIntegerMustBePositive).1, (SetError cli .kIntegerMustBePositive).2, pAgent)
    else DoMaxChunks cli pAgent n
  else DoMaxChunks cli pAgent 0

/-- The digit loop of the sample `atoi`: the decimal value of the leading digits. -/
def sample_atoi_loop : List Char → Int → Int
  | [], acc => acc
  | c :: cs, acc =>
    if c.isDigit then sample_atoi_loop cs (acc * 10 + ((c.toNat : Int) - 48)) else acc

/-- A sample `atoi`: the decimal value of the leading digits of the string, 0 when there is
none. -/
def sample_atoi (str : String) : Int := sample_atoi_loop str.data 0

/-- A sample interface in structured output mode. -/
def sample_cli : CommandLineInterface := ⟨false, [], [], none⟩

/-- A sample agent whose max-chunks setting is 50. -/
def sample_agent : Agent := ⟨50, []⟩

end CliMaxChunks

/-! ### cli_maxelaborations.cpp : the `max-elaborations` command -/

namespace CliMaxElaborations

/-- The agent state the command touches: the array `sysparams`. -/
structure agent where
  sysparams : Nat → Int

/-- The state of the command line interface that the command touches: the agent, the output
mode, the text written to `m_Result` and the argument tags appended to the response. -/
structure CommandLineInterface where
  thisAgent : agent
  m_RawOutput : Bool
  m_Result : List String
  m_ResponseTags : List (String × String × String)

/-- The method `CommandLineInterface::DoMaxElaborations(n)`; the index
`MAX_ELABORATIONS_SYSPARAM` is a constant of a header that is not among the sources, so it is
a parameter. -/
def DoMaxElaborations (MAX_ELABORATIONS_SYSPARAM : Nat) (cli : CommandLineInterface) (n : Int) :
    Bool × CommandLineInterface :=
  if n = 0 then
    -- Query
    if cli.m_RawOutput then
      (true, { cli with m_Result :=
          cli.m_Result ++ [toString (cli.thisAgent.sysparams MAX_ELABORATIONS_SYSPARAM)] })
    else
      (true, { cli with m_ResponseTags := cli.m_ResponseTags ++
          [("kParamValue", "kTypeInt",
            toString (cli.thisAgent.sysparams MAX_ELABORATIONS_SYSPARAM))] })
  else
    (true, { cli with thisAgent :=
        { sysparams := fun i => if i = MAX_ELABORATIONS_SYSPARAM then n
                                else cli.thisAgent.sysparams i } })

/-- A sample interface in raw output mode whose agent has every sysparam at 15. -/
def sample_cli : CommandLineInterface := ⟨⟨fun _ => 15⟩, true, [], []⟩

end CliMaxElaborations

/-! ### cli_multiattributes.cpp : the `multi-attributes` command -/

namespace CliMultiAttributes

/-- A string constant symbol. The symbol table holds one symbol per name
(`make_str_constant` returns the symbol of that name, creating it when there is none), so
the symbol is identified with its name and `maList->symbol == s` compares names. -/
abbrev Symbol := String

/-- An entry of the list `multi_attributes`. -/
structure multi_attribute where
  symbol : Symbol
  value : Int
deriving DecidableEq, Repr

/-- The agent state the command touches: the list `multi_attributes`, head first, and the
reference counts of the string constants. -/
structure agent where
  multi_attributes : List multi_attribute
  reference_count : Symbol → Nat

/-- The state of the command line interface that the command touches: the agent, the output
mode, the text written to `m_Result` and the argument tags of the response. -/
structure CommandLineInterface where
  thisAgent : agent
  m_RawOutput : Bool
  m_Result : List String
  m_ResponseTags : List (String × String × String)

/-- Modelled from the spec: `make_str_constant` is defined in `symtab.cpp`, which is not among
the sources; it returns the symbol of the given name with one more reference to it. -/
def make_str_constant (thisAgent : agent) (name : String) : Symbol × agent :=
  (name, { thisAgent with
    reference_count := fun x =>
      if x = name then thisAgent.reference_count x + 1 else thisAgent.reference_count x })

/-- Modelled from the spec: `symbol_remove_ref` is not among the sources; it drops one
reference to the symbol. -/
def symbol_remove_ref (thisAgent : agent) (sym : Symbol) : agent :=
  { thisAgent with
    reference_count := fun x =>
      if x = sym then thisAgent.reference_count x - 1 else thisAgent.reference_count x }

/-- The printing loop of `DoMultiAttributes` over the rest `maList` of the list: the
interface, the contents of the string stream `buffer` (which `buffer.clear()` does not
empty) and `count`, after the loop. -/
def print_loop (cli : CommandLineInterface) (buffer : String) (count : Nat) :
    List multi_attribute → CommandLineInterface × String × Nat
  | [] => (cli, buffer, count)
  | ma :: maList =>
    if cli.m_RawOutput then
      print_loop
        { cli with m_Result := cli.m_Result ++ [toString ma.value, "\t", ma.symbol, "\n"] }
        buffer (count + 1) maList
    else
      print_loop
        { cli with m_ResponseTags := cli.m_ResponseTags ++
            [("kParamValue", "kTypeInt", buffer ++ toString ma.value),
             ("kParamName", "kTypeString", ma.symbol)] }
        (buffer ++ toString ma.value) (count + 1) maList

/-- The setting loop of `DoMultiAttributes` over the rest `maList` of the list: the list with
the value of the first entry for `s` set to `n`, or `none` when the loop reaches the end
without finding an entry for `s`. -/
def set_loop (s : Symbol) (n : Int) : List multi_attribute → Option (List multi_attribute)
  | [] => none
  | ma :: maList =>
    if ma.symbol = s then some ({ ma with value := n } :: maList)
    else
      match set_loop s n maList with
      | some rest => some (ma :: rest)
      | none => none

/-- The method `CommandLineInterface::DoMultiAttributes(pAttribute, n)`. The result is `none`
when the call dereferences the null pointer `pAttribute` (no attribute, `n` not 0). -/
def DoMultiAttributes (cli : CommandLineInterface) (pAttribute : Option String) (n : Int) :
    Option (Bool × CommandLineInterface) :=
  let maList := cli.thisAgent.multi_attributes
  if pAttribute = none ∧ n = 0 then
    -- No args, print current setting
    let cli1 : CommandLineInterface :=
      if maList = [] then { cli with m_Result := cli.m_Result ++ ["No multi-attributes found."] }
      else cli
    let cli2 : CommandLineInterface :=
      if cli1.m_RawOutput then { cli1 with m_Result := cli1.m_Result ++ ["Value\tSymbol"] }
      else cli1
    let r := print_loop cli2 "" 0 maList
    let cli3 := r.1
    let buffer := r.2.1 ++ toString r.2.2
    if !cli3.m_RawOutput then
      some (true, { cli3 with m_ResponseTags :=
        ("kParamCount", "kTypeInt", buffer) :: cli3.m_ResponseTags })
    else some (true, cli3)
  else
    -- Setting defaults to 10
    let n1 : Int := if n = 0 then 10 else n
    -- Set it
    match pAttribute with
    | none => none
    | some name =>
      let r := make_str_constant cli.thisAgent name
      let s := r.1
      let thisAgent1 := r.2
      match set_loop s n1 maList with
      | some updated =>
        let thisAgent2 : agent := { thisAgent1 with multi_attributes := updated }
        some (true, { cli with thisAgent := symbol_remove_ref thisAgent2 s })
      | none =>
        -- sym wasn't in the table if we get here, so add it
        let thisAgent2 : agent :=
          { thisAgent1 with multi_attributes := ⟨s, n1⟩ :: thisAgent1.multi_attributes }
        some (true, { cli with thisAgent := thisAgent2 })

/-- The entries of the list for the symbol `s`. -/
def entries_for (s : Symbol) (l : List multi_attribute) : List multi_attribute :=
  l.filter (fun ma => decide (ma.symbol = s))

/-- A sample interface in structured output mode whose agent has two multi-attributes. -/
def sample_cli : CommandLineInterface :=
  ⟨⟨[⟨"block", 4⟩, ⟨"ontop", 20⟩], fun _ => 1⟩, false, [], []⟩

end CliMultiAttributes

/-! ## Part II. Theorems -/

namespace EpisodicMemory

/-- C1. Each of the six `epmem_set_parameter` overloads that returns `false` (unknown
parameter, parameter type not matching the overload, validator rejecting the value) returns
the agent it was given: every entry of `epmem_params` and every sysparam, `EPMEM_ENABLED`
included, is what it was before the call. -/
theorem epmem_set_parameter_false_retains (K : epmem_constants) (my_agent : agent)
    (name : String) (param : Int) (d : Rat) (s : String) (l : Int) :
    ((epmem_set_parameter_name_double my_agent name d).1 = false →
        (epmem_set_parameter_name_double my_agent name d).2 = my_agent) ∧
    ((epmem_set_parameter_name_string K my_agent name s).1 = false →
        (epmem_set_parameter_name_string K my_agent name s).2 = my_agent) ∧
    ((epmem_set_parameter_name_long K my_agent name l).1 = false →
        (epmem_set_parameter_name_long K my_agent name l).2 = my_agent) ∧
    ((epmem_set_parameter_param_double my_agent param d).1 = false →
        (epmem_set_parameter_param_double my_agent param d).2 = my_agent) ∧
    ((epmem_set_parameter_param_string K my_agent param s).1 = false →
        (epmem_set_parameter_param_string K my_agent param s).2 = my_agent) ∧
    ((epmem_set_parameter_param_long K my_agent param l).1 = false →
        (epmem_set_parameter_param_long K my_agent param l).2 = my_agent) := by
  refine ⟨?_, ?_, ?_, ?_, ?_, ?_⟩
  · intro h
    simp only [epmem_set_parameter_name_double] at h ⊢
    split_ifs at h ⊢ <;> simp_all
  · intro h
    simp only [epmem_set_parameter_name_string] at h ⊢
    split_ifs at h ⊢ <;> simp_all
  · intro h
    simp only [epmem_set_parameter_name_long] at h ⊢
    split_ifs at h ⊢ <;> simp_all
  · intro h
    simp only [epmem_set_parameter_param_double] at h ⊢
    split_ifs at h ⊢
    simp_all
  · intro h
    simp only [epmem_set_parameter_param_string] at h ⊢
    split_ifs at h ⊢
    simp_all
  · intro h
    simp only [epmem_set_parameter_param_long] at h ⊢
    split_ifs at h ⊢
    simp_all

/-- Witness for C1: on the sample agent, one rejected call per overload, each returning
`false` and the agent as it was: a number for the constant parameter `learning`, a string its
validator rejects, an unknown name, a number the validator of `balance` rejects, an index
outside the array, and a constant the validator of `learning` rejects. -/
theorem epmem_set_parameter_false_retains_witness :
    ((epmem_set_parameter_name_double sample_agent "learning" 1).1 = false ∧
      (epmem_set_parameter_name_double sample_agent "learning" 1).2 = sample_agent) ∧
    ((epmem_set_parameter_name_string sample_constants sample_agent "learning" "maybe").1 = false ∧
      (epmem_set_parameter_name_string sample_constants sample_agent "learning" "maybe").2
        = sample_agent) ∧
    ((epmem_set_parameter_name_long sample_constants sample_agent "nonexistent" 1).1 = false ∧
      (epmem_set_parameter_name_long sample_constants sample_agent "nonexistent" 1).2
        = sample_agent) ∧
    ((epmem_set_parameter_param_double sample_agent 1 (-1)).1 = false ∧
      (epmem_set_parameter_param_double sample_agent 1 (-1)).2 = sample_agent) ∧
    ((epmem_set_parameter_param_string sample_constants sample_agent 7 "x").1 = false ∧
      (epmem_set_parameter_param_string sample_constants sample_agent 7 "x").2 = sample_agent) ∧
    ((epmem_set_parameter_param_long sample_constants sample_agent 0 5).1 = false ∧
      (epmem_set_parameter_param_long sample_constants sample_agent 0 5).2 = sample_agent) :=
  have h1 : (epmem_set_parameter_name_double sample_agent "learning" 1).1 = false := by decide
  have h2 : (epmem_set_parameter_name_string sample_constants sample_agent "learning"
      "maybe").1 = false := by decide
  have h3 : (epmem_set_parameter_name_long sample_constants sample_agent "nonexistent" 1).1
      = false := by decide
  have h4 : (epmem_set_parameter_param_double sample_agent 1 (-1)).1 = false := by decide
  have h5 : (epmem_set_parameter_param_string sample_constants sample_agent 7 "x").1 = false := by
    decide
  have h6 : (epmem_set_parameter_param_long sample_constants sample_agent 0 5).1 = false := by
    decide
  ⟨⟨h1, (epmem_set_parameter_false_retains sample_constants sample_agent
      "learning" 0 1 "" 0).1 h1⟩,
   ⟨h2, (epmem_set_parameter_false_retains sample_constants sample_agent
      "learning" 0 0 "maybe" 0).2.1 h2⟩,
   ⟨h3, (epmem_set_parameter_false_retains sample_constants sample_agent
      "nonexistent" 0 0 "" 1).2.2.1 h3⟩,
   ⟨h4, (epmem_set_parameter_false_retains sample_constants sample_agent
      "" 1 (-1) "" 0).2.2.2.1 h4⟩,
   ⟨h5, (epmem_set_parameter_false_retains sample_constants sample_agent
      "" 7 0 "x" 0).2.2.2.2.1 h5⟩,
   ⟨h6, (epmem_set_parameter_false_retains sample_constants sample_agent
      "" 0 0 "" 5).2.2.2.2.2 h6⟩⟩

end EpisodicMemory

namespace CliEpmem

/-- C2. `DoEpMem` with op `'s'`: an unknown name or a value refused by `validate_string`
gives `false` with the matching error recorded, without any `set_string` call and with the
agent untouched; otherwise `set_string` is called exactly once, on the named parameter with
the given value, the result of the command is the result of that call, and a refusal records
the "protected" error. In particular the command returns `true` only when a parameter of
that name exists, the value was validated and `set_string` succeeded. -/
theorem DoEpMem_set_contract {Agent Param : Type} (I : epmem_interface Agent Param)
    (cli : CommandLineInterface Agent Param) (pAttr pVal : String) :
    (I.get cli.thisAgent pAttr = none →
      DoEpMem_set I cli pAttr pVal
        = (false, { cli with m_LastError := some "Invalid epmem parameter." })) ∧
    (∀ p, I.get cli.thisAgent pAttr = some p →
      I.validate_string cli.thisAgent p pVal = false →
      DoEpMem_set I cli pAttr pVal
        = (false, { cli with m_LastError := some "Invalid setting for epmem parameter." })) ∧
    (∀ p, I.get cli.thisAgent pAttr = some p →
      I.validate_string cli.thisAgent p pVal = true →
      (DoEpMem_set I cli pAttr pVal).1 = (I.set_string cli.thisAgent p pVal).1 ∧
      (DoEpMem_set I cli pAttr pVal).2.thisAgent = (I.set_string cli.thisAgent p pVal).2 ∧
      (DoEpMem_set I cli pAttr pVal).2.set_string_calls = cli.set_string_calls ++ [(p, pVal)] ∧
      ((I.set_string cli.thisAgent p pVal).1 = false →
        (DoEpMem_set I cli pAttr pVal).2.m_LastError
          = some "This parameter is protected while the episodic memory database is open.")) ∧
    ((DoEpMem_set I cli pAttr pVal).2.set_string_calls ≠ cli.set_string_calls →
      ∃ p, I.get cli.thisAgent pAttr = some p ∧ I.validate_string cli.thisAgent p pVal = true) ∧
    ((DoEpMem_set I cli pAttr pVal).1 = true →
      ∃ p, I.get cli.thisAgent pAttr = some p ∧ I.validate_string cli.thisAgent p pVal = true ∧
        (I.set_string cli.thisAgent p pVal).1 = true) := by
  have key : ∀ p, I.get cli.thisAgent pAttr = some p →
      I.validate_string cli.thisAgent p pVal = true →
      (DoEpMem_set I cli pAttr pVal).1 = (I.set_string cli.thisAgent p pVal).1 ∧
      (DoEpMem_set I cli pAttr pVal).2.thisAgent = (I.set_string cli.thisAgent p pVal).2 ∧
      (DoEpMem_set I cli pAttr pVal).2.set_string_calls = cli.set_string_calls ++ [(p, pVal)] ∧
      ((I.set_string cli.thisAgent p pVal).1 = false →
        (DoEpMem_set I cli pAttr pVal).2.m_LastError
          = some "This parameter is protected while the episodic memory database is open.") := by
    intro p hg hv
    simp only [DoEpMem_set, hg, hv, Bool.not_true, Bool.false_eq_true, if_false]
    cases hr : (I.set_string cli.thisAgent p pVal).1
    · simp [SetError]
    · simp only [Bool.not_true, Bool.false_eq_true, if_false, PrintCLIMessage]
      refine ⟨trivial, ?_, ?_, by simp⟩ <;> (split_ifs <;> rfl)
  have hnone : I.get cli.thisAgent pAttr = none →
      DoEpMem_set I cli pAttr pVal
        = (false, { cli with m_LastError := some "Invalid epmem parameter." }) := by
    intro hg
    simp [DoEpMem_set, hg, SetError]
  have hbad : ∀ p, I.get cli.thisAgent pAttr = some p →
      I.validate_string cli.thisAgent p pVal = false →
      DoEpMem_set I cli pAttr pVal
        = (false, { cli with m_LastError := some "Invalid setting for epmem parameter." }) := by
    intro p hg hv
    simp [DoEpMem_set, hg, hv, SetError]
  refine ⟨hnone, hbad, key, ?_, ?_⟩
  · intro hne
    cases hg : I.get cli.thisAgent pAttr with
    | none => rw [hnone hg] at hne; exact absurd rfl hne
    | some p =>
      cases hv : I.validate_string cli.thisAgent p pVal with
      | false => rw [hbad p hg hv] at hne; exact absurd rfl hne
      | true => exact ⟨p, rfl, hv⟩
  · intro ht
    cases hg : I.get cli.thisAgent pAttr with
    | none => rw [hnone hg] at ht; exact absurd ht (by simp)
    | some p =>
      cases hv : I.validate_string cli.thisAgent p pVal with
      | false => rw [hbad p hg hv] at ht; exact absurd ht (by simp)
      | true => exact ⟨p, rfl, hv, by rw [← (key p hg hv).1]; exact ht⟩

/-- Witness for C2: on the sample interface with the database open, an unknown name and an
invalid value are rejected without a `set_string` call; `database = file` passes validation,
`set_string` is called and refuses, and the command returns `false` with the "protected"
error recorded; `learning = on` is set and the command returns `true`. -/
theorem DoEpMem_set_contract_witness :
    DoEpMem_set sample_interface sample_cli "nonexistent" "on"
      = (false, { sample_cli with m_LastError := some "Invalid epmem parameter." }) ∧
    DoEpMem_set sample_interface sample_cli "learning" "maybe"
      = (false, { sample_cli with m_LastError := some "Invalid setting for epmem parameter." }) ∧
    ((DoEpMem_set sample_interface sample_cli "database" "file").1 = false ∧
      (DoEpMem_set sample_interface sample_cli "database" "file").2.set_string_calls
        = [("database", "file")] ∧
      (DoEpMem_set sample_interface sample_cli "database" "file").2.m_LastError
        = some "This parameter is protected while the episodic memory database is open.") ∧
    ((DoEpMem_set sample_interface sample_cli "learning" "on").1 = true ∧
      ∃ p, sample_interface.get sample_cli.thisAgent "learning" = some p ∧
        sample_interface.validate_string sample_cli.thisAgent p "on" = true ∧
        (sample_interface.set_string sample_cli.thisAgent p "on").1 = true) :=
  have h := (DoEpMem_set_contract sample_interface sample_cli "database" "file").2.2.1
    "database" (by decide) (by decide)
  have ht : (DoEpMem_set sample_interface sample_cli "learning" "on").1 = true := by decide
  ⟨(DoEpMem_set_contract sample_interface sample_cli "nonexistent" "on").1 (by decide),
   (DoEpMem_set_contract sample_interface sample_cli "learning" "maybe").2.1 "learning"
     (by decide) (by decide),
   ⟨by rw [h.1]; decide, h.2.2.1, h.2.2.2 (by decide)⟩,
   ⟨ht, (DoEpMem_set_contract sample_interface sample_cli "learning" "on").2.2.2.2 ht⟩⟩

end CliEpmem

namespace Decide

/-- Every member of the list after an ordered insertion is the new preference or an old
member. -/
theorem mem_insert_by_depth (pref x : preference) (l : List preference) :
    x ∈ insert_by_depth pref l ↔ x = pref ∨ x ∈ l := by
  induction l with
  | nil => simp [insert_by_depth]
  | cons q rest ih =>
    unfold insert_by_depth
    split_ifs
    · simp
    · simp only [List.mem_cons, ih]
      tauto

/-- Ordered insertion keeps a list in ascending depth. -/
theorem insert_by_depth_sorted (pref : preference) (l : List preference)
    (h : l.Pairwise (fun p q => p.depth ≤ q.depth)) :
    (insert_by_depth pref l).Pairwise (fun p q => p.depth ≤ q.depth) := by
  induction l with
  | nil => simp [insert_by_depth]
  | cons q rest ih =>
    unfold insert_by_depth
    rw [List.pairwise_cons] at h
    split_ifs with hlt
    · refine List.pairwise_cons.2 ⟨?_, List.pairwise_cons.2 h⟩
      intro x hx
      rcases List.mem_cons.1 hx with rfl | hx
      · exact le_of_lt hlt
      · exact le_trans (le_of_lt hlt) (h.1 x hx)
    · refine List.pairwise_cons.2 ⟨?_, ih h.2⟩
      intro x hx
      rcases (mem_insert_by_depth pref x rest).1 hx with rfl | hx
      · exact not_lt.1 hlt
      · exact h.1 x hx

/-- Adding a preference keeps the per-type lists ordered. -/
theorem add_preference_sorted (s : slot) (pref : preference) (h : preferences_sorted s) :
    preferences_sorted (add_preference s pref) := by
  intro t
  simp only [add_preference]
  split_ifs
  · exact insert_by_depth_sorted pref _ (h t)
  · exact h t

/-- Removing a preference keeps the per-type lists ordered. -/
theorem remove_preference_sorted (s : slot) (pref : preference) (r : slot × List wme)
    (h : preferences_sorted s) (hr : remove_preference s pref = .ok r) :
    preferences_sorted r.1 := by
  unfold remove_preference at hr
  by_cases hg : pref ∈ s.all_preferences ∧ pref ∈ s.preferences pref.type
  · rw [if_pos hg] at hr
    simp only [Except.ok.injEq] at hr
    subst hr
    intro t
    show (if t = pref.type then (s.preferences t).erase pref else s.preferences t).Pairwise _
    split_ifs
    · exact (h t).sublist (List.erase_sublist _ _)
    · exact h t
  · rw [if_neg hg] at hr
    cases hr

/-- Any run of additions and removals keeps the per-type lists ordered. -/
theorem apply_preference_changes_sorted (ops : List preference_change) :
    ∀ (s s' : slot), preferences_sorted s → apply_preference_changes s ops = some s' →
      preferences_sorted s' := by
  induction ops with
  | nil =>
    intro s s' h hs
    simp only [apply_preference_changes, Option.some.injEq] at hs
    exact hs ▸ h
  | cons op rest ih =>
    intro s s' h hs
    cases op with
    | add pref =>
      simp only [apply_preference_changes] at hs
      exact ih _ _ (add_preference_sorted s pref h) hs
    | remove pref =>
      simp only [apply_preference_changes] at hs
      cases hr : remove_preference s pref with
      | error e => rw [hr] at hs; simp at hs
      | ok r =>
        rw [hr] at hs
        exact ih _ _ (remove_preference_sorted s pref r h hr) hs

/-- C8. Ordering invariant of a slot's per-type preference lists: if every list
`preferences[t]` is in ascending goal-stack depth (the preference supported by the highest
goal at the head), it still is after adding a preference and after removing one; hence it
holds after every sequence of additions and removals applied to an empty slot. -/
theorem preferences_sorted_invariant :
    (∀ (s : slot) (pref : preference), preferences_sorted s →
      preferences_sorted (add_preference s pref)) ∧
    (∀ (s : slot) (pref : preference) (r : slot × List wme), preferences_sorted s →
      remove_preference s pref = .ok r → preferences_sorted r.1) ∧
    (∀ (id attr : Symbol) (ctx : Bool) (ops : List preference_change) (s : slot),
      apply_preference_changes (empty_slot id attr ctx) ops = some s → preferences_sorted s) := by
  refine ⟨add_preference_sorted, fun s pref r h hr => remove_preference_sorted s pref r h hr, ?_⟩
  intro id attr ctx ops s hs
  refine apply_preference_changes_sorted ops _ s ?_ hs
  intro t
  simp [empty_slot]

end Decide

namespace Decide

/-- Nothing is left on cycles when there are no candidates. -/
theorem candidates_on_cycles_nil (prefs : preference_type → List preference) (n : Nat) :
    candidates_on_cycles prefs n [] = [] := by
  induction n with
  | zero => rfl
  | succ n ih => simpa [candidates_on_cycles, dominated_candidates] using ih

/-- An empty list `preferences[t]` has a preference for no value. -/
theorem has_preference_eq_false (prefs : preference_type → List preference)
    (t : preference_type) (v : Symbol) (h : prefs t = []) : has_preference prefs t v = false := by
  simp [has_preference, h]

/-- Without better and worse preferences no value is better than another. -/
theorem is_better_eq_false (prefs : preference_type → List preference) (a b : Symbol)
    (h1 : prefs .BETTER_PREFERENCE_TYPE = []) (h2 : prefs .WORSE_PREFERENCE_TYPE = []) :
    is_better prefs a b = false := by
  simp [is_better, h1, h2]

/-- Without prohibit and reject preferences no value is vetoed. -/
theorem value_is_vetoed_eq_false (prefs : preference_type → List preference) (v : Symbol)
    (h1 : prefs .PROHIBIT_PREFERENCE_TYPE = []) (h2 : prefs .REJECT_PREFERENCE_TYPE = []) :
    value_is_vetoed prefs v = false := by
  simp [value_is_vetoed, has_preference, h1, h2]

/-- An empty list `preferences[t]` yields no surviving value. -/
theorem surviving_values_eq_nil (prefs : preference_type → List preference)
    (t : preference_type) (h : prefs t = []) : surviving_values prefs t = [] := by
  simp [surviving_values, h]

/-- C6. A slot whose only preferences are acceptable preferences for two distinct values `A`
and `B` (any number of them, at any depths, so in particular at the same depth) resolves to a
TIE impasse whose candidates are exactly `A` and `B`. -/
theorem two_acceptable_values_tie (s : slot) (A B : Symbol) (hAB : A ≠ B)
    (hother : ∀ t, t ≠ preference_type.ACCEPTABLE_PREFERENCE_TYPE → s.preferences t = [])
    (hall : ∀ p ∈ s.preferences .ACCEPTABLE_PREFERENCE_TYPE, p.value = A ∨ p.value = B)
    (hA : ∃ p ∈ s.preferences .ACCEPTABLE_PREFERENCE_TYPE, p.value = A)
    (hB : ∃ p ∈ s.preferences .ACCEPTABLE_PREFERENCE_TYPE, p.value = B) :
    (run_preference_semantics s).1 = .TIE_IMPASSE_TYPE ∧
    (run_preference_semantics s).2.length = 2 ∧
    ∀ v, v ∈ (run_preference_semantics s).2 ↔ v = A ∨ v = B := by
  have hveto : ∀ v, value_is_vetoed s.preferences v = false := fun v =>
    value_is_vetoed_eq_false _ v (hother _ (by decide)) (hother _ (by decide))
  have hbetter : ∀ a b, is_better s.preferences a b = false := fun a b =>
    is_better_eq_false _ a b (hother _ (by decide)) (hother _ (by decide))
  -- the candidates
  have hmem : ∀ v, v ∈ surviving_values s.preferences .ACCEPTABLE_PREFERENCE_TYPE ↔
      v = A ∨ v = B := by
    intro v
    simp only [surviving_values, List.mem_dedup, List.mem_map, List.mem_filter, hveto,
      Bool.not_false, and_true]
    constructor
    · rintro ⟨p, hp, rfl⟩
      exact hall p hp
    · rintro (rfl | rfl)
      · exact hA
      · exact hB
  have hnd : (surviving_values s.preferences .ACCEPTABLE_PREFERENCE_TYPE).Nodup := by
    simp only [surviving_values]
    exact List.nodup_dedup _
  have hperm : (surviving_values s.preferences .ACCEPTABLE_PREFERENCE_TYPE).Perm [A, B] := by
    refine (List.perm_ext_iff_of_nodup hnd ?_).2 ?_
    · simp [hAB]
    · intro v
      simp [hmem v]
  have hlen : (surviving_values s.preferences .ACCEPTABLE_PREFERENCE_TYPE).length = 2 := by
    simpa using hperm.length_eq
  -- shape of the candidate list
  obtain ⟨v, w, hcands⟩ : ∃ v w,
      surviving_values s.preferences .ACCEPTABLE_PREFERENCE_TYPE = [v, w] := by
    match hc : surviving_values s.preferences .ACCEPTABLE_PREFERENCE_TYPE, hlen with
    | [v, w], _ => exact ⟨v, w, rfl⟩
  have hvw : v ≠ w := by
    rw [hcands] at hnd
    simpa using hnd
  have hreq : surviving_values s.preferences .REQUIRE_PREFERENCE_TYPE = [] :=
    surviving_values_eq_nil _ _ (hother _ (by decide))
  have hbest : ∀ x, has_preference s.preferences .BEST_PREFERENCE_TYPE x = false := fun x =>
    has_preference_eq_false _ _ x (hother _ (by decide))
  have hworst : ∀ x, has_preference s.preferences .WORST_PREFERENCE_TYPE x = false := fun x =>
    has_preference_eq_false _ _ x (hother _ (by decide))
  have hunary : ∀ x,
      has_preference s.preferences .UNARY_INDIFFERENT_PREFERENCE_TYPE x = false := fun x =>
    has_preference_eq_false _ _ x (hother _ (by decide))
  have hbinary : s.preferences .BINARY_INDIFFERENT_PREFERENCE_TYPE = [] :=
    hother _ (by decide)
  have hmi : mutually_indifferent s.preferences [v, w] = false := by
    simp only [mutually_indifferent, List.all_cons, List.all_nil, hunary, hbinary, List.any_nil]
    simp [hvw]
  have hrun : run_preference_semantics s = (.TIE_IMPASSE_TYPE, [v, w]) := by
    simp [run_preference_semantics, hreq, hcands, candidates_on_cycles, dominated_candidates,
      undominated_candidates, hbetter, promote_best, demote_worst, hbest, hworst,
      decide_candidates, hmi]
  rw [hrun]
  refine ⟨rfl, rfl, ?_⟩
  intro x
  rw [← hmem x, hcands]

/-- Witness for C6: acceptable preferences for the values 10 and 11, both generated at depth
2, and nothing else: a TIE between the two. -/
theorem two_acceptable_values_tie_witness :
    run_preference_semantics (slot_of_preferences 1 2
        [⟨.ACCEPTABLE_PREFERENCE_TYPE, 10, 0, 2, 0⟩, ⟨.ACCEPTABLE_PREFERENCE_TYPE, 11, 0, 2, 1⟩])
      = (.TIE_IMPASSE_TYPE, [10, 11]) ∧
    (run_preference_semantics (slot_of_preferences 1 2
        [⟨.ACCEPTABLE_PREFERENCE_TYPE, 10, 0, 2, 0⟩,
         ⟨.ACCEPTABLE_PREFERENCE_TYPE, 11, 0, 2, 1⟩])).1 = .TIE_IMPASSE_TYPE :=
  ⟨by decide,
   (two_acceptable_values_tie (slot_of_preferences 1 2
        [⟨.ACCEPTABLE_PREFERENCE_TYPE, 10, 0, 2, 0⟩, ⟨.ACCEPTABLE_PREFERENCE_TYPE, 11, 0, 2, 1⟩])
      10 11 (by decide) (by intro t ht; cases t <;> first | rfl | exact absurd rfl ht)
      (by decide) (by decide) (by decide)).1⟩

/-- C7. A slot that holds nothing but acceptable preferences for one value `A` and prohibit
preferences, at least one of them for `A` (so in particular the slot with one acceptable
and one prohibit preference for `A`), resolves to zero candidates and to a
CONSTRAINT_FAILURE impasse. -/
theorem acceptable_and_prohibit_constraint_failure (s : slot) (A : Symbol)
    (hother : ∀ t, t ≠ preference_type.ACCEPTABLE_PREFERENCE_TYPE →
      t ≠ preference_type.PROHIBIT_PREFERENCE_TYPE → s.preferences t = [])
    (hacc : ∀ p ∈ s.preferences .ACCEPTABLE_PREFERENCE_TYPE, p.value = A)
    (hpro : ∃ p ∈ s.preferences .PROHIBIT_PREFERENCE_TYPE, p.value = A) :
    run_preference_semantics s = (.CONSTRAINT_FAILURE_IMPASSE_TYPE, []) := by
  have hveto : value_is_vetoed s.preferences A = true := by
    obtain ⟨p, hp, hv⟩ := hpro
    have : has_preference s.preferences .PROHIBIT_PREFERENCE_TYPE A = true := by
      simp only [has_preference, List.any_eq_true, decide_eq_true_eq]
      exact ⟨p, hp, hv⟩
    simp [value_is_vetoed, this]
  have hreq : surviving_values s.preferences .REQUIRE_PREFERENCE_TYPE = [] :=
    surviving_values_eq_nil _ _ (hother _ (by decide) (by decide))
  have hcands : surviving_values s.preferences .ACCEPTABLE_PREFERENCE_TYPE = [] := by
    have hf : (s.preferences .ACCEPTABLE_PREFERENCE_TYPE).filter (fun p =>
        !value_is_vetoed s.preferences p.value) = [] := by
      rw [List.filter_eq_nil_iff]
      intro p hp
      simp [hacc p hp, hveto]
    simp [surviving_values, hf]
  simp [run_preference_semantics, hreq, hcands, candidates_on_cycles, undominated_candidates,
    promote_best, demote_worst, decide_candidates]

/-- Witness for C7: one acceptable and one prohibit preference for the value 10. -/
theorem acceptable_and_prohibit_constraint_failure_witness :
    run_preference_semantics (slot_of_preferences 1 2
        [⟨.ACCEPTABLE_PREFERENCE_TYPE, 10, 0, 2, 0⟩, ⟨.PROHIBIT_PREFERENCE_TYPE, 10, 0, 2, 1⟩])
      = (.CONSTRAINT_FAILURE_IMPASSE_TYPE, []) :=
  acceptable_and_prohibit_constraint_failure (slot_of_preferences 1 2
      [⟨.ACCEPTABLE_PREFERENCE_TYPE, 10, 0, 2, 0⟩, ⟨.PROHIBIT_PREFERENCE_TYPE, 10, 0, 2, 1⟩])
    10 (by intro t h1 h2; cases t <;> first | rfl | exact absurd rfl h1 | exact absurd rfl h2)
    (by decide) (by decide)

end Decide

namespace Decide

/-- A round of the propagation keeps what was seen. -/
theorem subset_reach_step (links : List (Symbol × Symbol)) (seen : List Symbol) :
    ∀ x ∈ seen, x ∈ reach_step links seen := by
  intro x hx
  simp only [reach_step, List.mem_append]
  exact Or.inl hx

/-- The rounds of the propagation keep what was seen. -/
theorem subset_reach_rounds (links : List (Symbol × Symbol)) (n : Nat) :
    ∀ (seen : List Symbol), ∀ x ∈ seen, x ∈ reach_rounds links n seen := by
  induction n with
  | zero => intro seen x hx; exact hx
  | succ n ih =>
    intro seen x hx
    exact ih _ x (subset_reach_step links seen x hx)

/-- A round of the propagation finds reachable identifiers only. -/
theorem reach_step_sound (links : List (Symbol × Symbol)) (root : Symbol) (seen : List Symbol)
    (h : ∀ x ∈ seen, reachable links root x) :
    ∀ x ∈ reach_step links seen, reachable links root x := by
  intro x hx
  simp only [reach_step, List.mem_append, List.mem_map, List.mem_filter,
    decide_eq_true_eq] at hx
  rcases hx with hx | ⟨e, ⟨he, hsrc, _⟩, rfl⟩
  · exact h x hx
  · exact Relation.ReflTransGen.tail (h e.1 hsrc) he

/-- The rounds of the propagation find reachable identifiers only. -/
theorem reach_rounds_sound (links : List (Symbol × Symbol)) (root : Symbol) (n : Nat) :
    ∀ (seen : List Symbol), (∀ x ∈ seen, reachable links root x) →
      ∀ x ∈ reach_rounds links n seen, reachable links root x := by
  induction n with
  | zero => intro seen h x hx; exact h x hx
  | succ n ih =>
    intro seen h x hx
    exact ih _ (reach_step_sound links root seen h) x hx

/-- A round of the propagation changes nothing on a closed set. -/
theorem reach_step_of_closed (links : List (Symbol × Symbol)) (seen : List Symbol)
    (h : closed_under_links links seen) : reach_step links seen = seen := by
  have hf : links.filter (fun e => decide (e.1 ∈ seen ∧ e.2 ∉ seen)) = [] := by
    rw [List.filter_eq_nil_iff]
    intro e he
    simp only [decide_eq_true_eq, not_and, not_not]
    exact h e he
  rw [reach_step, hf]
  simp

/-- The rounds of the propagation change nothing on a closed set. -/
theorem reach_rounds_of_closed (links : List (Symbol × Symbol)) (n : Nat) (seen : List Symbol)
    (h : closed_under_links links seen) : reach_rounds links n seen = seen := by
  induction n with
  | zero => rfl
  | succ n ih => simp only [reach_rounds, reach_step_of_closed links seen h, ih]

/-- On a set that is not closed, a round of the propagation uses up a link: fewer links
point outside afterwards. -/
theorem reach_step_measure (links : List (Symbol × Symbol)) (seen : List Symbol)
    (h : ¬ closed_under_links links seen) :
    (links.filter (fun e => decide (e.2 ∉ reach_step links seen))).length
      < (links.filter (fun e => decide (e.2 ∉ seen))).length := by
  have heq : links.filter (fun e => decide (e.2 ∉ reach_step links seen))
      = (links.filter (fun e => decide (e.2 ∉ seen))).filter
          (fun e => decide (e.2 ∉ reach_step links seen)) := by
    rw [List.filter_filter]
    apply List.filter_congr
    intro e _
    by_cases hs : e.2 ∈ seen
    · simp [hs, subset_reach_step links seen e.2 hs]
    · simp [hs]
  rw [heq, List.length_filter_lt_length_iff_exists]
  simp only [closed_under_links, not_forall] at h
  obtain ⟨e, he, hsrc, hdst⟩ := h
  refine ⟨e, ?_, ?_⟩
  · simp [List.mem_filter, he, hdst]
  · simp only [decide_eq_true_eq, not_not, reach_step, List.mem_append, List.mem_map,
      List.mem_filter]
    exact Or.inr ⟨e, ⟨he, hsrc, hdst⟩, rfl⟩

/-- After as many rounds as links point outside, the set found is closed. -/
theorem reach_rounds_closed (links : List (Symbol × Symbol)) (n : Nat) :
    ∀ (seen : List Symbol), (links.filter (fun e => decide (e.2 ∉ seen))).length ≤ n →
      closed_under_links links (reach_rounds links n seen) := by
  induction n with
  | zero =>
    intro seen hm e he _
    have hnil : links.filter (fun e => decide (e.2 ∉ seen)) = [] :=
      List.length_eq_zero.1 (Nat.le_zero.1 hm)
    rw [List.filter_eq_nil_iff] at hnil
    have := hnil e he
    simpa using this
  | succ n ih =>
    intro seen hm
    by_cases hc : closed_under_links links seen
    · rw [reach_rounds_of_closed links (n + 1) seen hc]
      exact hc
    · have hlt := reach_step_measure links seen hc
      exact ih (reach_step links seen) (by omega)

/-- The propagation from the root finds exactly the identifiers reachable from the root. -/
theorem mem_reachable_from_iff (links : List (Symbol × Symbol)) (root o : Symbol) :
    o ∈ reachable_from links root ↔ reachable links root o := by
  constructor
  · intro h
    refine reach_rounds_sound links root links.length [root] ?_ o h
    intro x hx
    rw [List.mem_singleton.1 hx]
    exact Relation.ReflTransGen.refl
  · intro h
    have hclosed : closed_under_links links (reachable_from links root) :=
      reach_rounds_closed links links.length [root] (List.length_filter_le _ _)
    have hroot : root ∈ reachable_from links root :=
      subset_reach_rounds links links.length [root] root (List.mem_singleton.2 rfl)
    induction h with
    | refl => exact hroot
    | tail _ hbc ih => exact hclosed _ hbc ih

/-- C4. Reachability invariant of the ownership tracker: after `do_buffered_link_changes` an
identifier of the store is still alive if and only if a chain of links leads to it from the
root, for every state of the store, of the link graph and of the buffer before the flush; no
identifier is created by the flush; in particular an identifier on a cycle that has no path
from the root is collected. -/
theorem do_buffered_link_changes_reachability (thisAgent : agent) :
    (∀ o, o ∈ (do_buffered_link_changes thisAgent).identifiers ↔
      o ∈ thisAgent.identifiers ∧
        reachable (do_buffered_link_changes thisAgent).links thisAgent.top_goal o) ∧
    (∀ o, on_cycle (do_buffered_link_changes thisAgent).links o →
      ¬ reachable (do_buffered_link_changes thisAgent).links thisAgent.top_goal o →
      o ∉ (do_buffered_link_changes thisAgent).identifiers) := by
  have hiff : ∀ o, o ∈ (do_buffered_link_changes thisAgent).identifiers ↔
      o ∈ thisAgent.identifiers ∧
        reachable (do_buffered_link_changes thisAgent).links thisAgent.top_goal o := by
    intro o
    simp only [do_buffered_link_changes, List.mem_filter, decide_eq_true_eq,
      mem_reachable_from_iff]
  refine ⟨hiff, ?_⟩
  intro o _ hnot hmem
  exact hnot ((hiff o).1 hmem).2

/-- Witness for C4: in the scenario root `0 -> 1 -> 2 -> 1` with the link `0 -> 1` removed in
the buffer, the identifiers `1` and `2` still lie on their cycle after the flush, no chain of
links leads to them from the root, and both are collected: only the root stays alive. -/
theorem do_buffered_link_changes_reachability_witness :
    (do_buffered_link_changes cycle_scenario).identifiers = [0] ∧
    on_cycle (do_buffered_link_changes cycle_scenario).links 1 ∧
    ¬ reachable (do_buffered_link_changes cycle_scenario).links cycle_scenario.top_goal 1 ∧
    1 ∉ (do_buffered_link_changes cycle_scenario).identifiers :=
  have hcyc : on_cycle (do_buffered_link_changes cycle_scenario).links 1 :=
    Relation.TransGen.tail (Relation.TransGen.single (show ((1 : Symbol), (2 : Symbol)) ∈
      (do_buffered_link_changes cycle_scenario).links by decide))
      (show ((2 : Symbol), (1 : Symbol)) ∈ (do_buffered_link_changes cycle_scenario).links
        by decide)
  have hnot : ¬ reachable (do_buffered_link_changes cycle_scenario).links
      cycle_scenario.top_goal 1 := fun hr =>
    absurd (((do_buffered_link_changes_reachability cycle_scenario).1 1).2 ⟨by decide, hr⟩)
      (by decide)
  ⟨by decide, hcyc, hnot,
   (do_buffered_link_changes_reachability cycle_scenario).2 1 hcyc hnot⟩

/-- A leading part of the goal stack none of whose goals satisfies `f` lies strictly above
every goal that satisfies `f`. -/
theorem prefix_above_of_forall_false (f : goal → Bool) (G : goal) (post t : List goal)
    (hG : f G = true) :
    ∀ (pre r : List goal), r ++ t = pre ++ G :: post → (∀ x ∈ r, f x = false) → r <+: pre := by
  intro pre
  induction pre with
  | nil =>
    intro r ht hall
    cases r with
    | nil => exact List.nil_prefix
    | cons x r' =>
      simp only [List.nil_append, List.cons_append, List.cons.injEq] at ht
      have hx := hall x (List.mem_cons_self _ _)
      rw [ht.1, hG] at hx
      cases hx
  | cons q rest ih =>
    intro r ht hall
    cases r with
    | nil => exact List.nil_prefix
    | cons x r' =>
      simp only [List.cons_append, List.cons.injEq] at ht
      rw [ht.1]
      exact (List.prefix_cons_inj q).2
        (ih r' ht.2 (fun y hy => hall y (List.mem_cons_of_mem _ hy)))

/-- Cutting the goal stack at the first goal that carries the identifier of the first goal
satisfying `f` keeps goals that do not satisfy `f` only. -/
theorem takeWhile_id_forall_false (f : goal → Bool) (g0 : goal) :
    ∀ (l : List goal), l.find? f = some g0 →
      ∀ x ∈ l.takeWhile (fun x => decide (x.id ≠ g0.id)), f x = false := by
  intro l
  induction l with
  | nil => intro _ x hx; simp at hx
  | cons q rest ih =>
    intro hf x hx
    rw [List.find?_cons] at hf
    cases hq : f q with
    | true =>
      rw [hq] at hf
      simp only [Option.some.injEq] at hf
      rw [hf, List.takeWhile_cons] at hx
      simp at hx
    | false =>
      rw [hq] at hf
      rw [List.takeWhile_cons] at hx
      by_cases hid : q.id ≠ g0.id
      · simp only [ne_eq] at hid
        simp only [ne_eq, hid, not_false_eq_true, decide_True, if_true, List.mem_cons] at hx
        rcases hx with rfl | hx
        · exact hq
        · exact ih hf x hx
      · simp [hid] at hx

/-- C5. GDS invalidation: when a goal `G` of the goal stack has a dependency set holding the
WME `w`, the agent returned by the change to `w` has a goal stack made of goals that were
strictly above `G` only, in their old order from the top goal on: `G` and every goal below
it are removed by the change itself, so before any later decision. -/
theorem gds_invalid_so_remove_goal_removes (thisAgent : agent) (w : wme)
    (pre post : List goal) (G : goal) (d : goal_dependency_set)
    (hstack : thisAgent.goal_stack = pre ++ G :: post)
    (hgds : G.gds = some d) (hw : w ∈ d.wmes_in_gds) :
    (gds_invalid_so_remove_goal thisAgent w).goal_stack <+: pre := by
  have hG : in_gds_of w G = true := by simp [in_gds_of, hgds, hw]
  have hGmem : G ∈ thisAgent.goal_stack := by simp [hstack]
  unfold gds_invalid_so_remove_goal
  cases hfind : thisAgent.goal_stack.find? (fun g => in_gds_of w g) with
  | none =>
    rw [List.find?_eq_none] at hfind
    exact absurd hG (hfind G hGmem)
  | some g0 =>
    simp only [remove_existing_context_and_descendents]
    have hall := takeWhile_id_forall_false (fun g => in_gds_of w g) g0 _ hfind
    obtain ⟨t, ht⟩ :
        thisAgent.goal_stack.takeWhile (fun x => decide (x.id ≠ g0.id))
          <+: thisAgent.goal_stack := List.takeWhile_prefix _
    exact prefix_above_of_forall_false (fun g => in_gds_of w g) G post t hG pre _
      (ht.trans hstack) hall

/-- Witness for C5: in the sample goal stack `1, 2, 3`, the WME `(1 ^5 6)` is in the
dependency set of goal `2`; a change to it leaves the top goal only. -/
theorem gds_invalid_so_remove_goal_removes_witness :
    (gds_invalid_so_remove_goal gds_scenario ⟨1, 5, 6, 40⟩).goal_stack = [⟨1, none⟩] ∧
    (gds_invalid_so_remove_goal gds_scenario ⟨1, 5, 6, 40⟩).goal_stack <+: [⟨1, none⟩] :=
  ⟨by decide,
   gds_invalid_so_remove_goal_removes gds_scenario ⟨1, 5, 6, 40⟩ [⟨1, none⟩] [⟨3, none⟩]
     ⟨2, some ⟨2, [⟨1, 5, 6, 40⟩]⟩⟩ ⟨2, [⟨1, 5, 6, 40⟩]⟩ rfl rfl (by decide)⟩

end Decide

namespace Decide

/-- The sample run of preference changes goes through without a contract violation. -/
theorem sample_changes_succeed :
    (apply_preference_changes (empty_slot 1 2 true) sample_changes).isSome = true := by
  decide

/-- Witness for C8: on an empty slot, adding acceptable preferences of depths 3, 1 and 2 and
then removing the first one leaves the list of acceptable preferences as depth 1, depth 2,
and the per-type lists are ordered. -/
theorem preferences_sorted_invariant_witness :
    ((apply_preference_changes (empty_slot 1 2 true) sample_changes).get
        sample_changes_succeed).preferences .ACCEPTABLE_PREFERENCE_TYPE
      = [⟨.ACCEPTABLE_PREFERENCE_TYPE, 11, 0, 1, 1⟩, ⟨.ACCEPTABLE_PREFERENCE_TYPE, 12, 0, 2, 2⟩] ∧
    preferences_sorted ((apply_preference_changes (empty_slot 1 2 true) sample_changes).get
        sample_changes_succeed) :=
  ⟨by decide,
   preferences_sorted_invariant.2.2 1 2 true sample_changes _
     (Option.some_get sample_changes_succeed).symm⟩

end Decide

namespace Production

/-- C10. For every agent state and every width of at least two bits of `tc_number`,
`get_new_tc_number` returns a value that is non-zero, is the agent's new
`current_tc_number`, and differs from the value `current_tc_number` had before the call.
When the increment wraps around to 0 the result is 1 and the `tc_num` field of every
identifier and variable is 0 afterwards; otherwise the result is the incremented counter and
the symbols are untouched. -/
theorem get_new_tc_number_spec (tc_bits : Nat) (hbits : 2 ≤ tc_bits) (thisAgent : agent) :
    (get_new_tc_number tc_bits thisAgent).1 ≠ 0 ∧
    (get_new_tc_number tc_bits thisAgent).1
      = (get_new_tc_number tc_bits thisAgent).2.current_tc_number ∧
    (get_new_tc_number tc_bits thisAgent).1 ≠ thisAgent.current_tc_number ∧
    ((thisAgent.current_tc_number + 1) % 2 ^ tc_bits = 0 →
      (get_new_tc_number tc_bits thisAgent).1 = 1 ∧
      ∀ sym ∈ (get_new_tc_number tc_bits thisAgent).2.symbols,
        sym.symbol_type = .IDENTIFIER_SYMBOL_TYPE ∨ sym.symbol_type = .VARIABLE_SYMBOL_TYPE →
        sym.tc_num = 0) ∧
    ((thisAgent.current_tc_number + 1) % 2 ^ tc_bits ≠ 0 →
      (get_new_tc_number tc_bits thisAgent).1 = (thisAgent.current_tc_number + 1) % 2 ^ tc_bits ∧
      (get_new_tc_number tc_bits thisAgent).2.symbols = thisAgent.symbols) := by
  have hm : 4 ≤ 2 ^ tc_bits := by
    calc 4 = 2 ^ 2 := by norm_num
      _ ≤ 2 ^ tc_bits := Nat.pow_le_pow_right (by norm_num) hbits
  by_cases hwrap : (thisAgent.current_tc_number + 1) % 2 ^ tc_bits = 0
  · have hval : get_new_tc_number tc_bits thisAgent
        = (1, { reset_id_and_variable_tc_numbers
                  { thisAgent with current_tc_number := 0 } with current_tc_number := 1 }) := by
      simp [get_new_tc_number, hwrap]
    rw [hval]
    refine ⟨by simp, rfl, ?_, fun _ => ⟨rfl, ?_⟩, fun h => absurd hwrap h⟩
    · intro h1
      have h1' : thisAgent.current_tc_number = 1 := h1.symm
      rw [h1', Nat.mod_eq_of_lt (by omega)] at hwrap
      omega
    · intro sym hsym hty
      simp only [reset_id_and_variable_tc_numbers, List.mem_map] at hsym
      obtain ⟨sym0, _, rfl⟩ := hsym
      by_cases h0 : sym0.symbol_type = .IDENTIFIER_SYMBOL_TYPE ∨
          sym0.symbol_type = .VARIABLE_SYMBOL_TYPE
      · simp [h0]
      · simp [h0] at hty
  · have hval : get_new_tc_number tc_bits thisAgent
        = ((thisAgent.current_tc_number + 1) % 2 ^ tc_bits,
           { thisAgent with
             current_tc_number := (thisAgent.current_tc_number + 1) % 2 ^ tc_bits }) := by
      simp [get_new_tc_number, hwrap]
    rw [hval]
    refine ⟨hwrap, rfl, ?_, fun h => absurd h hwrap, fun _ => ⟨rfl, rfl⟩⟩
    intro h1
    have h2 : (thisAgent.current_tc_number + 1) % 2 ^ tc_bits = thisAgent.current_tc_number := h1
    rcases Nat.lt_or_ge (thisAgent.current_tc_number + 1) (2 ^ tc_bits) with hlt | hge
    · rw [Nat.mod_eq_of_lt hlt] at h2
      omega
    · have hlt : thisAgent.current_tc_number < 2 ^ tc_bits := by
        rw [← h2]
        exact Nat.mod_lt _ (by omega)
      have heq : thisAgent.current_tc_number + 1 = 2 ^ tc_bits := by omega
      rw [heq, Nat.mod_self] at hwrap
      exact hwrap rfl

/-- Witness for C10: with a 64-bit `tc_number` and the counter at `2 ^ 64 - 1`, the
increment wraps around, the result is 1 and the marks of the identifier and of the variable
are reset; with the counter at 41 the result is 42 and the symbols are untouched. -/
theorem get_new_tc_number_spec_witness :
    ((sample_agent.current_tc_number + 1) % 2 ^ 64 = 0 ∧
      (get_new_tc_number 64 sample_agent).1 = 1 ∧
      (get_new_tc_number 64 sample_agent).1 ≠ sample_agent.current_tc_number ∧
      ∀ sym ∈ (get_new_tc_number 64 sample_agent).2.symbols,
        sym.symbol_type = .IDENTIFIER_SYMBOL_TYPE ∨ sym.symbol_type = .VARIABLE_SYMBOL_TYPE →
        sym.tc_num = 0) ∧
    ((get_new_tc_number 64 { sample_agent with current_tc_number := 41 }).1 = 42 ∧
      (get_new_tc_number 64 { sample_agent with current_tc_number := 41 }).2.symbols
        = sample_agent.symbols) :=
  have h := get_new_tc_number_spec 64 (by norm_num) sample_agent
  have hw : (sample_agent.current_tc_number + 1) % 2 ^ 64 = 0 := by
    simp [sample_agent]
  have h' := (get_new_tc_number_spec 64 (by norm_num)
    { sample_agent with current_tc_number := 41 }).2.2.2.2 (by norm_num)
  ⟨⟨hw, (h.2.2.2.1 hw).1, h.2.2.1, (h.2.2.2.1 hw).2⟩, h'⟩

/-- C9. `deallocate_production` on a production whose list of instantiations is non-empty
aborts with the fatal internal error and releases nothing (the agent is as it was); on a
production without instantiations it runs to completion and releases, in order, the action
list, the list of unbound variables, the reference to the name, the documentation and file
name strings when present, the template conditions and template instantiations when present,
and the production itself. It completes only when the production has no instantiations. -/
theorem deallocate_production_spec (BUFFER_MSG_SIZE : Nat) (thisAgent : agent)
    (prod : production) :
    (prod.instantiations ≠ [] →
      deallocate_production BUFFER_MSG_SIZE thisAgent prod
        = .fatal_error
            (strncpy_terminated "Internal error: deallocating prod. that still has inst's\n"
              BUFFER_MSG_SIZE)
            thisAgent) ∧
    (prod.instantiations = [] →
      deallocate_production BUFFER_MSG_SIZE thisAgent prod
        = .returned { thisAgent with
            released := thisAgent.released ++ production_releases prod }) ∧
    (∀ a, deallocate_production BUFFER_MSG_SIZE thisAgent prod = .returned a →
      prod.instantiations = []) := by
  have hdone : prod.instantiations = [] →
      deallocate_production BUFFER_MSG_SIZE thisAgent prod
        = .returned { thisAgent with
            released := thisAgent.released ++ production_releases prod } := by
    intro h
    simp only [deallocate_production, h, ne_eq, not_true_eq_false, if_false,
      production_releases, do_release]
    cases prod.documentation <;> cases prod.filename <;>
      cases prod.rl_template_instantiations <;>
      by_cases hc : prod.rl_template_conds = [] <;> simp [hc]
  have habort : prod.instantiations ≠ [] →
      deallocate_production BUFFER_MSG_SIZE thisAgent prod
        = .fatal_error
            (strncpy_terminated "Internal error: deallocating prod. that still has inst's\n"
              BUFFER_MSG_SIZE)
            thisAgent := by
    intro h
    simp [deallocate_production, h, abort_with_fatal_error]
  refine ⟨habort, hdone, ?_⟩
  intro a ha
  by_contra hne
  rw [habort hne] at ha
  cases ha

/-- Witness for C9: the sample production still has an instantiation; deallocating it aborts
and the agent is untouched. Once the instantiation is gone the deallocation completes and
releases the action list, the unbound variables, the name, the documentation string and the
production. -/
theorem deallocate_production_spec_witness :
    (sample_production.instantiations ≠ [] ∧
      deallocate_production 128 sample_agent sample_production
        = .fatal_error "Internal error: deallocating prod. that still has inst's\n"
            sample_agent) ∧
    deallocate_production 128 sample_agent { sample_production with instantiations := [] }
      = .returned { sample_agent with
          released :=
            [.deallocate_action_list [1, 2],
             .deallocate_symbol_list_removing_references [],
             .symbol_remove_ref sample_production.name,
             .free_memory_block_for_string "doc",
             .free_with_pool_production sample_production.name] } :=
  ⟨⟨by decide,
    ((deallocate_production_spec 128 sample_agent sample_production).1 (by decide)).trans
      (by decide)⟩,
   ((deallocate_production_spec 128 sample_agent
      { sample_production with instantiations := [] }).2.1 rfl).trans (by decide)⟩

end Production

namespace VariablizationManager

/-- C20. The method `add_orig_var_to_gid_mapping` is first-write-wins. For a symbol without a
mapping it returns 0, records `index_sym -> index_g_id` (the other entries are kept), adds one
reference to the symbol, and `get_gid_for_orig_var` then returns `index_g_id`. For a symbol
that has a mapping it returns the grounding id recorded and leaves the manager, its map and
the reference counts included, as it was. `get_gid_for_orig_var` returns 0 for every symbol
without a mapping. -/
theorem add_orig_var_to_gid_mapping_first_write_wins (vm : Variablization_Manager)
    (index_sym : Symbol) (index_g_id : Nat) :
    (vm.orig_var_to_g_id_map.lookup index_sym = none →
      (add_orig_var_to_gid_mapping vm index_sym index_g_id).1 = 0 ∧
      (add_orig_var_to_gid_mapping vm index_sym index_g_id).2.orig_var_to_g_id_map
        = (index_sym, index_g_id) :: vm.orig_var_to_g_id_map ∧
      (add_orig_var_to_gid_mapping vm index_sym index_g_id).2.reference_count index_sym
        = vm.reference_count index_sym + 1 ∧
      get_gid_for_orig_var (add_orig_var_to_gid_mapping vm index_sym index_g_id).2 index_sym
        = index_g_id) ∧
    (∀ g_id, vm.orig_var_to_g_id_map.lookup index_sym = some g_id →
      add_orig_var_to_gid_mapping vm index_sym index_g_id = (g_id, vm) ∧
      get_gid_for_orig_var vm index_sym = g_id) ∧
    (vm.orig_var_to_g_id_map.lookup index_sym = none → get_gid_for_orig_var vm index_sym = 0) := by
  refine ⟨?_, ?_, ?_⟩
  · intro h
    simp [add_orig_var_to_gid_mapping, h, symbol_add_ref, get_gid_for_orig_var, List.lookup]
  · intro g_id h
    simp [add_orig_var_to_gid_mapping, h, get_gid_for_orig_var]
  · intro h
    simp [get_gid_for_orig_var, h]

/-- Witness for C20: in the sample manager the symbol 5 has no mapping and the symbol 3 is
mapped to 7. Adding `5 -> 9` returns 0 and is found afterwards; adding `3 -> 9` returns 7
and changes nothing; the lookup of 5 in the sample manager gives 0. -/
theorem add_orig_var_to_gid_mapping_first_write_wins_witness :
    ((add_orig_var_to_gid_mapping sample_manager 5 9).1 = 0 ∧
      get_gid_for_orig_var (add_orig_var_to_gid_mapping sample_manager 5 9).2 5 = 9) ∧
    (add_orig_var_to_gid_mapping sample_manager 3 9 = (7, sample_manager) ∧
      get_gid_for_orig_var sample_manager 3 = 7) ∧
    get_gid_for_orig_var sample_manager 5 = 0 :=
  have h5 := (add_orig_var_to_gid_mapping_first_write_wins sample_manager 5 9).1 (by decide)
  ⟨⟨h5.1, h5.2.2.2⟩,
   (add_orig_var_to_gid_mapping_first_write_wins sample_manager 3 9).2.1 7 (by decide),
   (add_orig_var_to_gid_mapping_first_write_wins sample_manager 5 9).2.2 (by decide)⟩

end VariablizationManager

namespace CliMaxChunks

/-- C17. The method `ParseMaxChunks`: more than two elements in `argv` fail with
`kTooManyArgs`, two elements whose second has an `atoi` value of at most 0 fail with
`kIntegerMustBePositive`, both without touching the agent; two elements with a positive
`atoi` value `n` and an agent present call `SetMaxChunks(n)` once, after which the setting
is `n`, and return `true`; fewer than two elements are a query that leaves the agent as it
was. So `SetMaxChunks` is called if and only if `argv` has exactly two elements, the `atoi`
value of the second is positive and an agent is present. -/
theorem ParseMaxChunks_spec (atoi : String → Int) (cli : CommandLineInterface)
    (pAgent : Option Agent) (argv : List String) :
    (2 < argv.length →
      ParseMaxChunks atoi cli pAgent argv
        = (false, { cli with m_LastError := some .kTooManyArgs }, pAgent)) ∧
    (argv.length = 2 → atoi (argv.getD 1 "") ≤ 0 →
      ParseMaxChunks atoi cli pAgent argv
        = (false, { cli with m_LastError := some .kIntegerMustBePositive }, pAgent)) ∧
    (∀ a, argv.length = 2 → 0 < atoi (argv.getD 1 "") → pAgent = some a →
      ParseMaxChunks atoi cli pAgent argv
        = (true, cli, some (a.SetMaxChunks (atoi (argv.getD 1 "")))) ∧
      (a.SetMaxChunks (atoi (argv.getD 1 ""))).GetMaxChunks = atoi (argv.getD 1 "")) ∧
    (argv.length < 2 →
      (ParseMaxChunks atoi cli pAgent argv).2.2 = pAgent ∧
      (pAgent ≠ none → (ParseMaxChunks atoi cli pAgent argv).1 = true)) ∧
    (pAgent = none → (ParseMaxChunks atoi cli pAgent argv).2.2 = none) ∧
    (∀ a, pAgent = some a →
      ((ParseMaxChunks atoi cli pAgent argv).2.2 ≠ some a ↔
        argv.length = 2 ∧ 0 < atoi (argv.getD 1 ""))) := by
  have hmany : 2 < argv.length →
      ParseMaxChunks atoi cli pAgent argv
        = (false, { cli with m_LastError := some .kTooManyArgs }, pAgent) := by
    intro h
    simp [ParseMaxChunks, h, SetError]
  have hneg : argv.length = 2 → atoi (argv.getD 1 "") ≤ 0 →
      ParseMaxChunks atoi cli pAgent argv
        = (false, { cli with m_LastError := some .kIntegerMustBePositive }, pAgent) := by
    intro h hn
    have h1 : ¬ argv.length > 2 := by omega
    unfold ParseMaxChunks
    rw [if_neg h1, if_pos h]
    dsimp only
    rw [if_pos hn]
    rfl
  have hset : ∀ a, argv.length = 2 → 0 < atoi (argv.getD 1 "") → pAgent = some a →
      ParseMaxChunks atoi cli pAgent argv
        = (true, cli, some (a.SetMaxChunks (atoi (argv.getD 1 "")))) := by
    intro a h hn ha
    have hn' : ¬ atoi (argv.getD 1 "") ≤ 0 := not_le.2 hn
    have hn0 : atoi (argv.getD 1 "") ≠ 0 := ne_of_gt hn
    have h1 : ¬ argv.length > 2 := by omega
    unfold ParseMaxChunks
    rw [if_neg h1, if_pos h]
    dsimp only
    rw [if_neg hn', ha]
    simp only [DoMaxChunks]
    rw [if_neg hn0]
  have hquery : argv.length < 2 →
      (ParseMaxChunks atoi cli pAgent argv).2.2 = pAgent ∧
      (pAgent ≠ none → (ParseMaxChunks atoi cli pAgent argv).1 = true) := by
    intro h
    have h1 : ¬ argv.length > 2 := by omega
    have h2 : ¬ argv.length = 2 := by omega
    cases pAgent with
    | none => simp [ParseMaxChunks, h1, h2, DoMaxChunks]
    | some a =>
      simp only [ParseMaxChunks, h1, h2, if_false, DoMaxChunks, if_true]
      split_ifs <;> simp
  refine ⟨hmany, hneg, fun a h hn ha => ⟨hset a h hn ha, rfl⟩, hquery, ?_, ?_⟩
  · intro hnone
    subst hnone
    simp only [ParseMaxChunks, DoMaxChunks]
    split_ifs <;> rfl
  · intro a ha
    constructor
    · intro hne
      by_contra hcon
      apply hne
      rcases Nat.lt_trichotomy argv.length 2 with hlt | heq | hgt
      · rw [(hquery hlt).1, ha]
      · have hn : atoi (argv.getD 1 "") ≤ 0 := by
          by_contra hpos
          exact hcon ⟨heq, not_le.1 hpos⟩
        rw [hneg heq hn, ha]
      · rw [hmany hgt, ha]
    · rintro ⟨heq, hpos⟩
      rw [hset a heq hpos ha]
      intro h
      have hcalls := congrArg (fun x => x.map (fun b => b.SetMaxChunks_calls.length)) h
      simp [Agent.SetMaxChunks] at hcalls

/-- Witness for C17: on the sample agent, `max-chunks 12` sets the value 12; `max-chunks x`
fails with `kIntegerMustBePositive`; `max-chunks 3 4` fails with `kTooManyArgs`; `max-chunks`
alone is a query that leaves the agent as it was. -/
theorem ParseMaxChunks_spec_witness :
    ParseMaxChunks sample_atoi sample_cli (some sample_agent) ["max-chunks", "12"]
      = (true, sample_cli, some ⟨12, [12]⟩) ∧
    ParseMaxChunks sample_atoi sample_cli (some sample_agent) ["max-chunks", "x"]
      = (false, { sample_cli with m_LastError := some .kIntegerMustBePositive },
          some sample_agent) ∧
    ParseMaxChunks sample_atoi sample_cli (some sample_agent) ["max-chunks", "3", "4"]
      = (false, { sample_cli with m_LastError := some .kTooManyArgs }, some sample_agent) ∧
    (ParseMaxChunks sample_atoi sample_cli (some sample_agent) ["max-chunks"]).2.2
      = some sample_agent :=
  ⟨((ParseMaxChunks_spec sample_atoi sample_cli (some sample_agent)
      ["max-chunks", "12"]).2.2.1 sample_agent rfl (by decide) rfl).1.trans (by decide),
   (ParseMaxChunks_spec sample_atoi sample_cli (some sample_agent)
      ["max-chunks", "x"]).2.1 rfl (by decide),
   (ParseMaxChunks_spec sample_atoi sample_cli (some sample_agent)
      ["max-chunks", "3", "4"]).1 (by decide),
   ((ParseMaxChunks_spec sample_atoi sample_cli (some sample_agent)
      ["max-chunks"]).2.2.2.1 (by decide)).1⟩

end CliMaxChunks

namespace CliMultiAttributes

/-- The printing loop leaves the agent of the interface alone. -/
theorem print_loop_thisAgent (maList : List multi_attribute) :
    ∀ (cli : CommandLineInterface) (buffer : String) (count : Nat),
      (print_loop cli buffer count maList).1.thisAgent = cli.thisAgent := by
  induction maList with
  | nil => intro cli buffer count; rfl
  | cons ma rest ih =>
    intro cli buffer count
    simp only [print_loop]
    split_ifs
    · rw [ih]
    · rw [ih]

/-- When the setting loop finds no entry, the list has no entry for the symbol. -/
theorem set_loop_eq_none (s : Symbol) (n : Int) (l : List multi_attribute) :
    set_loop s n l = none ↔ entries_for s l = [] := by
  induction l with
  | nil => simp [set_loop, entries_for]
  | cons ma rest ih =>
    by_cases h : ma.symbol = s
    · simp [set_loop, entries_for, List.filter_cons, h]
    · have hf : entries_for s (ma :: rest) = entries_for s rest := by
        simp [entries_for, List.filter_cons, h]
      rw [hf, ← ih]
      simp only [set_loop, if_neg h]
      cases set_loop s n rest <;> simp

/-- What the setting loop does when it finds an entry: the length and the symbols of the
list stay, the entries for other symbols stay, and when the list had at most one entry for
the symbol it now has the one entry with the new value. -/
theorem set_loop_eq_some (s : Symbol) (n : Int) (l : List multi_attribute) :
    ∀ updated, set_loop s n l = some updated →
      updated.length = l.length ∧
      updated.map (fun ma => ma.symbol) = l.map (fun ma => ma.symbol) ∧
      (∀ s', s' ≠ s → entries_for s' updated = entries_for s' l) ∧
      ((entries_for s l).length ≤ 1 → entries_for s updated = [⟨s, n⟩]) := by
  induction l with
  | nil => intro updated h; simp [set_loop] at h
  | cons ma rest ih =>
    intro updated h
    simp only [set_loop] at h
    by_cases hs : ma.symbol = s
    · simp only [hs, if_true, Option.some.injEq] at h
      subst h
      refine ⟨rfl, by simp [hs], ?_, ?_⟩
      · intro s' hs'
        have h1 : ¬ s = s' := fun e => hs' e.symm
        have h2 : ¬ ma.symbol = s' := by rw [hs]; exact h1
        simp [entries_for, List.filter_cons, h1, h2]
      · intro hle
        have hcons : entries_for s (ma :: rest) = ma :: entries_for s rest := by
          simp [entries_for, List.filter_cons, hs]
        have hrest : entries_for s rest = [] := by
          rw [hcons, List.length_cons] at hle
          exact List.length_eq_zero.1 (by omega)
        simp only [entries_for, List.filter_cons, decide_True, if_true]
        simp only [entries_for] at hrest
        rw [hrest]
    · simp only [hs, if_false] at h
      cases hr : set_loop s n rest with
      | none => rw [hr] at h; cases h
      | some r =>
        rw [hr] at h
        simp only [Option.some.injEq] at h
        subst h
        obtain ⟨h1, h2, h3, h4⟩ := ih r hr
        refine ⟨by simp [h1], by simp [h2], ?_, ?_⟩
        · intro s' hs'
          have := h3 s' hs'
          simp only [entries_for] at this
          simp only [entries_for, List.filter_cons, this]
        · intro hle
          have hle' : (entries_for s rest).length ≤ 1 := by
            simpa [entries_for, List.filter_cons, hs] using hle
          have := h4 hle'
          simp only [entries_for] at this
          simp [entries_for, List.filter_cons, hs, this]

/-- C18. The method `DoMultiAttributes` called with an attribute name and a value `n` returns
`true`. With `v` the value `n`, or 10 when `n` is 0: when the list has an entry for the
symbol of that name, the list keeps its length and its symbols in place; when it has none,
the new list is the old one with the entry `(symbol, v)` put in front. In both cases the
entries for every other symbol are the same as before, and when the list held at most one
entry for the symbol it now holds exactly one, with the value `v`. -/
theorem DoMultiAttributes_set (cli : CommandLineInterface) (name : String) (n : Int) :
    ∃ cli', DoMultiAttributes cli (some name) n = some (true, cli') ∧
      (entries_for name cli.thisAgent.multi_attributes ≠ [] →
        cli'.thisAgent.multi_attributes.length = cli.thisAgent.multi_attributes.length ∧
        cli'.thisAgent.multi_attributes.map (fun ma => ma.symbol)
          = cli.thisAgent.multi_attributes.map (fun ma => ma.symbol)) ∧
      (entries_for name cli.thisAgent.multi_attributes = [] →
        cli'.thisAgent.multi_attributes
          = ⟨name, if n = 0 then 10 else n⟩ :: cli.thisAgent.multi_attributes) ∧
      (∀ s', s' ≠ name →
        entries_for s' cli'.thisAgent.multi_attributes
          = entries_for s' cli.thisAgent.multi_attributes) ∧
      ((entries_for name cli.thisAgent.multi_attributes).length ≤ 1 →
        entries_for name cli'.thisAgent.multi_attributes
          = [⟨name, if n = 0 then 10 else n⟩]) := by
  cases hr : set_loop name (if n = 0 then 10 else n) cli.thisAgent.multi_attributes with
  | some updated =>
    obtain ⟨h1, h2, h3, h4⟩ := set_loop_eq_some name _ _ updated hr
    have hne : entries_for name cli.thisAgent.multi_attributes ≠ [] := by
      intro hnil
      rw [(set_loop_eq_none name (if n = 0 then 10 else n) _).2 hnil] at hr
      cases hr
    refine ⟨_, by
      simp only [DoMultiAttributes, reduceCtorEq, false_and, if_false]
      rw [show (make_str_constant cli.thisAgent name).1 = name from rfl, hr], ?_, ?_, ?_, ?_⟩
    · intro _
      exact ⟨h1, h2⟩
    · intro hnil
      exact absurd hnil hne
    · exact h3
    · exact h4
  | none =>
    have hnil := (set_loop_eq_none name _ _).1 hr
    refine ⟨_, by
      simp only [DoMultiAttributes, reduceCtorEq, false_and, if_false]
      rw [show (make_str_constant cli.thisAgent name).1 = name from rfl, hr], ?_, ?_, ?_, ?_⟩
    · intro hne
      exact absurd hnil hne
    · intro _
      rfl
    · intro s' hs'
      have h1 : ¬ name = s' := fun e => hs' e.symm
      have h2 : (make_str_constant cli.thisAgent name).2.multi_attributes
          = cli.thisAgent.multi_attributes := rfl
      simp [entries_for, List.filter_cons, h1, h2]
    · intro _
      have h2 : (make_str_constant cli.thisAgent name).2.multi_attributes
          = cli.thisAgent.multi_attributes := rfl
      simp only [entries_for] at hnil
      simp only [entries_for, List.filter_cons, h2, hnil, decide_True, if_true]

/-- Witness for C18: on the sample interface, setting `ontop` with `n = 0` updates the
existing entry in place to 10, and setting `color` to 3 puts a new entry in front. -/
theorem DoMultiAttributes_set_witness :
    ((DoMultiAttributes sample_cli (some "ontop") 0).map
        (fun r => (r.1, r.2.thisAgent.multi_attributes)))
      = some (true, [⟨"block", 4⟩, ⟨"ontop", 10⟩]) ∧
    ((DoMultiAttributes sample_cli (some "color") 3).map
        (fun r => (r.1, r.2.thisAgent.multi_attributes)))
      = some (true, [⟨"color", 3⟩, ⟨"block", 4⟩, ⟨"ontop", 20⟩]) ∧
    (∃ cli', DoMultiAttributes sample_cli (some "ontop") 0 = some (true, cli') ∧
      entries_for "ontop" cli'.thisAgent.multi_attributes = [⟨"ontop", 10⟩]) :=
  ⟨by decide, by decide,
   (DoMultiAttributes_set sample_cli "ontop" 0).imp
     (fun _ h => ⟨h.1, (h.2.2.2.2 (by decide)).trans (by decide)⟩)⟩

/-- C19. The query forms of the commands are read-only and return `true`:
`DoMaxElaborations(0)` leaves the agent, so `sysparams[MAX_ELABORATIONS_SYSPARAM]`, as it
was; `DoMaxChunks(agent, 0)` on an agent that is present leaves the agent as it was, so
`SetMaxChunks` is not called; `DoMultiAttributes` with no attribute and `n = 0` leaves the
agent, so the multi-attribute list, as it was. -/
theorem query_forms_read_only :
    (∀ (MAX_ELABORATIONS_SYSPARAM : Nat) (cli : CliMaxElaborations.CommandLineInterface),
      (CliMaxElaborations.DoMaxElaborations MAX_ELABORATIONS_SYSPARAM cli 0).1 = true ∧
      (CliMaxElaborations.DoMaxElaborations MAX_ELABORATIONS_SYSPARAM cli 0).2.thisAgent
        = cli.thisAgent) ∧
    (∀ (cli : CliMaxChunks.CommandLineInterface) (a : CliMaxChunks.Agent),
      (CliMaxChunks.DoMaxChunks cli (some a) 0).1 = true ∧
      (CliMaxChunks.DoMaxChunks cli (some a) 0).2.2 = some a) ∧
    (∀ (cli : CommandLineInterface),
      ∃ cli', DoMultiAttributes cli none 0 = some (true, cli') ∧
        cli'.thisAgent = cli.thisAgent) := by
  refine ⟨?_, ?_, ?_⟩
  · intro M cli
    simp only [CliMaxElaborations.DoMaxElaborations, if_true]
    split_ifs <;> exact ⟨rfl, rfl⟩
  · intro cli a
    simp only [CliMaxChunks.DoMaxChunks, if_true]
    split_ifs <;> exact ⟨rfl, rfl⟩
  · intro cli
    simp only [DoMultiAttributes, and_self, if_true]
    split_ifs <;> refine ⟨_, rfl, ?_⟩ <;> simp only [print_loop_thisAgent]

end CliMultiAttributes

namespace Production

/-! ### production.cpp : marking symbols -/

theorem set_tc_num_getElem? (a : agent) (p tc q : Nat) :
    (set_tc_num a p tc).symbols[q]? =
      (a.symbols[q]?).map (fun s => if p = q then { s with tc_num := tc } else s) := by
  simp only [set_tc_num, List.getElem?_modify]
  rfl

theorem set_tc_num_getElem?_self (a : agent) (p tc : Nat) :
    (set_tc_num a p tc).symbols[p]? = (a.symbols[p]?).map (fun s => { s with tc_num := tc }) := by
  rw [set_tc_num_getElem?]
  cases a.symbols[p]? <;> simp

theorem set_tc_num_getElem?_ne (a : agent) (p tc q : Nat) (h : p ≠ q) :
    (set_tc_num a p tc).symbols[q]? = a.symbols[q]? := by
  rw [set_tc_num_getElem?]
  cases a.symbols[q]? <;> simp [h]

theorem add_symbol_to_tc_marked (m : marking) (sym tc : Nat) (s : Symbol)
    (h : m.thisAgent.symbols[sym]? = some s)
    (ht : s.symbol_type = .VARIABLE_SYMBOL_TYPE ∨ s.symbol_type = .IDENTIFIER_SYMBOL_TYPE) :
    (add_symbol_to_tc m sym tc).thisAgent.symbols[sym]? = some { s with tc_num := tc } := by
  unfold add_symbol_to_tc
  rw [h]
  rcases ht with ht | ht
  · dsimp only
    rw [if_pos ht]
    unfold mark_variable_if_unmarked
    rw [h]
    by_cases hc : s.tc_num = tc
    · dsimp only
      rw [if_neg (not_not.mpr hc), h]
      subst hc; rfl
    · dsimp only
      rw [if_pos hc, set_tc_num_getElem?_self, h]
      rfl
  · have hv : s.symbol_type ≠ .VARIABLE_SYMBOL_TYPE := by rw [ht]; decide
    dsimp only
    rw [if_neg hv, if_pos ht]
    unfold mark_identifier_if_unmarked
    rw [h]
    by_cases hc : s.tc_num = tc
    · dsimp only
      rw [if_neg (not_not.mpr hc), h]
      subst hc; rfl
    · dsimp only
      rw [if_pos hc, set_tc_num_getElem?_self, h]
      rfl

theorem add_symbol_to_tc_constant (m : marking) (sym tc : Nat) (s : Symbol)
    (h : m.thisAgent.symbols[sym]? = some s)
    (hv : s.symbol_type ≠ .VARIABLE_SYMBOL_TYPE) (hi : s.symbol_type ≠ .IDENTIFIER_SYMBOL_TYPE) :
    add_symbol_to_tc m sym tc = m := by
  unfold add_symbol_to_tc
  rw [h]
  simp only [hv, hi, if_false]

theorem add_symbol_to_tc_dangling (m : marking) (sym tc : Nat)
    (h : m.thisAgent.symbols[sym]? = none) : add_symbol_to_tc m sym tc = m := by
  unfold add_symbol_to_tc
  rw [h]

theorem add_symbol_to_tc_already (m : marking) (sym tc : Nat)
    (h : symbol_is_in_tc m.thisAgent sym tc = true) : add_symbol_to_tc m sym tc = m := by
  unfold symbol_is_in_tc at h
  unfold add_symbol_to_tc
  cases hs : m.thisAgent.symbols[sym]? with
  | none => rfl
  | some s =>
    rw [hs] at h
    simp only at h ⊢
    by_cases hv : s.symbol_type = .VARIABLE_SYMBOL_TYPE
    · simp only [hv, if_true, decide_eq_true_eq] at h ⊢
      unfold mark_variable_if_unmarked
      rw [hs]
      simp only [h, ne_eq, not_true_eq_false, if_false]
    · simp only [hv, if_false] at h ⊢
      by_cases hi : s.symbol_type = .IDENTIFIER_SYMBOL_TYPE
      · simp only [hi, if_true, decide_eq_true_eq] at h ⊢
        unfold mark_identifier_if_unmarked
        rw [hs]
        simp only [h, ne_eq, not_true_eq_false, if_false]
      · simp only [hi, if_false]

theorem mark_variable_wf (m : marking) (sym tc : Nat) (s : Symbol)
    (h : m.thisAgent.symbols[sym]? = some s) (ht : s.symbol_type = .VARIABLE_SYMBOL_TYPE)
    (hw : tc_lists_wf tc m) : tc_lists_wf tc (mark_variable_if_unmarked m sym tc) := by
  unfold mark_variable_if_unmarked
  rw [h]
  by_cases hc : s.tc_num = tc
  · dsimp only
    rw [if_neg (not_not.mpr hc)]
    exact hw
  · dsimp only
    rw [if_pos hc]
    obtain ⟨hid, hvar, hnd⟩ := hw
    have hsid : sym ∉ m.id_list.getD [] := by
      intro hmem
      obtain ⟨s', hs', hty, _⟩ := hid sym hmem
      rw [h] at hs'
      cases hs'
      rw [ht] at hty
      cases hty
    have hsvar : sym ∉ m.var_list.getD [] := by
      intro hmem
      obtain ⟨s', hs', _, htc⟩ := hvar sym hmem
      rw [h] at hs'
      cases hs'
      exact hc htc
    refine ⟨?_, ?_, ?_⟩
    · intro p hp
      have hne : sym ≠ p := fun e => hsid (e ▸ hp)
      dsimp only
      rw [set_tc_num_getElem?_ne _ _ _ _ hne]
      exact hid p hp
    · intro p hp
      cases hl : m.var_list with
      | none => rw [hl] at hp; simp [push_if_list] at hp
      | some l =>
        rw [hl] at hp hsvar
        simp only [push_if_list, Option.getD_some, List.mem_cons] at hp hsvar
        rcases hp with rfl | hp
        · refine ⟨{ s with tc_num := tc }, ?_, ht, rfl⟩
          dsimp only
          rw [set_tc_num_getElem?_self, h]
          rfl
        · have hne : sym ≠ p := fun e => hsvar (e ▸ hp)
          dsimp only
          rw [set_tc_num_getElem?_ne _ _ _ _ hne]
          exact hvar p (by rw [hl]; exact hp)
    · cases hl : m.var_list with
      | none => rw [hl] at hnd; simpa [push_if_list] using hnd
      | some l =>
        rw [hl] at hnd hsvar
        simp only [push_if_list, Option.getD_some] at hnd hsvar ⊢
        rw [List.nodup_middle, List.nodup_cons]
        refine ⟨?_, hnd⟩
        rw [List.mem_append]
        rintro (h1 | h1)
        · exact hsid h1
        · exact hsvar h1

theorem mark_identifier_wf (m : marking) (sym tc : Nat) (s : Symbol)
    (h : m.thisAgent.symbols[sym]? = some s) (ht : s.symbol_type = .IDENTIFIER_SYMBOL_TYPE)
    (hw : tc_lists_wf tc m) : tc_lists_wf tc (mark_identifier_if_unmarked m sym tc) := by
  unfold mark_identifier_if_unmarked
  rw [h]
  by_cases hc : s.tc_num = tc
  · dsimp only
    rw [if_neg (not_not.mpr hc)]
    exact hw
  · dsimp only
    rw [if_pos hc]
    obtain ⟨hid, hvar, hnd⟩ := hw
    have hsvar : sym ∉ m.var_list.getD [] := by
      intro hmem
      obtain ⟨s', hs', hty, _⟩ := hvar sym hmem
      rw [h] at hs'
      cases hs'
      rw [ht] at hty
      cases hty
    have hsid : sym ∉ m.id_list.getD [] := by
      intro hmem
      obtain ⟨s', hs', _, htc⟩ := hid sym hmem
      rw [h] at hs'
      cases hs'
      exact hc htc
    refine ⟨?_, ?_, ?_⟩
    · intro p hp
      cases hl : m.id_list with
      | none => rw [hl] at hp; simp [push_if_list] at hp
      | some l =>
        rw [hl] at hp hsid
        simp only [push_if_list, Option.getD_some, List.mem_cons] at hp hsid
        rcases hp with rfl | hp
        · refine ⟨{ s with tc_num := tc }, ?_, ht, rfl⟩
          dsimp only
          rw [set_tc_num_getElem?_self, h]
          rfl
        · have hne : sym ≠ p := fun e => hsid (e ▸ hp)
          dsimp only
          rw [set_tc_num_getElem?_ne _ _ _ _ hne]
          exact hid p (by rw [hl]; exact hp)
    · intro p hp
      have hne : sym ≠ p := fun e => hsvar (e ▸ hp)
      dsimp only
      rw [set_tc_num_getElem?_ne _ _ _ _ hne]
      exact hvar p hp
    · cases hl : m.id_list with
      | none => rw [hl] at hnd; simpa [push_if_list] using hnd
      | some l =>
        rw [hl] at hnd hsid
        simp only [push_if_list, Option.getD_some] at hnd hsid ⊢
        rw [List.cons_append, List.nodup_cons]
        refine ⟨?_, hnd⟩
        rw [List.mem_append]
        rintro (h1 | h1)
        · exact hsid h1
        · exact hsvar h1

theorem add_symbol_to_tc_wf (m : marking) (sym tc : Nat) (hw : tc_lists_wf tc m) :
    tc_lists_wf tc (add_symbol_to_tc m sym tc) := by
  unfold add_symbol_to_tc
  cases h : m.thisAgent.symbols[sym]? with
  | none => exact hw
  | some s =>
    dsimp only
    by_cases hv : s.symbol_type = .VARIABLE_SYMBOL_TYPE
    · rw [if_pos hv]
      exact mark_variable_wf m sym tc s h hv hw
    · rw [if_neg hv]
      by_cases hi : s.symbol_type = .IDENTIFIER_SYMBOL_TYPE
      · rw [if_pos hi]
        exact mark_identifier_wf m sym tc s h hi hw
      · rw [if_neg hi]
        exact hw

theorem foldl_add_symbol_to_tc_wf (tc : Nat) (syms : List Nat) (m : marking)
    (hw : tc_lists_wf tc m) :
    tc_lists_wf tc (syms.foldl (fun m sym => add_symbol_to_tc m sym tc) m) := by
  induction syms generalizing m with
  | nil => exact hw
  | cons sym rest ih => exact ih _ (add_symbol_to_tc_wf m sym tc hw)

/-- C16: after `add_symbol_to_tc (sym, tc, ...)` the symbol satisfies `symbol_is_in_tc (sym, tc)`
exactly when it is a variable or an identifier; a symbol that is neither is in no transitive
closure, whatever the state; adding a symbol that is already marked with `tc` changes
nothing, so nothing is pushed; the call keeps the lists well formed (each entry marked, no
pointer twice); and the lists built from empty ones by any run of calls hold each symbol at
most once. -/
theorem add_symbol_to_tc_spec (m : marking) (sym tc : Nat) :
    (symbol_is_in_tc (add_symbol_to_tc m sym tc).thisAgent sym tc = true ↔
      ∃ s, m.thisAgent.symbols[sym]? = some s ∧
        (s.symbol_type = .VARIABLE_SYMBOL_TYPE ∨ s.symbol_type = .IDENTIFIER_SYMBOL_TYPE)) ∧
    (∀ (a : agent) (s : Symbol) (tc' : Nat), a.symbols[sym]? = some s →
      s.symbol_type ≠ .VARIABLE_SYMBOL_TYPE → s.symbol_type ≠ .IDENTIFIER_SYMBOL_TYPE →
      symbol_is_in_tc a sym tc' = false) ∧
    (symbol_is_in_tc m.thisAgent sym tc = true → add_symbol_to_tc m sym tc = m) ∧
    (tc_lists_wf tc m → tc_lists_wf tc (add_symbol_to_tc m sym tc)) ∧
    (∀ (syms : List Nat) (a : agent),
      ((syms.foldl (fun m sym => add_symbol_to_tc m sym tc) ⟨a, some [], some []⟩).id_list.getD [] ++
        (syms.foldl (fun m sym => add_symbol_to_tc m sym tc)
          ⟨a, some [], some []⟩).var_list.getD []).Nodup) := by
  refine ⟨?_, ?_, add_symbol_to_tc_already m sym tc, add_symbol_to_tc_wf m sym tc, ?_⟩
  · constructor
    · intro h
      cases hs : m.thisAgent.symbols[sym]? with
      | none =>
        rw [add_symbol_to_tc_dangling m sym tc hs] at h
        unfold symbol_is_in_tc at h
        rw [hs] at h
        cases h
      | some s =>
        refine ⟨s, rfl, ?_⟩
        by_cases hv : s.symbol_type = .VARIABLE_SYMBOL_TYPE
        · exact Or.inl hv
        · by_cases hi : s.symbol_type = .IDENTIFIER_SYMBOL_TYPE
          · exact Or.inr hi
          · rw [add_symbol_to_tc_constant m sym tc s hs hv hi] at h
            unfold symbol_is_in_tc at h
            rw [hs] at h
            dsimp only at h
            rw [if_neg hv, if_neg hi] at h
            cases h
    · rintro ⟨s, hs, ht⟩
      unfold symbol_is_in_tc
      rw [add_symbol_to_tc_marked m sym tc s hs ht]
      dsimp only
      rcases ht with ht | ht
      · rw [if_pos ht]
        exact decide_eq_true rfl
      · have hv : s.symbol_type ≠ .VARIABLE_SYMBOL_TYPE := by rw [ht]; decide
        rw [if_neg hv, if_pos ht]
        exact decide_eq_true rfl
  · intro a s tc' hs hv hi
    unfold symbol_is_in_tc
    rw [hs]
    dsimp only
    rw [if_neg hv, if_neg hi]
  · intro syms a
    have h0 : tc_lists_wf tc ⟨a, some [], some []⟩ :=
      And.intro (fun p hp => by cases hp) (And.intro (fun p hp => by cases hp) List.nodup_nil)
    exact (foldl_add_symbol_to_tc_wf tc syms ⟨a, some [], some []⟩ h0).2.2

theorem add_symbol_to_tc_spec_witness :
    symbol_is_in_tc (add_symbol_to_tc ⟨tc_sample_agent, some [], some []⟩ 1 5).thisAgent 1 5 = true ∧
    symbol_is_in_tc (add_symbol_to_tc ⟨tc_sample_agent, some [], some []⟩ 2 5).thisAgent 2 5 = false ∧
    add_symbol_to_tc ⟨tc_sample_agent, some [], some []⟩ 1 7 = ⟨tc_sample_agent, some [], some []⟩ ∧
    (add_symbol_to_tc ⟨tc_sample_agent, some [], some []⟩ 1 5).var_list = some [1] :=
  ⟨(add_symbol_to_tc_spec ⟨tc_sample_agent, some [], some []⟩ 1 5).1.mpr ⟨_, rfl, Or.inl rfl⟩,
   (add_symbol_to_tc_spec ⟨tc_sample_agent, some [], some []⟩ 2 5).2.1 _ _ 5 rfl
     (by decide) (by decide),
   (add_symbol_to_tc_spec ⟨tc_sample_agent, some [], some []⟩ 1 7).2.2.1 (by decide),
   by decide⟩

end Production

namespace Production

/-! ### production.cpp : `cond_is_in_tc` leaves the transitive closure as it was -/

theorem tc_equiv_refl (tc : Nat) (a : agent) : tc_equiv tc a a :=
  fun _ => ⟨rfl, Iff.rfl⟩

theorem tc_equiv_symbol_is_in_tc (tc : Nat) (a a' : agent) (h : tc_equiv tc a a') (sym : Nat) :
    symbol_is_in_tc a' sym tc = symbol_is_in_tc a sym tc := by
  obtain ⟨h1, h2⟩ := h sym
  unfold symbol_is_in_tc
  cases hs : a.symbols[sym]? with
  | none =>
    rw [hs] at h1
    cases hs' : a'.symbols[sym]? with
    | none => rfl
    | some s' => rw [hs'] at h1; cases h1
  | some s =>
    rw [hs] at h1 h2
    cases hs' : a'.symbols[sym]? with
    | none => rw [hs'] at h1; cases h1
    | some s' =>
      rw [hs'] at h1 h2
      simp only [Option.map_some', Option.some.injEq] at h1 h2
      dsimp only
      rw [h1]
      have hd : decide (s'.tc_num = tc) = decide (s.tc_num = tc) := by
        rw [decide_eq_decide]; exact h2
      rw [hd]

theorem ncc_invariant_start (tc : Nat) (a : agent) : ncc_invariant tc a a [] [] := by
  intro p
  refine ⟨rfl, ?_, ?_⟩
  · simp
  · simp

theorem ncc_invariant_of_tc_equiv (tc : Nat) (a0 a a1 : agent) (ids vars : List Nat)
    (hJ : ncc_invariant tc a0 a ids vars) (he : tc_equiv tc a a1) :
    ncc_invariant tc a0 a1 ids vars := by
  intro p
  obtain ⟨h1, h2, h3⟩ := hJ p
  obtain ⟨e1, e2⟩ := he p
  exact ⟨e1.trans h1, e2.trans h2, h3⟩

theorem set_tc_num_invariant (tc : Nat) (a0 a : agent) (ids vars ids' vars' : List Nat)
    (sym : Nat) (s : Symbol) (hs : a.symbols[sym]? = some s) (hc : s.tc_num ≠ tc)
    (hJ : ncc_invariant tc a0 a ids vars)
    (hmem : ∀ p, (p ∈ ids' ∨ p ∈ vars') ↔ (p = sym ∨ p ∈ ids ∨ p ∈ vars)) :
    ncc_invariant tc a0 (set_tc_num a sym tc) ids' vars' := by
  intro p
  obtain ⟨h1, h2, h3⟩ := hJ p
  by_cases hp : p = sym
  · subst hp
    rw [set_tc_num_getElem?_self, hs]
    rw [hs] at h1 h2
    have hnot : ¬ (a0.symbols[p]?).map (fun s => s.tc_num) = some tc := by
      intro h0
      have := h2.mpr (Or.inl h0)
      simp only [Option.map_some', Option.some.injEq] at this
      exact hc this
    refine ⟨h1, ?_, fun _ => hnot⟩
    simp only [Option.map_some', true_iff]
    exact Or.inr ((hmem p).mpr (Or.inl rfl))
  · rw [set_tc_num_getElem?_ne _ _ _ _ (Ne.symm hp)]
    have hm : (p ∈ ids' ∨ p ∈ vars') ↔ (p ∈ ids ∨ p ∈ vars) := by
      rw [hmem p]
      constructor
      · rintro (h | h)
        · exact absurd h hp
        · exact h
      · exact Or.inr
    rw [hm]
    exact ⟨h1, h2, h3⟩

theorem add_symbol_to_tc_invariant (tc : Nat) (a0 a : agent) (ids vars : List Nat) (sym : Nat)
    (hJ : ncc_invariant tc a0 a ids vars) :
    ∃ a' ids' vars', add_symbol_to_tc ⟨a, some ids, some vars⟩ sym tc = ⟨a', some ids', some vars'⟩ ∧
      ncc_invariant tc a0 a' ids' vars' := by
  unfold add_symbol_to_tc
  cases hs : a.symbols[sym]? with
  | none => exact ⟨a, ids, vars, rfl, hJ⟩
  | some s =>
    dsimp only
    by_cases hv : s.symbol_type = .VARIABLE_SYMBOL_TYPE
    · rw [if_pos hv]
      unfold mark_variable_if_unmarked
      dsimp only
      rw [hs]
      by_cases hc : s.tc_num = tc
      · dsimp only
        rw [if_neg (not_not.mpr hc)]
        exact ⟨a, ids, vars, rfl, hJ⟩
      · dsimp only
        rw [if_pos hc]
        refine ⟨set_tc_num a sym tc, ids, sym :: vars, rfl, ?_⟩
        apply set_tc_num_invariant tc a0 a ids vars ids (sym :: vars) sym s hs hc hJ
        intro p
        simp only [List.mem_cons]
        tauto
    · rw [if_neg hv]
      by_cases hi : s.symbol_type = .IDENTIFIER_SYMBOL_TYPE
      · rw [if_pos hi]
        unfold mark_identifier_if_unmarked
        dsimp only
        rw [hs]
        by_cases hc : s.tc_num = tc
        · dsimp only
          rw [if_neg (not_not.mpr hc)]
          exact ⟨a, ids, vars, rfl, hJ⟩
        · dsimp only
          rw [if_pos hc]
          refine ⟨set_tc_num a sym tc, sym :: ids, vars, rfl, ?_⟩
          apply set_tc_num_invariant tc a0 a ids vars (sym :: ids) vars sym s hs hc hJ
          intro p
          simp only [List.mem_cons]
          tauto
      · rw [if_neg hi]
        exact ⟨a, ids, vars, rfl, hJ⟩

mutual
theorem add_test_to_tc_invariant (tc : Nat) (a0 : agent) :
    ∀ (t : test) (a : agent) (ids vars : List Nat), ncc_invariant tc a0 a ids vars →
      ∃ a' ids' vars', add_test_to_tc ⟨a, some ids, some vars⟩ t tc = ⟨a', some ids', some vars'⟩ ∧
        ncc_invariant tc a0 a' ids' vars'
  | .blank_test, a, ids, vars, hJ => ⟨a, ids, vars, rfl, hJ⟩
  | .equality_test referent, a, ids, vars, hJ => by
    rw [add_test_to_tc]
    exact add_symbol_to_tc_invariant tc a0 a ids vars referent hJ
  | .GOAL_ID_TEST, a, ids, vars, hJ => ⟨a, ids, vars, rfl, hJ⟩
  | .IMPASSE_ID_TEST, a, ids, vars, hJ => ⟨a, ids, vars, rfl, hJ⟩
  | .DISJUNCTION_TEST, a, ids, vars, hJ => ⟨a, ids, vars, rfl, hJ⟩
  | .CONJUNCTIVE_TEST conjunct_list, a, ids, vars, hJ => by
    rw [add_test_to_tc]
    exact add_tests_to_tc_invariant tc a0 conjunct_list a ids vars hJ
  | .relational_test _ _, a, ids, vars, hJ => ⟨a, ids, vars, rfl, hJ⟩
theorem add_tests_to_tc_invariant (tc : Nat) (a0 : agent) :
    ∀ (ts : List test) (a : agent) (ids vars : List Nat), ncc_invariant tc a0 a ids vars →
      ∃ a' ids' vars', add_tests_to_tc ⟨a, some ids, some vars⟩ ts tc = ⟨a', some ids', some vars'⟩ ∧
        ncc_invariant tc a0 a' ids' vars'
  | [], a, ids, vars, hJ => ⟨a, ids, vars, rfl, hJ⟩
  | t :: rest, a, ids, vars, hJ => by
    rw [add_tests_to_tc]
    obtain ⟨a1, ids1, vars1, e1, hJ1⟩ := add_test_to_tc_invariant tc a0 t a ids vars hJ
    rw [e1]
    exact add_tests_to_tc_invariant tc a0 rest a1 ids1 vars1 hJ1
end

theorem add_cond_to_tc_invariant (tc : Nat) (a0 : agent) (c : condition) (a : agent)
    (ids vars : List Nat) (hJ : ncc_invariant tc a0 a ids vars) :
    ∃ a' ids' vars', add_cond_to_tc ⟨a, some ids, some vars⟩ c tc = ⟨a', some ids', some vars'⟩ ∧
      ncc_invariant tc a0 a' ids' vars' := by
  cases c with
  | POSITIVE_CONDITION bt id_test attr_test value_test acc =>
    unfold add_cond_to_tc
    dsimp only
    obtain ⟨a1, ids1, vars1, e1, hJ1⟩ := add_test_to_tc_invariant tc a0 id_test a ids vars hJ
    rw [e1]
    exact add_test_to_tc_invariant tc a0 value_test a1 ids1 vars1 hJ1
  | NEGATIVE_CONDITION _ _ _ _ => exact ⟨a, ids, vars, rfl, hJ⟩
  | CONJUNCTIVE_NEGATION_CONDITION _ => exact ⟨a, ids, vars, rfl, hJ⟩

theorem unmark_identifiers_getElem? (l : List Nat) :
    ∀ (a : agent) (p : Nat), (unmark_identifiers_and_free_list a l).symbols[p]? =
      if p ∈ l then (a.symbols[p]?).map (fun s => { s with tc_num := 0 }) else a.symbols[p]? := by
  induction l with
  | nil => intro a p; simp [unmark_identifiers_and_free_list]
  | cons sym next ih =>
    intro a p
    rw [unmark_identifiers_and_free_list, ih]
    by_cases hp : p = sym
    · subst hp
      rw [set_tc_num_getElem?_self]
      by_cases hn : p ∈ next
      · simp only [hn, if_true, List.mem_cons, true_or]
        cases a.symbols[p]? <;> rfl
      · simp only [hn, if_false, List.mem_cons, true_or, if_true]
    · rw [set_tc_num_getElem?_ne _ _ _ _ (Ne.symm hp)]
      simp only [List.mem_cons, hp, false_or]

theorem unmark_variables_eq (l : List Nat) :
    ∀ a : agent, unmark_variables_and_free_list a l = unmark_identifiers_and_free_list a l := by
  induction l with
  | nil => intro a; rfl
  | cons sym next ih =>
    intro a
    rw [unmark_variables_and_free_list, unmark_identifiers_and_free_list, ih]

theorem unmark_invariant (tc : Nat) (htc : tc ≠ 0) (a0 a : agent) (ids vars : List Nat)
    (hJ : ncc_invariant tc a0 a ids vars) :
    tc_equiv tc a0
      (unmark_variables_and_free_list (unmark_identifiers_and_free_list a ids) vars) := by
  intro p
  obtain ⟨h1, h2, h3⟩ := hJ p
  rw [unmark_variables_eq, unmark_identifiers_getElem?, unmark_identifiers_getElem?]
  have h0 : ∀ o : Option Symbol,
      (o.map (fun s => { s with tc_num := 0 })).map (fun s => s.tc_num) ≠ some tc := by
    intro o
    cases o with
    | none => simp
    | some s => simp only [Option.map_some', ne_eq, Option.some.injEq]; exact fun e => htc e.symm
  have ht : ∀ o : Option Symbol,
      (o.map (fun s => { s with tc_num := 0 })).map (fun s => s.symbol_type) =
        o.map (fun s => s.symbol_type) := by
    intro o
    cases o <;> rfl
  by_cases hv : p ∈ vars
  · rw [if_pos hv]
    by_cases hi : p ∈ ids
    · rw [if_pos hi, ht, ht]
      exact ⟨h1, iff_of_false (h0 _) (h3 (Or.inl hi))⟩
    · rw [if_neg hi, ht]
      exact ⟨h1, iff_of_false (h0 _) (h3 (Or.inr hv))⟩
  · rw [if_neg hv]
    by_cases hi : p ∈ ids
    · rw [if_pos hi, ht]
      exact ⟨h1, iff_of_false (h0 _) (h3 (Or.inl hi))⟩
    · rw [if_neg hi]
      refine ⟨h1, h2.trans ?_⟩
      simp only [hi, hv, or_false]

theorem not_yet_in_tc_le_length : ∀ es : List ncc_entry, not_yet_in_tc es ≤ es.length
  | [] => le_refl _
  | e :: next => by
    have := not_yet_in_tc_le_length next
    rw [not_yet_in_tc, List.length_cons]
    split_ifs <;> omega

theorem ncc_pass_invariant (tc : Nat) (a0 : agent) :
    ∀ (es : List ncc_entry) (a : agent) (ids vars : List Nat) (ch : Bool),
      (∀ e ∈ es, returns_with_same_tc tc e.is_in_tc) → ncc_invariant tc a0 a ids vars →
      ∃ es' a' ids' vars' ch',
        ncc_pass tc es ⟨a, some ids, some vars⟩ ch = some (es', ⟨a', some ids', some vars'⟩, ch') ∧
        ncc_invariant tc a0 a' ids' vars' ∧
        (∀ e ∈ es', returns_with_same_tc tc e.is_in_tc) ∧
        not_yet_in_tc es' ≤ not_yet_in_tc es ∧
        (ch = false → ch' = true → not_yet_in_tc es' < not_yet_in_tc es)
  | [], a, ids, vars, ch, _, hJ =>
    ⟨[], a, ids, vars, ch, rfl, hJ, fun e he => (by cases he), le_refl _,
      fun h1 h2 => (by subst h1; cases h2)⟩
  | e :: next, a, ids, vars, ch, hg, hJ => by
    have hgn : ∀ e' ∈ next, returns_with_same_tc tc e'.is_in_tc :=
      fun e' he' => hg e' (List.mem_cons_of_mem _ he')
    have hge : returns_with_same_tc tc e.is_in_tc := hg e (List.mem_cons_self _ _)
    rw [ncc_pass]
    by_cases hf : e.already_in_tc = true
    · rw [if_pos hf]
      obtain ⟨es', a', ids', vars', ch', e1, hJ', hg', hle, hlt⟩ :=
        ncc_pass_invariant tc a0 next a ids vars ch hgn hJ
      rw [e1]
      refine ⟨e :: es', a', ids', vars', ch', rfl, hJ', ?_, ?_, ?_⟩
      · intro e' he'
        rcases List.mem_cons.mp he' with rfl | h
        · exact hge
        · exact hg' e' h
      · simp only [not_yet_in_tc, hf, if_true]
        omega
      · intro h1 h2
        have := hlt h1 h2
        simp only [not_yet_in_tc, hf, if_true]
        omega
    · rw [if_neg hf]
      obtain ⟨r, a1, er, heq⟩ := hge a
      dsimp only
      rw [er]
      have hJ1 : ncc_invariant tc a0 a1 ids vars := ncc_invariant_of_tc_equiv tc a0 a a1 ids vars hJ heq
      cases r with
      | true =>
        dsimp only
        obtain ⟨a2, ids2, vars2, e2, hJ2⟩ := add_cond_to_tc_invariant tc a0 e.c a1 ids vars hJ1
        rw [e2]
        obtain ⟨es', a', ids', vars', ch', e1, hJ', hg', hle, _⟩ :=
          ncc_pass_invariant tc a0 next a2 ids2 vars2 true hgn hJ2
        rw [e1]
        refine ⟨{ e with already_in_tc := true } :: es', a', ids', vars', ch', rfl, hJ', ?_, ?_, ?_⟩
        · intro e' he'
          rcases List.mem_cons.mp he' with rfl | h
          · exact hge
          · exact hg' e' h
        · simp only [not_yet_in_tc, hf, Bool.false_eq_true, if_true, if_false]
          omega
        · intro _ _
          simp only [not_yet_in_tc, hf, Bool.false_eq_true, if_true, if_false]
          omega
      | false =>
        dsimp only
        obtain ⟨es', a', ids', vars', ch', e1, hJ', hg', hle, hlt⟩ :=
          ncc_pass_invariant tc a0 next a1 ids vars ch hgn hJ1
        rw [e1]
        refine ⟨e :: es', a', ids', vars', ch', rfl, hJ', ?_, ?_, ?_⟩
        · intro e' he'
          rcases List.mem_cons.mp he' with rfl | h
          · exact hge
          · exact hg' e' h
        · simp only [not_yet_in_tc, hf, Bool.false_eq_true, if_false]
          omega
        · intro h1 h2
          have := hlt h1 h2
          simp only [not_yet_in_tc, hf, Bool.false_eq_true, if_false]
          omega

theorem ncc_while_invariant (tc : Nat) (a0 : agent) :
    ∀ (passes : Nat) (es : List ncc_entry) (a : agent) (ids vars : List Nat),
      (∀ e ∈ es, returns_with_same_tc tc e.is_in_tc) → ncc_invariant tc a0 a ids vars →
      not_yet_in_tc es < passes →
      ∃ es' a' ids' vars',
        ncc_while tc passes es ⟨a, some ids, some vars⟩ = some (es', ⟨a', some ids', some vars'⟩) ∧
        ncc_invariant tc a0 a' ids' vars'
  | 0, _, _, _, _, _, _, hlt => absurd hlt (Nat.not_lt_zero _)
  | passes + 1, es, a, ids, vars, hg, hJ, hlt => by
    obtain ⟨es', a', ids', vars', ch', e1, hJ', hg', hle, hprog⟩ :=
      ncc_pass_invariant tc a0 es a ids vars false hg hJ
    rw [ncc_while, e1]
    cases ch' with
    | false => exact ⟨es', a', ids', vars', rfl, hJ'⟩
    | true =>
      have := hprog rfl rfl
      exact ncc_while_invariant tc a0 passes es' a' ids' vars' hg' hJ' (by omega)

theorem ncc_is_in_tc_returns (tc : Nat) (htc : tc ≠ 0) (es : List ncc_entry)
    (hg : ∀ e ∈ es, returns_with_same_tc tc e.is_in_tc) :
    returns_with_same_tc tc (ncc_is_in_tc tc es) := by
  intro a
  obtain ⟨es', a', ids', vars', e1, hJ'⟩ :=
    ncc_while_invariant tc a (es.length + 1) es a [] [] hg (ncc_invariant_start tc a)
      (Nat.lt_succ_of_le (not_yet_in_tc_le_length es))
  unfold ncc_is_in_tc
  rw [e1]
  exact ⟨_, _, rfl, unmark_invariant tc htc a a' ids' vars' hJ'⟩

mutual
theorem cond_is_in_tc_returns (tc : Nat) (htc : tc ≠ 0) :
    ∀ c : condition, returns_with_same_tc tc (cond_is_in_tc c tc)
  | .POSITIVE_CONDITION _ _ _ _ _ => fun a => ⟨_, a, by rw [cond_is_in_tc], tc_equiv_refl tc a⟩
  | .NEGATIVE_CONDITION _ _ _ _ => fun a => ⟨_, a, by rw [cond_is_in_tc], tc_equiv_refl tc a⟩
  | .CONJUNCTIVE_NEGATION_CONDITION top => by
    have hg := ncc_entries_returns tc htc top
    intro a
    rw [cond_is_in_tc]
    exact ncc_is_in_tc_returns tc htc _ hg a
theorem ncc_entries_returns (tc : Nat) (htc : tc ≠ 0) :
    ∀ top : List condition, ∀ e ∈ ncc_entries top tc, returns_with_same_tc tc e.is_in_tc
  | [] => by
    intro e he
    rw [ncc_entries] at he
    cases he
  | c :: next => by
    intro e he
    rw [ncc_entries, List.mem_cons] at he
    rcases he with rfl | he
    · exact cond_is_in_tc_returns tc htc c
    · exact ncc_entries_returns tc htc next e he
end

/-- C15, as amended: for every condition, conjunctive negations of any depth included, every
tc number other than 0 and every state of the agent, `cond_is_in_tc` comes to an end and
leaves the transitive closure as it was: a symbol satisfies `symbol_is_in_tc (s, tc)` after
the call exactly when it did before. -/
theorem cond_is_in_tc_frame (cond : condition) (tc : Nat) (htc : tc ≠ 0) (thisAgent : agent) :
    ∃ result thisAgent', cond_is_in_tc cond tc thisAgent = some (result, thisAgent') ∧
      ∀ s, symbol_is_in_tc thisAgent' s tc = symbol_is_in_tc thisAgent s tc := by
  obtain ⟨r, a', e, h⟩ := cond_is_in_tc_returns tc htc cond thisAgent
  exact ⟨r, a', e, tc_equiv_symbol_is_in_tc tc thisAgent a' h⟩

theorem cond_is_in_tc_frame_witness :
    ∃ result thisAgent', cond_is_in_tc tc_sample_ncc 7 tc_sample_agent_marked =
        some (result, thisAgent') ∧
      ∀ s, symbol_is_in_tc thisAgent' s 7 = symbol_is_in_tc tc_sample_agent_marked s 7 :=
  cond_is_in_tc_frame tc_sample_ncc 7 (by decide) tc_sample_agent_marked

/-- C15, the claim as written fails for the tc number 0: in the sample agent the variable
`<x>` is marked with 7, so it is not in the closure 0; the call on the sample conjunctive
negation with tc number 0 marks it with 0 and the unmarking leaves it at 0, so it is in the
closure 0 afterwards. -/
theorem cond_is_in_tc_frame_fails_for_zero :
    symbol_is_in_tc tc_sample_agent 1 0 = false ∧
    (cond_is_in_tc tc_sample_ncc 0 tc_sample_agent).map
      (fun r => symbol_is_in_tc r.2 1 0) = some true := by
  decide

end Production

namespace Production

/-! ### production.cpp : `conditions_are_equal` is an equivalence -/

mutual
theorem conditions_are_equal_refl (teq : test → test → Bool → Bool)
    (hrefl : ∀ neg t, teq t t neg = true) :
    ∀ c : condition, conditions_are_equal teq c c = true
  | .POSITIVE_CONDITION _ _ _ _ _ => by simp [conditions_are_equal, hrefl]
  | .NEGATIVE_CONDITION _ _ _ _ => by simp [conditions_are_equal, hrefl]
  | .CONJUNCTIVE_NEGATION_CONDITION top => by
    rw [conditions_are_equal]
    exact condition_lists_are_equal_refl teq hrefl top
theorem condition_lists_are_equal_refl (teq : test → test → Bool → Bool)
    (hrefl : ∀ neg t, teq t t neg = true) :
    ∀ l : List condition, condition_lists_are_equal teq l l = true
  | [] => by rw [condition_lists_are_equal]
  | c :: next => by
    rw [condition_lists_are_equal, conditions_are_equal_refl teq hrefl c]
    exact condition_lists_are_equal_refl teq hrefl next
end

theorem conditions_are_equal_positive (teq : test → test → Bool → Bool) (bt1 bt2 : Nat)
    (id1 attr1 value1 id2 attr2 value2 : test) (acc1 acc2 : Bool) :
    conditions_are_equal teq (.POSITIVE_CONDITION bt1 id1 attr1 value1 acc1)
        (.POSITIVE_CONDITION bt2 id2 attr2 value2 acc2) = true ↔
      teq id1 id2 false = true ∧ teq attr1 attr2 false = true ∧
        teq value1 value2 false = true ∧ acc1 = acc2 := by
  rw [conditions_are_equal]
  cases teq id1 id2 false <;> cases teq attr1 attr2 false <;> cases teq value1 value2 false <;>
    cases acc1 <;> cases acc2 <;> decide

theorem conditions_are_equal_negative (teq : test → test → Bool → Bool)
    (id1 attr1 value1 id2 attr2 value2 : test) (acc1 acc2 : Bool) :
    conditions_are_equal teq (.NEGATIVE_CONDITION id1 attr1 value1 acc1)
        (.NEGATIVE_CONDITION id2 attr2 value2 acc2) = true ↔
      teq id1 id2 true = true ∧ teq attr1 attr2 true = true ∧
        teq value1 value2 true = true ∧ acc1 = acc2 := by
  rw [conditions_are_equal]
  cases teq id1 id2 true <;> cases teq attr1 attr2 true <;> cases teq value1 value2 true <;>
    cases acc1 <;> cases acc2 <;> decide

theorem condition_lists_are_equal_cons (teq : test → test → Bool → Bool) (c1 c2 : condition)
    (next1 next2 : List condition) :
    condition_lists_are_equal teq (c1 :: next1) (c2 :: next2) = true ↔
      conditions_are_equal teq c1 c2 = true ∧ condition_lists_are_equal teq next1 next2 = true := by
  rw [condition_lists_are_equal]
  cases conditions_are_equal teq c1 c2 <;> simp

theorem conditions_are_equal_type (teq : test → test → Bool → Bool) (c1 c2 : condition)
    (h : c1.type ≠ c2.type) : conditions_are_equal teq c1 c2 = false := by
  cases c1 <;> cases c2 <;> first | exact absurd rfl h | simp [conditions_are_equal]

mutual
theorem conditions_are_equal_symm (teq : test → test → Bool → Bool)
    (hsymm : ∀ neg t1 t2, teq t1 t2 neg = true → teq t2 t1 neg = true) :
    ∀ c1 c2 : condition, conditions_are_equal teq c1 c2 = true →
      conditions_are_equal teq c2 c1 = true
  | .POSITIVE_CONDITION _ _ _ _ _, .POSITIVE_CONDITION _ _ _ _ _ => by
    rw [conditions_are_equal_positive, conditions_are_equal_positive]
    rintro ⟨h1, h2, h3, h4⟩
    exact ⟨hsymm _ _ _ h1, hsymm _ _ _ h2, hsymm _ _ _ h3, h4.symm⟩
  | .NEGATIVE_CONDITION _ _ _ _, .NEGATIVE_CONDITION _ _ _ _ => by
    rw [conditions_are_equal_negative, conditions_are_equal_negative]
    rintro ⟨h1, h2, h3, h4⟩
    exact ⟨hsymm _ _ _ h1, hsymm _ _ _ h2, hsymm _ _ _ h3, h4.symm⟩
  | .CONJUNCTIVE_NEGATION_CONDITION top1, .CONJUNCTIVE_NEGATION_CONDITION top2 => by
    rw [conditions_are_equal, conditions_are_equal]
    exact condition_lists_are_equal_symm teq hsymm top1 top2
  | .POSITIVE_CONDITION _ _ _ _ _, .NEGATIVE_CONDITION _ _ _ _ => by
    simp [conditions_are_equal]
  | .POSITIVE_CONDITION _ _ _ _ _, .CONJUNCTIVE_NEGATION_CONDITION _ => by
    simp [conditions_are_equal]
  | .NEGATIVE_CONDITION _ _ _ _, .POSITIVE_CONDITION _ _ _ _ _ => by
    simp [conditions_are_equal]
  | .NEGATIVE_CONDITION _ _ _ _, .CONJUNCTIVE_NEGATION_CONDITION _ => by
    simp [conditions_are_equal]
  | .CONJUNCTIVE_NEGATION_CONDITION _, .POSITIVE_CONDITION _ _ _ _ _ => by
    simp [conditions_are_equal]
  | .CONJUNCTIVE_NEGATION_CONDITION _, .NEGATIVE_CONDITION _ _ _ _ => by
    simp [conditions_are_equal]
theorem condition_lists_are_equal_symm (teq : test → test → Bool → Bool)
    (hsymm : ∀ neg t1 t2, teq t1 t2 neg = true → teq t2 t1 neg = true) :
    ∀ l1 l2 : List condition, condition_lists_are_equal teq l1 l2 = true →
      condition_lists_are_equal teq l2 l1 = true
  | [], [] => fun h => h
  | [], _ :: _ => by simp [condition_lists_are_equal]
  | _ :: _, [] => by simp [condition_lists_are_equal]
  | c1 :: next1, c2 :: next2 => by
    rw [condition_lists_are_equal_cons, condition_lists_are_equal_cons]
    rintro ⟨h1, h2⟩
    exact ⟨conditions_are_equal_symm teq hsymm c1 c2 h1,
      condition_lists_are_equal_symm teq hsymm next1 next2 h2⟩
end

mutual
theorem conditions_are_equal_trans (teq : test → test → Bool → Bool)
    (htrans : ∀ neg t1 t2 t3, teq t1 t2 neg = true → teq t2 t3 neg = true →
      teq t1 t3 neg = true) :
    ∀ c1 c2 c3 : condition, conditions_are_equal teq c1 c2 = true →
      conditions_are_equal teq c2 c3 = true → conditions_are_equal teq c1 c3 = true
  | .POSITIVE_CONDITION _ _ _ _ _, c2, c3 => by
    intro h12 h23
    cases c2 with
    | POSITIVE_CONDITION _ _ _ _ _ =>
      cases c3 with
      | POSITIVE_CONDITION _ _ _ _ _ =>
        rw [conditions_are_equal_positive] at h12 h23 ⊢
        obtain ⟨a1, a2, a3, a4⟩ := h12
        obtain ⟨b1, b2, b3, b4⟩ := h23
        exact ⟨htrans _ _ _ _ a1 b1, htrans _ _ _ _ a2 b2, htrans _ _ _ _ a3 b3, a4.trans b4⟩
      | NEGATIVE_CONDITION _ _ _ _ => simp [conditions_are_equal] at h23
      | CONJUNCTIVE_NEGATION_CONDITION _ => simp [conditions_are_equal] at h23
    | NEGATIVE_CONDITION _ _ _ _ => simp [conditions_are_equal] at h12
    | CONJUNCTIVE_NEGATION_CONDITION _ => simp [conditions_are_equal] at h12
  | .NEGATIVE_CONDITION _ _ _ _, c2, c3 => by
    intro h12 h23
    cases c2 with
    | NEGATIVE_CONDITION _ _ _ _ =>
      cases c3 with
      | NEGATIVE_CONDITION _ _ _ _ =>
        rw [conditions_are_equal_negative] at h12 h23 ⊢
        obtain ⟨a1, a2, a3, a4⟩ := h12
        obtain ⟨b1, b2, b3, b4⟩ := h23
        exact ⟨htrans _ _ _ _ a1 b1, htrans _ _ _ _ a2 b2, htrans _ _ _ _ a3 b3, a4.trans b4⟩
      | POSITIVE_CONDITION _ _ _ _ _ => simp [conditions_are_equal] at h23
      | CONJUNCTIVE_NEGATION_CONDITION _ => simp [conditions_are_equal] at h23
    | POSITIVE_CONDITION _ _ _ _ _ => simp [conditions_are_equal] at h12
    | CONJUNCTIVE_NEGATION_CONDITION _ => simp [conditions_are_equal] at h12
  | .CONJUNCTIVE_NEGATION_CONDITION top1, c2, c3 => by
    intro h12 h23
    cases c2 with
    | CONJUNCTIVE_NEGATION_CONDITION top2 =>
      cases c3 with
      | CONJUNCTIVE_NEGATION_CONDITION top3 =>
        rw [conditions_are_equal] at h12 h23 ⊢
        exact condition_lists_are_equal_trans teq htrans top1 top2 top3 h12 h23
      | POSITIVE_CONDITION _ _ _ _ _ => simp [conditions_are_equal] at h23
      | NEGATIVE_CONDITION _ _ _ _ => simp [conditions_are_equal] at h23
    | POSITIVE_CONDITION _ _ _ _ _ => simp [conditions_are_equal] at h12
    | NEGATIVE_CONDITION _ _ _ _ => simp [conditions_are_equal] at h12
theorem condition_lists_are_equal_trans (teq : test → test → Bool → Bool)
    (htrans : ∀ neg t1 t2 t3, teq t1 t2 neg = true → teq t2 t3 neg = true →
      teq t1 t3 neg = true) :
    ∀ l1 l2 l3 : List condition, condition_lists_are_equal teq l1 l2 = true →
      condition_lists_are_equal teq l2 l3 = true → condition_lists_are_equal teq l1 l3 = true
  | [], l2, l3 => by
    intro h12 h23
    cases l2 with
    | nil => exact h23
    | cons _ _ => simp [condition_lists_are_equal] at h12
  | c1 :: next1, l2, l3 => by
    intro h12 h23
    cases l2 with
    | nil => simp [condition_lists_are_equal] at h12
    | cons c2 next2 =>
      cases l3 with
      | nil => simp [condition_lists_are_equal] at h23
      | cons c3 next3 =>
        rw [condition_lists_are_equal_cons] at h12 h23 ⊢
        exact ⟨conditions_are_equal_trans teq htrans c1 c2 c3 h12.1 h23.1,
          condition_lists_are_equal_trans teq htrans next1 next2 next3 h12.2 h23.2⟩
end

/-- C12: when `tests_are_equal` is reflexive, symmetric and transitive for each value of its
negation flag, `conditions_are_equal` is reflexive, symmetric and transitive on conditions,
conjunctive negations of any depth included; and two conditions of different type are never
equal. -/
theorem conditions_are_equal_equivalence (tests_are_equal : test → test → Bool → Bool)
    (hrefl : ∀ neg t, tests_are_equal t t neg = true)
    (hsymm : ∀ neg t1 t2, tests_are_equal t1 t2 neg = true → tests_are_equal t2 t1 neg = true)
    (htrans : ∀ neg t1 t2 t3, tests_are_equal t1 t2 neg = true →
      tests_are_equal t2 t3 neg = true → tests_are_equal t1 t3 neg = true) :
    (∀ c, conditions_are_equal tests_are_equal c c = true) ∧
    (∀ c1 c2, conditions_are_equal tests_are_equal c1 c2 = true →
      conditions_are_equal tests_are_equal c2 c1 = true) ∧
    (∀ c1 c2 c3, conditions_are_equal tests_are_equal c1 c2 = true →
      conditions_are_equal tests_are_equal c2 c3 = true →
      conditions_are_equal tests_are_equal c1 c3 = true) ∧
    (∀ c1 c2, c1.type ≠ c2.type → conditions_are_equal tests_are_equal c1 c2 = false) :=
  ⟨conditions_are_equal_refl tests_are_equal hrefl,
   conditions_are_equal_symm tests_are_equal hsymm,
   conditions_are_equal_trans tests_are_equal htrans,
   conditions_are_equal_type tests_are_equal⟩

theorem sample_tests_are_equal_refl (neg : Bool) (t : test) :
    sample_tests_are_equal t t neg = true := by
  simp [sample_tests_are_equal]

theorem sample_tests_are_equal_symm (neg : Bool) (t1 t2 : test)
    (h : sample_tests_are_equal t1 t2 neg = true) : sample_tests_are_equal t2 t1 neg = true := by
  simp only [sample_tests_are_equal, decide_eq_true_eq] at h ⊢
  exact h.symm

theorem sample_tests_are_equal_trans (neg : Bool) (t1 t2 t3 : test)
    (h12 : sample_tests_are_equal t1 t2 neg = true)
    (h23 : sample_tests_are_equal t2 t3 neg = true) :
    sample_tests_are_equal t1 t3 neg = true := by
  simp only [sample_tests_are_equal, decide_eq_true_eq] at h12 h23 ⊢
  exact h12.trans h23

theorem conditions_are_equal_equivalence_witness :
    conditions_are_equal sample_tests_are_equal tc_sample_ncc tc_sample_ncc = true ∧
    conditions_are_equal sample_tests_are_equal tc_sample_ncc
      (.NEGATIVE_CONDITION (.equality_test 0) (.equality_test 2) (.equality_test 1) false) =
      false :=
  ⟨(conditions_are_equal_equivalence sample_tests_are_equal sample_tests_are_equal_refl
      sample_tests_are_equal_symm sample_tests_are_equal_trans).1 tc_sample_ncc,
   (conditions_are_equal_equivalence sample_tests_are_equal sample_tests_are_equal_refl
      sample_tests_are_equal_symm sample_tests_are_equal_trans).2.2.2 _ _ (by decide)⟩

end Production

namespace Production

/-! ### production.cpp : `copy_condition_list` builds a linked copy -/

theorem assign_cells_self (pool : memory_pool) (p : Nat)
    (f : condition_struct → condition_struct) :
    (pool.assign p f).cells p = f (pool.cells p) := by
  simp [memory_pool.assign]

theorem assign_cells_ne (pool : memory_pool) (p q : Nat)
    (f : condition_struct → condition_struct) (h : q ≠ p) :
    (pool.assign p f).cells q = pool.cells q := by
  simp [memory_pool.assign, h]

theorem copy_condition_list_finish_of_ne (r : Nat × Nat × memory_pool) (h : r.2.1 ≠ NIL) :
    copy_condition_list_finish r =
      (r.1, r.2.1, r.2.2.assign r.2.1 (fun c => { c with next := NIL })) := by
  unfold copy_condition_list_finish
  rw [if_pos h]

theorem copy_condition_list_finish_of_eq (r : Nat × Nat × memory_pool) (h : r.2.1 = NIL) :
    copy_condition_list_finish r = (NIL, r.2.1, r.2.2) := by
  unfold copy_condition_list_finish
  rw [if_neg (not_not.mpr h)]

theorem represents_ne_nil (pool : memory_pool) (c : condition) (p : Nat)
    (h : represents pool c p) : p ≠ NIL := by
  cases c with
  | POSITIVE_CONDITION _ _ _ _ _ => rw [represents] at h; exact h.1
  | NEGATIVE_CONDITION _ _ _ _ => rw [represents] at h; exact h.1
  | CONJUNCTIVE_NEGATION_CONDITION _ => rw [represents] at h; exact h.1

theorem condition_cells_pos (c : condition) : 1 ≤ condition_cells c := by
  cases c with
  | POSITIVE_CONDITION _ _ _ _ _ => rw [condition_cells]
  | NEGATIVE_CONDITION _ _ _ _ => rw [condition_cells]
  | CONJUNCTIVE_NEGATION_CONDITION _ => rw [condition_cells]; omega

theorem copy_condition_loop_cons (ct : test → test) (pool : memory_pool) (c : condition)
    (rest : List condition) (prev dest_top : Nat) :
    copy_condition_loop ct pool (c :: rest) prev dest_top =
      copy_condition_loop ct
        ((if prev ≠ NIL then
            (copy_condition ct pool c).2.assign prev
              (fun x => { x with next := (copy_condition ct pool c).1 })
          else (copy_condition ct pool c).2).assign (copy_condition ct pool c).1
            (fun x => { x with prev := prev }))
        rest (copy_condition ct pool c).1
        (if prev ≠ NIL then dest_top else (copy_condition ct pool c).1) := by
  rw [copy_condition_loop]

theorem copy_condition_ncc (ct : test → test) (pool : memory_pool) (top : List condition) :
    copy_condition ct pool (.CONJUNCTIVE_NEGATION_CONDITION top) =
      (pool.next_free + 1,
        (copy_condition_list_finish (copy_condition_loop ct
          ((allocate_with_pool pool).2.assign (pool.next_free + 1)
            (fun c => { c with type := .CONJUNCTIVE_NEGATION_CONDITION }))
          top NIL
          (((allocate_with_pool pool).2.assign (pool.next_free + 1)
            (fun c => { c with type := .CONJUNCTIVE_NEGATION_CONDITION })).cells
              (pool.next_free + 1)).ncc_top)).2.2.assign (pool.next_free + 1)
          (fun c => { c with
            ncc_top := (copy_condition_list_finish (copy_condition_loop ct
              ((allocate_with_pool pool).2.assign (pool.next_free + 1)
                (fun c => { c with type := .CONJUNCTIVE_NEGATION_CONDITION }))
              top NIL
              (((allocate_with_pool pool).2.assign (pool.next_free + 1)
                (fun c => { c with type := .CONJUNCTIVE_NEGATION_CONDITION })).cells
                  (pool.next_free + 1)).ncc_top)).1
            ncc_bottom := (copy_condition_list_finish (copy_condition_loop ct
              ((allocate_with_pool pool).2.assign (pool.next_free + 1)
                (fun c => { c with type := .CONJUNCTIVE_NEGATION_CONDITION }))
              top NIL
              (((allocate_with_pool pool).2.assign (pool.next_free + 1)
                (fun c => { c with type := .CONJUNCTIVE_NEGATION_CONDITION })).cells
                  (pool.next_free + 1)).ncc_top)).2.1 })) := by
  rw [copy_condition]
  rfl

mutual
theorem copy_condition_represents (ct : test → test) :
    ∀ (c : condition) (pool : memory_pool),
      (copy_condition ct pool c).1 = pool.next_free + 1 ∧
      (copy_condition ct pool c).2.next_free = pool.next_free + condition_cells c ∧
      (∀ q, q ≤ pool.next_free → q ≠ NIL → (copy_condition ct pool c).2.cells q = pool.cells q) ∧
      (∀ pool2 : memory_pool,
        (∀ q, pool.next_free + 1 < q → q ≤ pool.next_free + condition_cells c →
          pool2.cells q = (copy_condition ct pool c).2.cells q) →
        unlinked (pool2.cells (pool.next_free + 1)) =
          unlinked ((copy_condition ct pool c).2.cells (pool.next_free + 1)) →
        represents pool2 (copied_condition ct c) (pool.next_free + 1))
  | .POSITIVE_CONDITION bt id_test attr_test value_test acc, pool => by
    rw [copy_condition]
    refine ⟨rfl, rfl, ?_, ?_⟩
    · intro q hq _
      dsimp only
      refine assign_cells_ne _ _ _ _ ?_
      show q ≠ pool.next_free + 1
      omega
    · intro pool2 _ hu
      rw [copied_condition, represents]
      dsimp only [allocate_with_pool] at hu
      rw [assign_cells_self] at hu
      exact ⟨Nat.succ_ne_zero _, congrArg condition_struct.type hu,
        congrArg condition_struct.bt hu, congrArg condition_struct.id_test hu,
        congrArg condition_struct.attr_test hu, congrArg condition_struct.value_test hu,
        congrArg condition_struct.test_for_acceptable_preference hu⟩
  | .NEGATIVE_CONDITION id_test attr_test value_test acc, pool => by
    rw [copy_condition]
    refine ⟨rfl, rfl, ?_, ?_⟩
    · intro q hq _
      dsimp only
      refine assign_cells_ne _ _ _ _ ?_
      show q ≠ pool.next_free + 1
      omega
    · intro pool2 _ hu
      rw [copied_condition, represents]
      dsimp only [allocate_with_pool] at hu
      rw [assign_cells_self] at hu
      exact ⟨Nat.succ_ne_zero _, congrArg condition_struct.type hu,
        congrArg condition_struct.id_test hu,
        congrArg condition_struct.attr_test hu, congrArg condition_struct.value_test hu,
        congrArg condition_struct.test_for_acceptable_preference hu⟩
  | .CONJUNCTIVE_NEGATION_CONDITION top, pool => by
    rw [copy_condition_ncc]
    have hIH := copy_condition_loop_represents ct top
      ((allocate_with_pool pool).2.assign (pool.next_free + 1)
        (fun c => { c with type := .CONJUNCTIVE_NEGATION_CONDITION }))
      NIL
      (((allocate_with_pool pool).2.assign (pool.next_free + 1)
        (fun c => { c with type := .CONJUNCTIVE_NEGATION_CONDITION })).cells
          (pool.next_free + 1)).ncc_top
      (Nat.zero_le _)
    generalize copy_condition_list_finish (copy_condition_loop ct
      ((allocate_with_pool pool).2.assign (pool.next_free + 1)
        (fun c => { c with type := .CONJUNCTIVE_NEGATION_CONDITION }))
      top NIL
      (((allocate_with_pool pool).2.assign (pool.next_free + 1)
        (fun c => { c with type := .CONJUNCTIVE_NEGATION_CONDITION })).cells
          (pool.next_free + 1)).ncc_top) = r at hIH ⊢
    obtain ⟨J1, J2, first, _, J4, J5⟩ := hIH
    have hnf2 : ((allocate_with_pool pool).2.assign (pool.next_free + 1)
        (fun c => { c with type := .CONJUNCTIVE_NEGATION_CONDITION })).next_free =
        pool.next_free + 1 := rfl
    rw [hnf2] at J1 J2 J5
    have hcell : r.2.2.cells (pool.next_free + 1) =
        { pool.cells (pool.next_free + 1) with type := .CONJUNCTIVE_NEGATION_CONDITION } := by
      rw [J2 _ (le_refl _) (Nat.succ_ne_zero _) (Nat.succ_ne_zero _), assign_cells_self]
      rfl
    refine ⟨rfl, ?_, ?_, ?_⟩
    · show r.2.2.next_free = _
      rw [J1, condition_cells]
      omega
    · intro q hq hq0
      dsimp only
      rw [assign_cells_ne _ _ _ _ (by omega), J2 q (by omega) hq0 hq0,
        assign_cells_ne _ _ _ _ (by omega)]
      rfl
    · intro pool2 hagree hu
      dsimp only at hagree hu
      rw [assign_cells_self, hcell] at hu
      rw [condition_cells] at hagree
      rw [copied_condition, represents]
      refine ⟨Nat.succ_ne_zero _, congrArg condition_struct.type hu, ?_⟩
      have e1 : (pool2.cells (pool.next_free + 1)).ncc_top = first := by
        rw [← J4 rfl]
        exact congrArg condition_struct.ncc_top hu
      have e2 : (pool2.cells (pool.next_free + 1)).ncc_bottom = r.2.1 :=
        congrArg condition_struct.ncc_bottom hu
      rw [e1, e2]
      apply J5
      intro q h1 h2
      rw [hagree q h1 (by omega), assign_cells_ne _ _ _ _ (by omega)]
theorem copy_condition_loop_represents (ct : test → test) :
    ∀ (L : List condition) (pool : memory_pool) (prev dest_top : Nat), prev ≤ pool.next_free →
      (copy_condition_list_finish (copy_condition_loop ct pool L prev dest_top)).2.2.next_free =
        pool.next_free + condition_list_cells L ∧
      (∀ q, q ≤ pool.next_free → q ≠ prev → q ≠ NIL →
        (copy_condition_list_finish (copy_condition_loop ct pool L prev dest_top)).2.2.cells q =
          pool.cells q) ∧
      ∃ first,
        (prev ≠ NIL →
          (copy_condition_list_finish (copy_condition_loop ct pool L prev dest_top)).2.2.cells prev =
            { pool.cells prev with next := first } ∧
          (copy_condition_list_finish (copy_condition_loop ct pool L prev dest_top)).1 = dest_top) ∧
        (prev = NIL →
          (copy_condition_list_finish (copy_condition_loop ct pool L prev dest_top)).1 = first) ∧
        ∀ pool2 : memory_pool,
          (∀ q, pool.next_free < q → q ≤ pool.next_free + condition_list_cells L →
            pool2.cells q =
              (copy_condition_list_finish (copy_condition_loop ct pool L prev dest_top)).2.2.cells q) →
          represents_list pool2 (copied_condition_list ct L) first prev
            (copy_condition_list_finish (copy_condition_loop ct pool L prev dest_top)).2.1
  | [], pool, prev, dest_top, hprev => by
    rw [copy_condition_loop]
    by_cases hp : prev = NIL
    · rw [copy_condition_list_finish_of_eq _ hp]
      refine ⟨rfl, fun _ _ _ _ => rfl, NIL, fun h => absurd hp h, fun _ => rfl, ?_⟩
      intro pool2 _
      rw [copied_condition_list, represents_list]
      exact ⟨rfl, rfl⟩
    · rw [copy_condition_list_finish_of_ne _ hp]
      refine ⟨rfl, ?_, NIL, fun _ => ⟨?_, rfl⟩, fun h => absurd h hp, ?_⟩
      · intro q _ hq _
        dsimp only
        exact assign_cells_ne _ _ _ _ hq
      · dsimp only
        exact assign_cells_self _ _ _
      · intro pool2 _
        rw [copied_condition_list, represents_list]
        exact ⟨rfl, rfl⟩
  | c :: rest, pool, prev, dest_top, hprev => by
    rw [copy_condition_loop_cons]
    obtain ⟨hN, hnf, hfr, hrep⟩ := copy_condition_represents ct c pool
    have hc1 := condition_cells_pos c
    rw [hN]
    generalize (copy_condition ct pool c).2 = pool1 at hnf hfr hrep ⊢
    have hne : prev ≠ pool.next_free + 1 := by omega
    have hT_nf : ((if prev ≠ NIL then
          pool1.assign prev (fun x => { x with next := pool.next_free + 1 })
        else pool1).assign (pool.next_free + 1) (fun x => { x with prev := prev })).next_free =
        pool.next_free + condition_cells c := by
      rw [← hnf]
      by_cases hp : prev = NIL
      · rw [if_neg (not_not.mpr hp)]; rfl
      · rw [if_pos hp]; rfl
    have hT_other : ∀ q, q ≠ pool.next_free + 1 → q ≠ prev →
        ((if prev ≠ NIL then
          pool1.assign prev (fun x => { x with next := pool.next_free + 1 })
        else pool1).assign (pool.next_free + 1) (fun x => { x with prev := prev })).cells q =
        pool1.cells q := by
      intro q h1 h2
      rw [assign_cells_ne _ _ _ _ h1]
      by_cases hp : prev = NIL
      · rw [if_neg (not_not.mpr hp)]
      · rw [if_pos hp, assign_cells_ne _ _ _ _ h2]
    have hT_new : ((if prev ≠ NIL then
          pool1.assign prev (fun x => { x with next := pool.next_free + 1 })
        else pool1).assign (pool.next_free + 1) (fun x => { x with prev := prev })).cells
          (pool.next_free + 1) =
        { pool1.cells (pool.next_free + 1) with prev := prev } := by
      rw [assign_cells_self]
      by_cases hp : prev = NIL
      · rw [if_neg (not_not.mpr hp)]
      · rw [if_pos hp, assign_cells_ne _ _ _ _ (Ne.symm hne)]
    have hT_prev : prev ≠ NIL → ((if prev ≠ NIL then
          pool1.assign prev (fun x => { x with next := pool.next_free + 1 })
        else pool1).assign (pool.next_free + 1) (fun x => { x with prev := prev })).cells prev =
        { pool1.cells prev with next := pool.next_free + 1 } := by
      intro hp
      rw [assign_cells_ne _ _ _ _ hne, if_pos hp, assign_cells_self]
    have hIH := copy_condition_loop_represents ct rest
      ((if prev ≠ NIL then
          pool1.assign prev (fun x => { x with next := pool.next_free + 1 })
        else pool1).assign (pool.next_free + 1) (fun x => { x with prev := prev }))
      (pool.next_free + 1) (if prev ≠ NIL then dest_top else pool.next_free + 1)
      (by rw [hT_nf]; omega)
    generalize ((if prev ≠ NIL then
          pool1.assign prev (fun x => { x with next := pool.next_free + 1 })
        else pool1).assign (pool.next_free + 1) (fun x => { x with prev := prev })) = T
      at hT_nf hT_other hT_new hT_prev hIH ⊢
    generalize copy_condition_list_finish (copy_condition_loop ct T rest (pool.next_free + 1)
      (if prev ≠ NIL then dest_top else pool.next_free + 1)) = F at hIH ⊢
    obtain ⟨I1, I2, first_r, I3, _, I5⟩ := hIH
    obtain ⟨I3a, I3b⟩ := I3 (Nat.succ_ne_zero _)
    rw [hT_nf] at I1 I2 I5
    refine ⟨?_, ?_, pool.next_free + 1, ?_, ?_, ?_⟩
    · rw [I1, condition_list_cells]
      omega
    · intro q hq hqp hq0
      rw [I2 q (by omega) (by omega) hq0, hT_other q (by omega) hqp, hfr q hq hq0]
    · intro hp
      refine ⟨?_, ?_⟩
      · rw [I2 prev (by omega) hne hp, hT_prev hp, hfr prev hprev hp]
      · rw [I3b, if_pos hp]
    · intro hp
      rw [I3b, if_neg (not_not.mpr hp)]
    · intro pool2 hagree
      rw [condition_list_cells] at hagree
      have hcell : pool2.cells (pool.next_free + 1) =
          { ({ pool1.cells (pool.next_free + 1) with prev := prev } : condition_struct) with
            next := first_r } := by
        rw [hagree _ (by omega) (by omega), I3a, hT_new]
      rw [copied_condition_list, represents_list]
      refine ⟨?_, ?_, ?_⟩
      · apply hrep
        · intro q h1 h2
          rw [hagree q (by omega) (by omega), I2 q (by omega) (by omega) (by unfold NIL; omega),
            hT_other q (by omega) (by omega)]
        · rw [hcell]
          rfl
      · rw [hcell]
      · rw [hcell]
        apply I5
        intro q h1 h2
        exact hagree q (by omega) (by omega)
end

theorem represents_list_addresses (pool : memory_pool) :
    ∀ (L : List condition) (first prev last : Nat), represents_list pool L first prev last →
      ∃ addrs : List Nat,
        List.Forall₂ (fun c p => represents pool c p) L addrs ∧
        addrs.head?.getD NIL = first ∧
        addrs.getLast?.getD prev = last ∧
        (∀ p, addrs.head? = some p → (pool.cells p).prev = prev) ∧
        (∀ p, addrs.getLast? = some p → (pool.cells p).next = NIL) ∧
        List.Chain' (fun p q => (pool.cells p).next = q ∧ (pool.cells q).prev = p) addrs
  | [], first, prev, last, h => by
    rw [represents_list] at h
    exact ⟨[], List.Forall₂.nil, h.1.symm, h.2.symm, fun p hp => (by cases hp),
      fun p hp => (by cases hp), List.chain'_nil⟩
  | c :: rest, first, prev, last, h => by
    rw [represents_list] at h
    obtain ⟨h1, h2, h3⟩ := h
    obtain ⟨addrs, f, hh, hl, hp, hn, hc⟩ := represents_list_addresses pool rest _ _ _ h3
    refine ⟨first :: addrs, List.Forall₂.cons h1 f, rfl, ?_, ?_, ?_, ?_⟩
    · cases addrs with
      | nil => exact hl
      | cons a l => rw [List.getLast?_cons_cons]; exact hl
    · intro p hp'
      cases hp'
      exact h2
    · intro p hp'
      cases addrs with
      | nil =>
        cases hp'
        exact hh.symm
      | cons a l =>
        rw [List.getLast?_cons_cons] at hp'
        exact hn p hp'
    · rw [List.chain'_cons']
      refine ⟨?_, hc⟩
      intro y hy
      cases addrs with
      | nil => cases hy
      | cons a l =>
        cases hy
        exact ⟨hh.symm, hp y rfl⟩

mutual
theorem conditions_are_equal_copied (ct : test → test) (teq : test → test → Bool → Bool)
    (hcopy : ∀ t neg, teq t (ct t) neg = true) :
    ∀ c : condition, conditions_are_equal teq c (copied_condition ct c) = true
  | .POSITIVE_CONDITION _ _ _ _ _ => by
    rw [copied_condition, conditions_are_equal_positive]
    exact ⟨hcopy _ _, hcopy _ _, hcopy _ _, rfl⟩
  | .NEGATIVE_CONDITION _ _ _ _ => by
    rw [copied_condition, conditions_are_equal_negative]
    exact ⟨hcopy _ _, hcopy _ _, hcopy _ _, rfl⟩
  | .CONJUNCTIVE_NEGATION_CONDITION top => by
    rw [copied_condition, conditions_are_equal]
    exact condition_lists_are_equal_copied ct teq hcopy top
theorem condition_lists_are_equal_copied (ct : test → test) (teq : test → test → Bool → Bool)
    (hcopy : ∀ t neg, teq t (ct t) neg = true) :
    ∀ l : List condition, condition_lists_are_equal teq l (copied_condition_list ct l) = true
  | [] => by rw [copied_condition_list, condition_lists_are_equal]
  | c :: rest => by
    rw [copied_condition_list, condition_lists_are_equal_cons]
    exact ⟨conditions_are_equal_copied ct teq hcopy c,
      condition_lists_are_equal_copied ct teq hcopy rest⟩
end

theorem forall₂_copied_condition_list (ct : test → test) (R : condition → Nat → Prop) :
    ∀ (L : List condition) (addrs : List Nat),
      List.Forall₂ R (copied_condition_list ct L) addrs →
      List.Forall₂ (fun c p => R (copied_condition ct c) p) L addrs
  | [], addrs, h => by
    rw [copied_condition_list] at h
    cases h
    exact List.Forall₂.nil
  | c :: rest, addrs, h => by
    rw [copied_condition_list] at h
    cases h with
    | cons h1 h2 => exact List.Forall₂.cons h1 (forall₂_copied_condition_list ct R rest _ h2)

/-- C13: when `copy_test` returns a test that `tests_are_equal` to its argument, then for
every condition list, every memory and whatever `*dest_top` held, the copy made by
`copy_condition_list` consists of as many cells as the list has conditions; the i-th cell is
not NIL and holds a condition that `conditions_are_equal` to the i-th condition of the list;
`*dest_top` and `*dest_bottom` are the first and the last cell, both NIL for the empty list;
the first cell has `prev = NIL`, the last has `next = NIL`, and consecutive cells are linked
in both directions. -/
theorem copy_condition_list_spec (copy_test : test → test)
    (tests_are_equal : test → test → Bool → Bool)
    (hcopy : ∀ t neg, tests_are_equal t (copy_test t) neg = true)
    (pool : memory_pool) (L : List condition) (dest_top : Nat) :
    ∃ addrs : List Nat,
      addrs.length = L.length ∧
      List.Forall₂ (fun c p => p ≠ NIL ∧
        ∃ c', represents (copy_condition_list copy_test pool L dest_top).2.2 c' p ∧
          conditions_are_equal tests_are_equal c c' = true) L addrs ∧
      (copy_condition_list copy_test pool L dest_top).1 = addrs.head?.getD NIL ∧
      (copy_condition_list copy_test pool L dest_top).2.1 = addrs.getLast?.getD NIL ∧
      (∀ p, addrs.head? = some p →
        ((copy_condition_list copy_test pool L dest_top).2.2.cells p).prev = NIL) ∧
      (∀ p, addrs.getLast? = some p →
        ((copy_condition_list copy_test pool L dest_top).2.2.cells p).next = NIL) ∧
      List.Chain' (fun p q =>
        ((copy_condition_list copy_test pool L dest_top).2.2.cells p).next = q ∧
        ((copy_condition_list copy_test pool L dest_top).2.2.cells q).prev = p) addrs := by
  obtain ⟨_, _, first, _, hfirst, hrep⟩ :=
    copy_condition_loop_represents copy_test L pool NIL dest_top (Nat.zero_le _)
  have hrl := hrep (copy_condition_list copy_test pool L dest_top).2.2 (fun _ _ _ => rfl)
  obtain ⟨addrs, f, hh, hl, hp, hn, hc⟩ := represents_list_addresses _ _ _ _ _ hrl
  have f2 := forall₂_copied_condition_list copy_test _ L addrs f
  refine ⟨addrs, f2.length_eq.symm, ?_, ?_, hl.symm, hp, hn, hc⟩
  · exact f2.imp (fun c p h => ⟨represents_ne_nil _ _ _ h, copied_condition copy_test c, h,
      conditions_are_equal_copied copy_test tests_are_equal hcopy c⟩)
  · rw [hh]
    exact hfirst rfl

theorem copy_condition_list_spec_witness :
    (∃ addrs : List Nat,
      addrs.length = sample_condition_list.length ∧
      List.Forall₂ (fun c p => p ≠ NIL ∧
        ∃ c', represents (copy_condition_list id sample_pool sample_condition_list 99).2.2 c' p ∧
          conditions_are_equal sample_tests_are_equal c c' = true) sample_condition_list addrs ∧
      (copy_condition_list id sample_pool sample_condition_list 99).1 = addrs.head?.getD NIL ∧
      (copy_condition_list id sample_pool sample_condition_list 99).2.1 =
        addrs.getLast?.getD NIL ∧
      (∀ p, addrs.head? = some p →
        ((copy_condition_list id sample_pool sample_condition_list 99).2.2.cells p).prev = NIL) ∧
      (∀ p, addrs.getLast? = some p →
        ((copy_condition_list id sample_pool sample_condition_list 99).2.2.cells p).next = NIL) ∧
      List.Chain' (fun p q =>
        ((copy_condition_list id sample_pool sample_condition_list 99).2.2.cells p).next = q ∧
        ((copy_condition_list id sample_pool sample_condition_list 99).2.2.cells q).prev = p)
        addrs) ∧
    (copy_condition_list id sample_pool sample_condition_list 99).1 = 1 ∧
    (copy_condition_list id sample_pool sample_condition_list 99).2.1 = 4 ∧
    (copy_condition_list id sample_pool [] 99).1 = NIL :=
  ⟨copy_condition_list_spec id sample_tests_are_equal
      (fun t neg => sample_tests_are_equal_refl neg t) sample_pool sample_condition_list 99,
    by decide, by decide, by decide⟩

end Production

namespace Production

/-! ### production.cpp : the variable generator avoids the variables in use -/

theorem get_new_tc_number_types (tc_bits : Nat) (a : agent) (p : Nat) :
    ((get_new_tc_number tc_bits a).2.symbols[p]?).map (fun s => s.symbol_type) =
      (a.symbols[p]?).map (fun s => s.symbol_type) := by
  unfold get_new_tc_number
  dsimp only
  split_ifs with h
  · simp only [reset_id_and_variable_tc_numbers, List.getElem?_map]
    cases a.symbols[p]? with
    | none => rfl
    | some s =>
      simp only [Option.map_some']
      split_ifs <;> rfl
  · rfl

theorem get_new_tc_number_fresh (tc_bits : Nat) (a : agent)
    (hwf : ∀ s ∈ a.symbols, s.symbol_type = .VARIABLE_SYMBOL_TYPE →
      s.tc_num ≤ a.current_tc_number)
    (hlt : a.current_tc_number < 2 ^ tc_bits) (p : Nat) (s : Symbol)
    (hs : (get_new_tc_number tc_bits a).2.symbols[p]? = some s)
    (hv : s.symbol_type = .VARIABLE_SYMBOL_TYPE) :
    s.tc_num ≠ (get_new_tc_number tc_bits a).1 := by
  unfold get_new_tc_number at hs ⊢
  dsimp only at hs ⊢
  split_ifs at hs ⊢ with h
  · simp only [reset_id_and_variable_tc_numbers, List.getElem?_map] at hs
    cases h0 : a.symbols[p]? with
    | none => rw [h0] at hs; cases hs
    | some s0 =>
      rw [h0] at hs
      simp only [Option.map_some', Option.some.injEq] at hs
      subst hs
      split_ifs at hv ⊢ with h1
      · exact Nat.zero_ne_one
      · exact absurd (Or.inr hv) h1
  · have hmem : s ∈ a.symbols := List.getElem?_mem hs
    have hle := hwf s hmem hv
    have hmod : (a.current_tc_number + 1) % 2 ^ tc_bits = a.current_tc_number + 1 := by
      apply Nat.mod_eq_of_lt
      rcases Nat.lt_or_ge (a.current_tc_number + 1) (2 ^ tc_bits) with h2 | h2
      · exact h2
      · have : a.current_tc_number + 1 = 2 ^ tc_bits := by omega
        rw [this, Nat.mod_self] at h
        exact absurd rfl h
    rw [hmod]
    omega

theorem marks_cover_mono (tc : Nat) (a0 : agent) (m : marking) (ps qs : List Nat)
    (h : marks_cover tc a0 m ps) (hsub : ∀ p ∈ qs, p ∈ ps) : marks_cover tc a0 m qs := by
  obtain ⟨l, h1, h2, h3, h4⟩ := h
  exact ⟨l, h1, h2, h3, fun p hp => h4 p (hsub p hp)⟩

theorem mark_if_variable_cover (tc : Nat) (a0 : agent) (m : marking) (ps : List Nat) (sym : Nat)
    (h : marks_cover tc a0 m ps) : marks_cover tc a0 (mark_if_variable m sym tc) (ps ++ [sym]) := by
  obtain ⟨l, h1, h2, h3, h4⟩ := h
  have hty := h2 sym
  unfold mark_if_variable
  cases hs : m.thisAgent.symbols[sym]? with
  | none =>
    refine ⟨l, h1, h2, h3, ?_⟩
    intro p hp hvar
    rcases List.mem_append.mp hp with hp | hp
    · exact h4 p hp hvar
    · rw [List.mem_singleton] at hp
      subst hp
      obtain ⟨s, hs0, _⟩ := hvar
      rw [hs, hs0] at hty
      cases hty
  | some s =>
    dsimp only
    by_cases hv : s.symbol_type = .VARIABLE_SYMBOL_TYPE
    · rw [if_pos hv]
      unfold mark_variable_if_unmarked
      rw [hs]
      by_cases hc : s.tc_num = tc
      · dsimp only
        rw [if_neg (not_not.mpr hc)]
        refine ⟨l, h1, h2, h3, ?_⟩
        intro p hp hvar
        rcases List.mem_append.mp hp with hp | hp
        · exact h4 p hp hvar
        · rw [List.mem_singleton] at hp
          subst hp
          exact h3 p s hs hv hc
      · dsimp only
        rw [if_pos hc]
        refine ⟨sym :: l, ?_, ?_, ?_, ?_⟩
        · dsimp only
          rw [h1]
          rfl
        · intro p
          dsimp only
          rw [set_tc_num_getElem?, ← h2 p]
          cases m.thisAgent.symbols[p]? with
          | none => rfl
          | some s' =>
            simp only [Option.map_some']
            split_ifs <;> rfl
        · intro p s' hs' hv' hc'
          dsimp only at hs'
          by_cases hp : p = sym
          · rw [hp]
            exact List.mem_cons_self _ _
          · rw [set_tc_num_getElem?_ne _ _ _ _ (Ne.symm hp)] at hs'
            exact List.mem_cons_of_mem _ (h3 p s' hs' hv' hc')
        · intro p hp hvar
          rcases List.mem_append.mp hp with hp | hp
          · exact List.mem_cons_of_mem _ (h4 p hp hvar)
          · rw [List.mem_singleton] at hp
            rw [hp]
            exact List.mem_cons_self _ _
    · rw [if_neg hv]
      refine ⟨l, h1, h2, h3, ?_⟩
      intro p hp hvar
      rcases List.mem_append.mp hp with hp | hp
      · exact h4 p hp hvar
      · rw [List.mem_singleton] at hp
        subst hp
        obtain ⟨s0, hs0, hv0⟩ := hvar
        rw [hs, hs0] at hty
        simp only [Option.map_some', Option.some.injEq] at hty
        exact absurd (hty.trans hv0) hv

mutual
theorem add_all_variables_in_test_cover (tc : Nat) (a0 : agent) :
    ∀ (t : test) (m : marking) (ps : List Nat), marks_cover tc a0 m ps →
      marks_cover tc a0 (add_all_variables_in_test m t tc) (ps ++ symbols_in_test t)
  | .blank_test, m, ps, h => by
    rw [add_all_variables_in_test, symbols_in_test, List.append_nil]; exact h
  | .equality_test referent, m, ps, h => by
    rw [add_all_variables_in_test, symbols_in_test]
    exact mark_if_variable_cover tc a0 m ps referent h
  | .GOAL_ID_TEST, m, ps, h => by
    rw [add_all_variables_in_test, symbols_in_test, List.append_nil]; exact h
  | .IMPASSE_ID_TEST, m, ps, h => by
    rw [add_all_variables_in_test, symbols_in_test, List.append_nil]; exact h
  | .DISJUNCTION_TEST, m, ps, h => by
    rw [add_all_variables_in_test, symbols_in_test, List.append_nil]; exact h
  | .CONJUNCTIVE_TEST conjunct_list, m, ps, h => by
    rw [add_all_variables_in_test, symbols_in_test]
    exact add_all_variables_in_tests_cover tc a0 conjunct_list m ps h
  | .relational_test _ referent, m, ps, h => by
    rw [add_all_variables_in_test, symbols_in_test]
    exact mark_if_variable_cover tc a0 m ps referent h
theorem add_all_variables_in_tests_cover (tc : Nat) (a0 : agent) :
    ∀ (ts : List test) (m : marking) (ps : List Nat), marks_cover tc a0 m ps →
      marks_cover tc a0 (add_all_variables_in_tests m ts tc) (ps ++ symbols_in_tests ts)
  | [], m, ps, h => by
    rw [add_all_variables_in_tests, symbols_in_tests, List.append_nil]; exact h
  | t :: rest, m, ps, h => by
    rw [add_all_variables_in_tests, symbols_in_tests, ← List.append_assoc]
    exact add_all_variables_in_tests_cover tc a0 rest _ _
      (add_all_variables_in_test_cover tc a0 t m ps h)
end

mutual
theorem add_all_variables_in_condition_cover (tc : Nat) (a0 : agent) :
    ∀ (c : condition) (m : marking) (ps : List Nat), marks_cover tc a0 m ps →
      marks_cover tc a0 (add_all_variables_in_condition m c tc) (ps ++ symbols_in_condition c)
  | .POSITIVE_CONDITION _ id_test attr_test value_test _, m, ps, h => by
    rw [add_all_variables_in_condition, symbols_in_condition, ← List.append_assoc,
      ← List.append_assoc]
    exact add_all_variables_in_test_cover tc a0 value_test _ _
      (add_all_variables_in_test_cover tc a0 attr_test _ _
        (add_all_variables_in_test_cover tc a0 id_test m ps h))
  | .NEGATIVE_CONDITION id_test attr_test value_test _, m, ps, h => by
    rw [add_all_variables_in_condition, symbols_in_condition, ← List.append_assoc,
      ← List.append_assoc]
    exact add_all_variables_in_test_cover tc a0 value_test _ _
      (add_all_variables_in_test_cover tc a0 attr_test _ _
        (add_all_variables_in_test_cover tc a0 id_test m ps h))
  | .CONJUNCTIVE_NEGATION_CONDITION top, m, ps, h => by
    rw [add_all_variables_in_condition, symbols_in_condition]
    exact add_all_variables_in_condition_list_cover tc a0 top m ps h
theorem add_all_variables_in_condition_list_cover (tc : Nat) (a0 : agent) :
    ∀ (cs : List condition) (m : marking) (ps : List Nat), marks_cover tc a0 m ps →
      marks_cover tc a0 (add_all_variables_in_condition_list m cs tc)
        (ps ++ symbols_in_condition_list cs)
  | [], m, ps, h => by
    rw [add_all_variables_in_condition_list, symbols_in_condition_list, List.append_nil]
    exact h
  | c :: next, m, ps, h => by
    rw [add_all_variables_in_condition_list, symbols_in_condition_list, ← List.append_assoc]
    exact add_all_variables_in_condition_list_cover tc a0 next _ _
      (add_all_variables_in_condition_cover tc a0 c m ps h)
end

mutual
theorem add_all_variables_in_rhs_value_cover (tc : Nat) (a0 : agent) :
    ∀ (rv : rhs_value) (m : marking) (ps : List Nat), marks_cover tc a0 m ps →
      marks_cover tc a0 (add_all_variables_in_rhs_value m rv tc) (ps ++ symbols_in_rhs_value rv)
  | .symbol sym, m, ps, h => by
    rw [add_all_variables_in_rhs_value, symbols_in_rhs_value]
    exact mark_if_variable_cover tc a0 m ps sym h
  | .funcall _ args, m, ps, h => by
    rw [add_all_variables_in_rhs_value, symbols_in_rhs_value]
    exact add_all_variables_in_rhs_values_cover tc a0 args m ps h
theorem add_all_variables_in_rhs_values_cover (tc : Nat) (a0 : agent) :
    ∀ (rvs : List rhs_value) (m : marking) (ps : List Nat), marks_cover tc a0 m ps →
      marks_cover tc a0 (add_all_variables_in_rhs_values m rvs tc)
        (ps ++ symbols_in_rhs_values rvs)
  | [], m, ps, h => by
    rw [add_all_variables_in_rhs_values, symbols_in_rhs_values, List.append_nil]
    exact h
  | rv :: rest, m, ps, h => by
    rw [add_all_variables_in_rhs_values, symbols_in_rhs_values, ← List.append_assoc]
    exact add_all_variables_in_rhs_values_cover tc a0 rest _ _
      (add_all_variables_in_rhs_value_cover tc a0 rv m ps h)
end

theorem add_all_variables_in_action_cover (pib : Nat → Bool) (tc : Nat) (a0 : agent)
    (a : action) (m : marking) (ps : List Nat) (h : marks_cover tc a0 m ps) :
    marks_cover tc a0 (add_all_variables_in_action pib m a tc)
      (ps ++ symbols_in_action pib a) := by
  unfold add_all_variables_in_action symbols_in_action
  by_cases ht : a.type = .MAKE_ACTION
  · rw [if_pos ht, if_pos ht]
    dsimp only
    have h1 := mark_if_variable_cover tc a0 m ps a.id h
    have h2 := add_all_variables_in_rhs_value_cover tc a0 a.attr _ _ h1
    have h3 := add_all_variables_in_rhs_value_cover tc a0 a.value _ _ h2
    by_cases hb : pib a.preference_type = true
    · rw [if_pos hb, if_pos hb]
      have h4 := add_all_variables_in_rhs_value_cover tc a0 a.referent _ _ h3
      exact marks_cover_mono tc a0 _ _ _ h4 (fun p hp => by
        simp only [List.mem_append, List.mem_cons, List.mem_singleton, List.not_mem_nil] at hp ⊢
        tauto)
    · rw [if_neg hb, if_neg hb]
      exact marks_cover_mono tc a0 _ _ _ h3 (fun p hp => by
        simp only [List.mem_append, List.mem_cons, List.mem_singleton, List.not_mem_nil] at hp ⊢
        tauto)
  · rw [if_neg ht, if_neg ht]
    exact add_all_variables_in_rhs_value_cover tc a0 a.value m ps h

theorem add_all_variables_in_action_list_cover (pib : Nat → Bool) (tc : Nat) (a0 : agent) :
    ∀ (as : List action) (m : marking) (ps : List Nat), marks_cover tc a0 m ps →
      marks_cover tc a0 (add_all_variables_in_action_list pib m as tc)
        (ps ++ symbols_in_action_list pib as)
  | [], m, ps, h => by
    rw [add_all_variables_in_action_list, symbols_in_action_list, List.append_nil]
    exact h
  | a :: next, m, ps, h => by
    rw [add_all_variables_in_action_list, symbols_in_action_list, ← List.append_assoc]
    exact add_all_variables_in_action_list_cover pib tc a0 next _ _
      (add_all_variables_in_action_cover pib tc a0 a m ps h)

theorem set_gensym_numbers_spec (l : List Nat) :
    ∀ g : agent_struct,
      (set_gensym_numbers g l).kernel = g.kernel ∧
      (set_gensym_numbers g l).current_variable_gensym_number =
        g.current_variable_gensym_number ∧
      ∀ p, p ∈ l → (set_gensym_numbers g l).gensym_number p =
        g.current_variable_gensym_number := by
  induction l with
  | nil => intro g; exact ⟨rfl, rfl, fun p hp => by cases hp⟩
  | cons sym rest ih =>
    intro g
    rw [set_gensym_numbers]
    obtain ⟨i1, i2, i3⟩ := ih { g with
      gensym_number := fun p =>
        if p = sym then g.current_variable_gensym_number else g.gensym_number p }
    refine ⟨i1, i2, ?_⟩
    intro p hp
    by_cases hr : p ∈ rest
    · exact i3 p hr
    · have hps : p = sym := by
        rcases List.mem_cons.mp hp with h | h
        · exact h
        · exact absurd h hr
      subst hps
      clear i3 hp
      have key : ∀ (l : List Nat) (g : agent_struct), p ∉ l →
          (set_gensym_numbers g l).gensym_number p = g.gensym_number p := by
        intro l
        induction l with
        | nil => intro g _; rfl
        | cons q l ih2 =>
          intro g hq
          rw [set_gensym_numbers, ih2 _ (fun h => hq (List.mem_cons_of_mem _ h))]
          dsimp only
          rw [if_neg (fun h => hq (by rw [h]; exact List.mem_cons_self _ _))]
      rw [key rest _ hr]
      dsimp only
      rw [if_pos rfl]

theorem set_gensym_numbers_registry (l : List Nat) :
    ∀ g : agent_struct,
      (set_gensym_numbers g l).all_productions_of_type = g.all_productions_of_type ∧
      (set_gensym_numbers g l).num_productions_of_type = g.num_productions_of_type ∧
      (set_gensym_numbers g l).sc_production = g.sc_production := by
  induction l with
  | nil => intro g; exact ⟨rfl, rfl, rfl⟩
  | cons sym rest ih =>
    intro g
    rw [set_gensym_numbers]
    exact ih _

theorem is_variable_of_types (a a' : agent) (p : Nat)
    (h : (a'.symbols[p]?).map (fun s => s.symbol_type) =
      (a.symbols[p]?).map (fun s => s.symbol_type))
    (hv : is_variable a p) : is_variable a' p := by
  obtain ⟨s, hs, hty⟩ := hv
  rw [hs] at h
  cases hs' : a'.symbols[p]? with
  | none => rw [hs'] at h; cases h
  | some s' =>
    rw [hs'] at h
    simp only [Option.map_some', Option.some.injEq] at h
    exact ⟨s', hs', h.trans hty⟩

theorem is_variable_lt (a : agent) (p : Nat) (hv : is_variable a p) : p < a.symbols.length := by
  obtain ⟨s, hs, _⟩ := hv
  by_contra hge
  rw [List.getElem?_eq_none (Nat.le_of_not_lt hge)] at hs
  cases hs

theorem collect_in_use (tc_bits : Nat) (pib : Nat → Bool) (a2 : agent_struct)
    (conds : List condition) (actions : List action)
    (hwf : ∀ s ∈ a2.kernel.symbols, s.symbol_type = .VARIABLE_SYMBOL_TYPE →
      s.tc_num ≤ a2.kernel.current_tc_number)
    (hlt : a2.kernel.current_tc_number < 2 ^ tc_bits) :
    ∀ p ∈ symbols_in_condition_list conds ++ symbols_in_action_list pib actions,
      is_variable a2.kernel p →
      in_use (set_gensym_numbers
        { a2 with kernel := (add_all_variables_in_action_list pib
            (add_all_variables_in_condition_list
              ⟨(get_new_tc_number tc_bits a2.kernel).2, none, some []⟩ conds
              (get_new_tc_number tc_bits a2.kernel).1)
            actions (get_new_tc_number tc_bits a2.kernel).1).thisAgent }
        ((add_all_variables_in_action_list pib
            (add_all_variables_in_condition_list
              ⟨(get_new_tc_number tc_bits a2.kernel).2, none, some []⟩ conds
              (get_new_tc_number tc_bits a2.kernel).1)
            actions (get_new_tc_number tc_bits a2.kernel).1).var_list.getD [])) p := by
  intro p hp hvar
  have hstart : marks_cover (get_new_tc_number tc_bits a2.kernel).1
      (get_new_tc_number tc_bits a2.kernel).2
      ⟨(get_new_tc_number tc_bits a2.kernel).2, none, some []⟩ [] :=
    ⟨[], rfl, fun _ => rfl,
      fun q s hs hv hc => absurd hc (get_new_tc_number_fresh tc_bits a2.kernel hwf hlt q s hs hv),
      fun q hq => by cases hq⟩
  have hc1 := add_all_variables_in_condition_list_cover _ _ conds _ _ hstart
  have hc2 := add_all_variables_in_action_list_cover pib _ _ actions _ _ hc1
  obtain ⟨l, hl, hty, _, hcov⟩ := hc2
  have hv1 : is_variable (get_new_tc_number tc_bits a2.kernel).2 p :=
    is_variable_of_types _ _ p (get_new_tc_number_types tc_bits a2.kernel p) hvar
  have hpl : p ∈ l := hcov p (by simpa using hp) hv1
  rw [hl]
  obtain ⟨s1, s2, s3⟩ := set_gensym_numbers_spec l
    { a2 with kernel := (add_all_variables_in_action_list pib
        (add_all_variables_in_condition_list
          ⟨(get_new_tc_number tc_bits a2.kernel).2, none, some []⟩ conds
          (get_new_tc_number tc_bits a2.kernel).1)
        actions (get_new_tc_number tc_bits a2.kernel).1).thisAgent }
  refine ⟨?_, ?_⟩
  · dsimp only [Option.getD]
    rw [s1]
    exact is_variable_lt _ p (is_variable_of_types _ _ p (hty p) hv1)
  · dsimp only [Option.getD]
    rw [s3 p hpl, s2]

theorem reset_variable_generator_eq (tc_bits gensym_bits : Nat) (pib : Nat → Bool)
    (g : agent_struct) (conds : List condition) (actions : List action) :
    ∃ a2 : agent_struct, a2.kernel = g.kernel ∧
      a2.current_variable_gensym_number ≠ 0 ∧
      a2.all_productions_of_type = g.all_productions_of_type ∧
      a2.num_productions_of_type = g.num_productions_of_type ∧
      a2.sc_production = g.sc_production ∧
      reset_variable_generator tc_bits gensym_bits pib g conds actions =
        set_gensym_numbers
          { a2 with kernel := (add_all_variables_in_action_list pib
              (add_all_variables_in_condition_list
                ⟨(get_new_tc_number tc_bits a2.kernel).2, none, some []⟩ conds
                (get_new_tc_number tc_bits a2.kernel).1)
              actions (get_new_tc_number tc_bits a2.kernel).1).thisAgent }
          ((add_all_variables_in_action_list pib
              (add_all_variables_in_condition_list
                ⟨(get_new_tc_number tc_bits a2.kernel).2, none, some []⟩ conds
                (get_new_tc_number tc_bits a2.kernel).1)
              actions (get_new_tc_number tc_bits a2.kernel).1).var_list.getD []) := by
  by_cases h : (g.current_variable_gensym_number + 1) % 2 ^ gensym_bits = 0
  · refine ⟨{ reset_variable_gensym_numbers { g with
        gensymed_variable_count := fun i => if i < 26 then 1 else g.gensymed_variable_count i
        current_variable_gensym_number :=
          (g.current_variable_gensym_number + 1) % 2 ^ gensym_bits } with
      current_variable_gensym_number := 1 }, rfl, Nat.one_ne_zero, rfl, rfl, rfl, ?_⟩
    unfold reset_variable_generator
    dsimp only
    rw [if_pos h]
  · refine ⟨{ g with
        gensymed_variable_count := fun i => if i < 26 then 1 else g.gensymed_variable_count i
        current_variable_gensym_number :=
          (g.current_variable_gensym_number + 1) % 2 ^ gensym_bits }, rfl, h, rfl, rfl, rfl, ?_⟩
    unfold reset_variable_generator
    dsimp only
    rw [if_neg h]

theorem reset_variable_generator_in_use (tc_bits gensym_bits : Nat) (pib : Nat → Bool)
    (g : agent_struct) (conds : List condition) (actions : List action)
    (hwf : ∀ s ∈ g.kernel.symbols, s.symbol_type = .VARIABLE_SYMBOL_TYPE →
      s.tc_num ≤ g.kernel.current_tc_number)
    (hlt : g.kernel.current_tc_number < 2 ^ tc_bits) :
    ∀ p ∈ symbols_in_condition_list conds ++ symbols_in_action_list pib actions,
      is_variable g.kernel p →
      in_use (reset_variable_generator tc_bits gensym_bits pib g conds actions) p := by
  obtain ⟨a2, hk, _, _, _, _, he⟩ :=
    reset_variable_generator_eq tc_bits gensym_bits pib g conds actions
  rw [he]
  rw [← hk] at hwf hlt
  intro p hp hv
  rw [← hk] at hv
  exact collect_in_use tc_bits pib a2 conds actions hwf hlt p hp hv

theorem find_variable_lt (name : String) :
    ∀ (l : List Symbol) (i : Nat), find_variable name l = some i → i < l.length
  | [], i, h => by rw [find_variable] at h; cases h
  | s :: rest, i, h => by
    rw [find_variable] at h
    split_ifs at h with hc
    · cases h
      exact Nat.succ_pos _
    · cases hr : find_variable name rest with
      | none => rw [hr] at h; cases h
      | some j =>
        rw [hr] at h
        cases h
        exact Nat.succ_lt_succ (find_variable_lt name rest j hr)

theorem make_variable_spec (g : agent_struct) (name : String) :
    (make_variable g name).2.current_variable_gensym_number = g.current_variable_gensym_number ∧
    g.kernel.symbols.length ≤ (make_variable g name).2.kernel.symbols.length ∧
    (make_variable g name).1 < (make_variable g name).2.kernel.symbols.length ∧
    ∀ p, p < g.kernel.symbols.length →
      (make_variable g name).2.gensym_number p = g.gensym_number p := by
  unfold make_variable
  cases h : find_variable name g.kernel.symbols with
  | some sym =>
    exact ⟨rfl, le_refl _, find_variable_lt name _ sym h, fun _ _ => rfl⟩
  | none =>
    dsimp only
    refine ⟨rfl, ?_, ?_, ?_⟩
    · rw [List.length_append]
      exact Nat.le_add_right _ _
    · rw [List.length_append]
      exact Nat.lt_succ_self _
    · intro p hp
      rw [if_neg (Nat.ne_of_lt hp)]

theorem generate_new_variable_loop_spec (SNPRINTF : String → Nat → String) (count_bits : Nat)
    (pfx : String) :
    ∀ (fuel : Nat) (g : agent_struct) (New : Nat) (g1 : agent_struct),
      generate_new_variable_loop SNPRINTF count_bits pfx fuel g = some (New, g1) →
      g1.current_variable_gensym_number = g.current_variable_gensym_number ∧
      g.kernel.symbols.length ≤ g1.kernel.symbols.length ∧
      New < g1.kernel.symbols.length ∧
      (∀ p, p < g.kernel.symbols.length → g1.gensym_number p = g.gensym_number p) ∧
      g1.gensym_number New ≠ g1.current_variable_gensym_number
  | 0, g, New, g1, h => by rw [generate_new_variable_loop] at h; cases h
  | fuel + 1, g, New, g1, h => by
    rw [generate_new_variable_loop] at h
    obtain ⟨m1, m2, m3, m4⟩ := make_variable_spec
      { g with
        gensymed_variable_count := fun j =>
          if j = first_letter_index pfx then
            (g.gensymed_variable_count j + 1) % 2 ^ count_bits
          else g.gensymed_variable_count j }
      (SNPRINTF pfx (g.gensymed_variable_count (first_letter_index pfx)))
    generalize make_variable
      { g with
        gensymed_variable_count := fun j =>
          if j = first_letter_index pfx then
            (g.gensymed_variable_count j + 1) % 2 ^ count_bits
          else g.gensymed_variable_count j }
      (SNPRINTF pfx (g.gensymed_variable_count (first_letter_index pfx))) = r at h m1 m2 m3 m4
    split_ifs at h with hc
    · cases h
      exact ⟨m1, m2, m3, m4, hc⟩
    · obtain ⟨i1, i2, i3, i4, i5⟩ :=
        generate_new_variable_loop_spec SNPRINTF count_bits pfx fuel _ New g1 h
      refine ⟨i1.trans m1, le_trans m2 i2, i3, ?_, i5⟩
      intro p hp
      rw [i4 p (lt_of_lt_of_le hp m2)]
      exact m4 p hp

theorem generate_new_variable_in_use (SNPRINTF : String → Nat → String) (count_bits fuel : Nat)
    (g : agent_struct) (pfx : String) (New : Nat) (g2 : agent_struct)
    (h : generate_new_variable SNPRINTF count_bits fuel g pfx = some (New, g2)) :
    ¬ in_use g New ∧ in_use g2 New ∧ ∀ p, in_use g p → in_use g2 p := by
  unfold generate_new_variable at h
  cases hl : generate_new_variable_loop SNPRINTF count_bits pfx fuel g with
  | none => rw [hl] at h; cases h
  | some r =>
    obtain ⟨New1, g1⟩ := r
    rw [hl] at h
    dsimp only at h
    cases h
    obtain ⟨i1, i2, i3, i4, i5⟩ :=
      generate_new_variable_loop_spec SNPRINTF count_bits pfx fuel g New g1 hl
    refine ⟨?_, ⟨i3, ?_⟩, ?_⟩
    · rintro ⟨hlt, hg⟩
      apply i5
      rw [i4 New hlt, hg, i1]
    · dsimp only
      rw [if_pos rfl]
    · rintro p ⟨hlt, hg⟩
      refine ⟨lt_of_lt_of_le hlt i2, ?_⟩
      dsimp only
      split_ifs with hp
      · rfl
      · rw [i4 p hlt, hg, i1]

theorem generate_new_variables_in_use (SNPRINTF : String → Nat → String)
    (count_bits fuel : Nat) :
    ∀ (pfxs : List String) (g : agent_struct) (vars : List Nat) (g' : agent_struct),
      generate_new_variables SNPRINTF count_bits fuel g pfxs = some (vars, g') →
      vars.Nodup ∧ (∀ v ∈ vars, ¬ in_use g v ∧ in_use g' v) ∧ ∀ p, in_use g p → in_use g' p
  | [], g, vars, g', h => by
    rw [generate_new_variables] at h
    cases h
    exact ⟨List.nodup_nil, fun v hv => (by cases hv), fun _ hp => hp⟩
  | pfx :: rest, g, vars, g', h => by
    rw [generate_new_variables] at h
    cases h1 : generate_new_variable SNPRINTF count_bits fuel g pfx with
    | none => rw [h1] at h; cases h
    | some r1 =>
      obtain ⟨New, a1⟩ := r1
      rw [h1] at h
      dsimp only at h
      cases h2 : generate_new_variables SNPRINTF count_bits fuel a1 rest with
      | none => rw [h2] at h; cases h
      | some r2 =>
        obtain ⟨vs, a2⟩ := r2
        rw [h2] at h
        dsimp only at h
        cases h
        obtain ⟨n1, n2, n3⟩ := generate_new_variable_in_use SNPRINTF count_bits fuel g pfx New a1 h1
        obtain ⟨j1, j2, j3⟩ := generate_new_variables_in_use SNPRINTF count_bits fuel rest a1 vs g' h2
        refine ⟨List.nodup_cons.mpr ⟨fun hmem => (j2 New hmem).1 n2, j1⟩, ?_, fun p hp => j3 p (n3 p hp)⟩
        intro v hv
        rcases List.mem_cons.mp hv with rfl | hv
        · exact ⟨n1, j3 _ n2⟩
        · exact ⟨fun hu => (j2 v hv).1 (n3 v hu), (j2 v hv).2⟩

theorem reset_variable_generator_current (tc_bits gensym_bits : Nat) (pib : Nat → Bool)
    (g : agent_struct) (conds : List condition) (actions : List action) :
    (reset_variable_generator tc_bits gensym_bits pib g conds
      actions).current_variable_gensym_number ≠ 0 := by
  obtain ⟨a2, _, hc, _, _, _, he⟩ :=
    reset_variable_generator_eq tc_bits gensym_bits pib g conds actions
  rw [he, (set_gensym_numbers_spec _ _).2.1]
  exact hc

theorem find_variable_name (name : String) :
    ∀ (l : List Symbol) (i : Nat), find_variable name l = some i →
      ∃ s, l[i]? = some s ∧ s.name = name
  | [], i, h => by rw [find_variable] at h; cases h
  | s :: rest, i, h => by
    rw [find_variable] at h
    split_ifs at h with hc
    · cases h
      exact ⟨s, List.getElem?_cons_zero, hc.2⟩
    · cases hr : find_variable name rest with
      | none => rw [hr] at h; cases h
      | some j =>
        rw [hr] at h
        cases h
        obtain ⟨s', h1, h2⟩ := find_variable_name name rest j hr
        exact ⟨s', by simpa using h1, h2⟩

theorem nodup_bounded_length (l : List Nat) (n : Nat) (hnd : l.Nodup) (hb : ∀ i ∈ l, i < n) :
    l.length ≤ n := by
  have hsub : l.toFinset ⊆ Finset.range n :=
    fun i hi => Finset.mem_range.mpr (hb i (List.mem_toFinset.mp hi))
  have hcard := Finset.card_le_card hsub
  rw [List.toFinset_card_of_nodup hnd, Finset.card_range] at hcard
  exact hcard

theorem add_mod_ne_of_lt (c0 j k M : Nat) (hjk : j < k) (hk : k < M) :
    (c0 + j) % M ≠ (c0 + k) % M := by
  intro h
  have h1 : Nat.ModEq M (c0 + j) (c0 + k) := h
  have h2 : Nat.ModEq M j k := Nat.ModEq.add_left_cancel' c0 h1
  have h3 : j % M = k % M := h2
  rw [Nat.mod_eq_of_lt (lt_trans hjk hk), Nat.mod_eq_of_lt hk] at h3
  omega

theorem generate_new_variable_loop_none (SNPRINTF : String → Nat → String) (count_bits : Nat)
    (pfx : String) (fuel : Nat) (g : agent_struct)
    (hf : find_variable (SNPRINTF pfx (g.gensymed_variable_count (first_letter_index pfx)))
      g.kernel.symbols = none)
    (hcur : g.current_variable_gensym_number ≠ 0) :
    ∃ r, generate_new_variable_loop SNPRINTF count_bits pfx (fuel + 1) g = some r := by
  rw [generate_new_variable_loop]
  simp only [make_variable, hf]
  rw [if_pos]
  · exact ⟨_, rfl⟩
  · simp only [if_true]
    exact fun h => hcur h.symm

theorem generate_new_variable_loop_some_ne (SNPRINTF : String → Nat → String)
    (count_bits : Nat) (pfx : String) (fuel : Nat) (g : agent_struct) (idx : Nat)
    (hf : find_variable (SNPRINTF pfx (g.gensymed_variable_count (first_letter_index pfx)))
      g.kernel.symbols = some idx)
    (hne : g.gensym_number idx ≠ g.current_variable_gensym_number) :
    ∃ r, generate_new_variable_loop SNPRINTF count_bits pfx (fuel + 1) g = some r := by
  rw [generate_new_variable_loop]
  simp only [make_variable, hf]
  rw [if_pos hne]
  exact ⟨_, rfl⟩

theorem generate_new_variable_loop_some_eq (SNPRINTF : String → Nat → String)
    (count_bits : Nat) (pfx : String) (fuel : Nat) (g : agent_struct) (idx : Nat)
    (hf : find_variable (SNPRINTF pfx (g.gensymed_variable_count (first_letter_index pfx)))
      g.kernel.symbols = some idx)
    (heq : g.gensym_number idx = g.current_variable_gensym_number) :
    ∃ g' : agent_struct,
      generate_new_variable_loop SNPRINTF count_bits pfx (fuel + 1) g =
        generate_new_variable_loop SNPRINTF count_bits pfx fuel g' ∧
      g'.kernel = g.kernel ∧ g'.gensym_number = g.gensym_number ∧
      g'.current_variable_gensym_number = g.current_variable_gensym_number ∧
      g'.gensymed_variable_count (first_letter_index pfx) =
        (g.gensymed_variable_count (first_letter_index pfx) + 1) % 2 ^ count_bits := by
  rw [generate_new_variable_loop]
  simp only [make_variable, hf]
  rw [if_neg (not_not.mpr heq)]
  refine ⟨_, rfl, rfl, rfl, rfl, ?_⟩
  simp only [symbol_remove_ref, if_true]

theorem generate_new_variable_loop_returns (SNPRINTF : String → Nat → String)
    (count_bits : Nat) (pfx : String) (symbols : List Symbol) (gensym : Nat → Nat) (cur : Nat)
    (hcur : cur ≠ 0) (c0 : Nat)
    (hinj : ∀ m n, m < 2 ^ count_bits → n < 2 ^ count_bits →
      SNPRINTF pfx m = SNPRINTF pfx n → m = n) :
    ∀ (fuel k : Nat) (g : agent_struct) (visited : List Nat),
      g.kernel.symbols = symbols → g.gensym_number = gensym →
      g.current_variable_gensym_number = cur →
      g.gensymed_variable_count (first_letter_index pfx) = (c0 + k) % 2 ^ count_bits →
      visited.Nodup → visited.length = k →
      (∀ i ∈ visited, i < symbols.length ∧ ∃ j, j < k ∧ ∃ s, symbols[i]? = some s ∧
        s.name = SNPRINTF pfx ((c0 + j) % 2 ^ count_bits)) →
      symbols.length < k + fuel → k + fuel ≤ 2 ^ count_bits →
      ∃ r, generate_new_variable_loop SNPRINTF count_bits pfx fuel g = some r
  | 0, k, g, visited, _, _, _, _, hnd, hlen, hvis, hlt, _ => by
    have := nodup_bounded_length visited symbols.length hnd (fun i hi => (hvis i hi).1)
    omega
  | fuel + 1, k, g, visited, hsym, hgen, hc, hcount, hnd, hlen, hvis, hlt, hle => by
    have hM : 0 < 2 ^ count_bits := by positivity
    cases hf : find_variable (SNPRINTF pfx (g.gensymed_variable_count (first_letter_index pfx)))
        g.kernel.symbols with
    | none =>
      exact generate_new_variable_loop_none SNPRINTF count_bits pfx fuel g hf (by rw [hc]; exact hcur)
    | some idx =>
      by_cases heq : g.gensym_number idx = g.current_variable_gensym_number
      · obtain ⟨g', e, e1, e2, e3, e4⟩ :=
          generate_new_variable_loop_some_eq SNPRINTF count_bits pfx fuel g idx hf heq
        rw [e]
        have hidx : idx < symbols.length := by
          rw [← hsym]; exact find_variable_lt _ _ _ hf
        obtain ⟨s, hs1, hs2⟩ := find_variable_name _ _ _ hf
        rw [hsym] at hs1
        rw [hcount] at hs2
        apply generate_new_variable_loop_returns SNPRINTF count_bits pfx symbols gensym cur hcur
          c0 hinj fuel (k + 1) g' (idx :: visited) (e1 ▸ hsym) (e2.trans hgen) (e3.trans hc)
        · rw [e4, hcount, Nat.mod_add_mod, Nat.add_assoc]
        · refine List.nodup_cons.mpr ⟨?_, hnd⟩
          intro hmem
          obtain ⟨_, j, hj, s', hs', hn'⟩ := hvis idx hmem
          rw [hs1] at hs'
          cases hs'
          have := hinj _ _ (Nat.mod_lt _ hM) (Nat.mod_lt _ hM) (hn'.symm.trans hs2)
          exact add_mod_ne_of_lt c0 j k _ hj (by omega) this
        · rw [List.length_cons, hlen]
        · intro i hi
          rcases List.mem_cons.mp hi with rfl | hi
          · exact ⟨hidx, k, Nat.lt_succ_self k, s, hs1, hs2⟩
          · obtain ⟨h1, j, hj, h2⟩ := hvis i hi
            exact ⟨h1, j, Nat.lt_succ_of_lt hj, h2⟩
        · omega
        · omega
      · exact generate_new_variable_loop_some_ne SNPRINTF count_bits pfx fuel g idx hf heq

theorem generate_new_variable_returns (SNPRINTF : String → Nat → String) (count_bits : Nat)
    (g : agent_struct) (pfx : String)
    (hcur : g.current_variable_gensym_number ≠ 0)
    (hinj : ∀ m n, m < 2 ^ count_bits → n < 2 ^ count_bits →
      SNPRINTF pfx m = SNPRINTF pfx n → m = n)
    (hcount : g.gensymed_variable_count (first_letter_index pfx) < 2 ^ count_bits)
    (hroom : g.kernel.symbols.length < 2 ^ count_bits) :
    ∃ r, generate_new_variable SNPRINTF count_bits (g.kernel.symbols.length + 1) g pfx =
      some r := by
  obtain ⟨r, hr⟩ := generate_new_variable_loop_returns SNPRINTF count_bits pfx g.kernel.symbols
    g.gensym_number g.current_variable_gensym_number hcur
    (g.gensymed_variable_count (first_letter_index pfx)) hinj
    (g.kernel.symbols.length + 1) 0 g [] rfl rfl rfl
    (by rw [Nat.add_zero, Nat.mod_eq_of_lt hcount]) List.nodup_nil rfl
    (fun i hi => by cases hi) (by omega) (by omega)
  unfold generate_new_variable
  rw [hr]
  exact ⟨_, rfl⟩

/-- C11: let the variables of the agent carry no mark above `current_tc_number`. After
`reset_variable_generator (conds, actions)`, whatever run of calls of
`generate_new_variable` follows, the variables it returns are pairwise distinct symbols and
each of them differs from every variable that occurs in `conds` or `actions`. Such a call
does return: when the names that `SNPRINTF` writes for the prefix differ from counter to
counter and the counters can count the symbols, its loop ends within one round more than
there are symbols; and the gensym number in use after the reset is not 0. -/
theorem generate_new_variable_distinct (tc_bits gensym_bits count_bits : Nat)
    (preference_is_binary : Nat → Bool) (SNPRINTF : String → Nat → String)
    (thisAgent : agent_struct) (conds : List condition) (actions : List action)
    (hwf : ∀ s ∈ thisAgent.kernel.symbols, s.symbol_type = .VARIABLE_SYMBOL_TYPE →
      s.tc_num ≤ thisAgent.kernel.current_tc_number)
    (hlt : thisAgent.kernel.current_tc_number < 2 ^ tc_bits) :
    (∀ (fuel : Nat) (pfxs : List String) (vars : List Nat) (a' : agent_struct),
      generate_new_variables SNPRINTF count_bits fuel
        (reset_variable_generator tc_bits gensym_bits preference_is_binary thisAgent conds actions)
        pfxs = some (vars, a') →
      vars.Nodup ∧
      ∀ v ∈ vars, ∀ p ∈ symbols_in_condition_list conds ++
          symbols_in_action_list preference_is_binary actions,
        is_variable thisAgent.kernel p → v ≠ p) ∧
    (reset_variable_generator tc_bits gensym_bits preference_is_binary thisAgent conds
      actions).current_variable_gensym_number ≠ 0 ∧
    (∀ (a1 : agent_struct) (pfx : String), a1.current_variable_gensym_number ≠ 0 →
      (∀ m n, m < 2 ^ count_bits → n < 2 ^ count_bits →
        SNPRINTF pfx m = SNPRINTF pfx n → m = n) →
      a1.gensymed_variable_count (first_letter_index pfx) < 2 ^ count_bits →
      a1.kernel.symbols.length < 2 ^ count_bits →
      ∃ r, generate_new_variable SNPRINTF count_bits (a1.kernel.symbols.length + 1) a1 pfx =
        some r) := by
  refine ⟨?_, reset_variable_generator_current tc_bits gensym_bits preference_is_binary
    thisAgent conds actions, fun a1 pfx => generate_new_variable_returns SNPRINTF count_bits a1 pfx⟩
  intro fuel pfxs vars a' hrun
  obtain ⟨hnd, hv, _⟩ := generate_new_variables_in_use SNPRINTF count_bits fuel pfxs _ vars a' hrun
  refine ⟨hnd, ?_⟩
  intro v hvm p hp hvar hvp
  subst hvp
  exact (hv v hvm).1 (reset_variable_generator_in_use tc_bits gensym_bits preference_is_binary
    thisAgent conds actions hwf hlt v hp hvar)

theorem generate_new_variable_distinct_witness :
    (generate_new_variables sample_SNPRINTF 64 5
        (reset_variable_generator 64 64 (fun _ => false) sample_agent_struct sample_lhs [])
        ["x", "x", "y"]).map (fun r => r.1) = some [3, 4, 5] ∧
    ([3, 4, 5] : List Nat).Nodup ∧
    ∀ v ∈ ([3, 4, 5] : List Nat), ∀ p ∈ symbols_in_condition_list sample_lhs ++
        symbols_in_action_list (fun _ => false) [],
      is_variable sample_agent_struct.kernel p → v ≠ p := by
  have hrun : (generate_new_variables sample_SNPRINTF 64 5
      (reset_variable_generator 64 64 (fun _ => false) sample_agent_struct sample_lhs [])
      ["x", "x", "y"]).map (fun r => r.1) = some [3, 4, 5] := by decide
  refine ⟨hrun, ?_⟩
  cases hr : generate_new_variables sample_SNPRINTF 64 5
      (reset_variable_generator 64 64 (fun _ => false) sample_agent_struct sample_lhs [])
      ["x", "x", "y"] with
  | none => rw [hr] at hrun; cases hrun
  | some r =>
    obtain ⟨vars, a'⟩ := r
    rw [hr] at hrun
    cases hrun
    exact (generate_new_variable_distinct 64 64 64 (fun _ => false) sample_SNPRINTF
      sample_agent_struct sample_lhs []
      (by decide) (by decide)).1 5 ["x", "x", "y"] _ a' hr

end Production

namespace Production

/-! ### production.cpp : a failing `make_production` registers nothing -/

theorem same_registry_refl (a : agent_struct) : same_registry a a := ⟨rfl, rfl, rfl⟩

theorem same_registry_trans (a b c : agent_struct) (h1 : same_registry a b)
    (h2 : same_registry b c) : same_registry a c :=
  ⟨h2.1.trans h1.1, h2.2.1.trans h1.2.1, h2.2.2.trans h1.2.2⟩

theorem reset_variable_generator_registry (tc_bits gensym_bits : Nat) (pib : Nat → Bool)
    (g : agent_struct) (conds : List condition) (actions : List action) :
    same_registry g (reset_variable_generator tc_bits gensym_bits pib g conds actions) := by
  obtain ⟨a2, _, _, h1, h2, h3, he⟩ :=
    reset_variable_generator_eq tc_bits gensym_bits pib g conds actions
  rw [he]
  obtain ⟨r1, r2, r3⟩ := set_gensym_numbers_registry
    ((add_all_variables_in_action_list pib
      (add_all_variables_in_condition_list
        ⟨(get_new_tc_number tc_bits a2.kernel).2, none, some []⟩ conds
        (get_new_tc_number tc_bits a2.kernel).1)
      actions (get_new_tc_number tc_bits a2.kernel).1).var_list.getD [])
    { a2 with kernel := (add_all_variables_in_action_list pib
        (add_all_variables_in_condition_list
          ⟨(get_new_tc_number tc_bits a2.kernel).2, none, some []⟩ conds
          (get_new_tc_number tc_bits a2.kernel).1)
        actions (get_new_tc_number tc_bits a2.kernel).1).thisAgent }
  exact ⟨r1.trans h1, r2.trans h2, r3.trans h3⟩

theorem make_production_begin_registry (env : make_production_env) (tc_bits gensym_bits : Nat)
    (thisAgent : agent_struct) (name : Nat) (lhs_top : List condition) (rhs_top : List action) :
    same_registry thisAgent
      (make_production_begin env tc_bits gensym_bits thisAgent name lhs_top rhs_top).2 := by
  unfold make_production_begin
  dsimp only
  exact reset_variable_generator_registry tc_bits gensym_bits env.preference_is_binary
    { thisAgent with name_of_production_being_reordered := sc_name thisAgent name }
    lhs_top rhs_top

theorem make_production_register_some (env : make_production_env) (a : agent_struct)
    (type name : Nat) (lhs_top : List condition) (rhs_top : List action) :
    (make_production_register env a type name lhs_top rhs_top).p ≠ none := by
  unfold make_production_register
  dsimp only
  exact Option.some_ne_none _

/-- C14: for a production that is not a justification, when the reorderers leave the registry
of productions alone, `make_production` returns NIL exactly when `reorder_action_list`,
`reorder_lhs` or `smem_valid_production` fails, and then it registers nothing:
`all_productions_of_type`, `num_productions_of_type` and `name->sc->production` are as they
were before the call. -/
theorem make_production_failure (env : make_production_env) (tc_bits gensym_bits : Nat)
    (thisAgent : agent_struct) (type name : Nat) (lhs_top : List condition)
    (rhs_top : List action) (reorder_nccs : Bool)
    (htype : type ≠ env.JUSTIFICATION_PRODUCTION_TYPE)
    (hra : ∀ a rhs tc, same_registry a (env.reorder_action_list a rhs tc).2.1)
    (hrl : ∀ a lhs b, same_registry a (env.reorder_lhs a lhs b).2.1) :
    ((make_production env tc_bits gensym_bits thisAgent type name lhs_top rhs_top
        reorder_nccs).p = none ↔
      ((env.reorder_action_list
          (make_production_begin env tc_bits gensym_bits thisAgent name lhs_top rhs_top).2
          rhs_top
          (make_production_begin env tc_bits gensym_bits thisAgent name lhs_top rhs_top).1).1 =
          false ∨
        (env.reorder_lhs
          (env.reorder_action_list
            (make_production_begin env tc_bits gensym_bits thisAgent name lhs_top rhs_top).2
            rhs_top
            (make_production_begin env tc_bits gensym_bits thisAgent name lhs_top
              rhs_top).1).2.1
          lhs_top reorder_nccs).1 = false ∨
        env.smem_valid_production
          (env.reorder_lhs
            (env.reorder_action_list
              (make_production_begin env tc_bits gensym_bits thisAgent name lhs_top rhs_top).2
              rhs_top
              (make_production_begin env tc_bits gensym_bits thisAgent name lhs_top
                rhs_top).1).2.1
            lhs_top reorder_nccs).2.2
          (env.reorder_action_list
            (make_production_begin env tc_bits gensym_bits thisAgent name lhs_top rhs_top).2
            rhs_top
            (make_production_begin env tc_bits gensym_bits thisAgent name lhs_top
              rhs_top).1).2.2 = false)) ∧
    ((make_production env tc_bits gensym_bits thisAgent type name lhs_top rhs_top
        reorder_nccs).p = none →
      same_registry thisAgent
        (make_production env tc_bits gensym_bits thisAgent type name lhs_top rhs_top
          reorder_nccs).thisAgent) := by
  have hb := make_production_begin_registry env tc_bits gensym_bits thisAgent name lhs_top rhs_top
  unfold make_production
  rw [if_pos htype]
  dsimp only
  generalize make_production_begin env tc_bits gensym_bits thisAgent name lhs_top rhs_top = b
    at hb ⊢
  have h1 := hra b.2 rhs_top b.1
  generalize env.reorder_action_list b.2 rhs_top b.1 = ra at h1 ⊢
  have h2 := hrl ra.2.1 lhs_top reorder_nccs
  generalize env.reorder_lhs ra.2.1 lhs_top reorder_nccs = rl at h2 ⊢
  cases hra1 : ra.1 with
  | false =>
    simp only [Bool.not_false, if_true, true_or, iff_true, true_and]
    exact fun _ => same_registry_trans _ _ _ hb h1
  | true =>
    cases hrl1 : rl.1 with
    | false =>
      simp only [Bool.not_true, Bool.not_false, if_true, if_false, true_or, or_true, iff_true,
        true_and, Bool.false_eq_true]
      exact fun _ => same_registry_trans _ _ _ (same_registry_trans _ _ _ hb h1) h2
    | true =>
      cases hsm : env.smem_valid_production rl.2.2 ra.2.2 with
      | false =>
        simp only [Bool.not_true, Bool.not_false, if_true, if_false, or_true, iff_true,
          true_and, Bool.false_eq_true]
        exact fun _ => same_registry_trans _ _ _ (same_registry_trans _ _ _ hb h1) h2
      | true =>
        simp only [Bool.not_true, if_false, Bool.false_eq_true, reduceCtorEq, or_self, iff_false]
        constructor
        · split_ifs <;> exact make_production_register_some _ _ _ _ _ _
        · intro hnone
          exfalso
          revert hnone
          split_ifs <;> exact make_production_register_some _ _ _ _ _ _

theorem make_production_failure_witness :
    (make_production sample_env 64 64 sample_agent_struct 0 2 sample_lhs [] false).p = none ∧
    same_registry sample_agent_struct
      (make_production sample_env 64 64 sample_agent_struct 0 2 sample_lhs [] false).thisAgent ∧
    (make_production sample_env 64 64 sample_agent_struct 0 2 sample_lhs [sample_action]
      false).thisAgent.num_productions_of_type 0 = 1 :=
  have h := make_production_failure sample_env 64 64 sample_agent_struct 0 2 sample_lhs [] false
    (by decide) (fun a _ _ => same_registry_refl a) (fun a _ _ => same_registry_refl a)
  have hp : (make_production sample_env 64 64 sample_agent_struct 0 2 sample_lhs []
      false).p = none := h.1.mpr (Or.inl rfl)
  ⟨hp, h.2 hp, by decide⟩

end Production

namespace VariablizationManager

/-! ### vm_map.cpp : what `store_variablization` stores is what `get_variablization` finds -/

theorem lookup_map_assign_self {β : Type} (key : Nat) (value : β) :
    ∀ m : List (Nat × β), (map_assign m key value).lookup key = some value
  | [] => by simp [map_assign, List.lookup]
  | (k, v) :: rest => by
    rw [map_assign]
    by_cases h : k = key
    · rw [if_pos h]
      simp [List.lookup]
    · rw [if_neg h]
      have hb : (key == k) = false := by
        simp only [beq_eq_false_iff_ne, ne_eq]
        exact fun e => h e.symm
      rw [List.lookup_cons, hb]
      exact lookup_map_assign_self key value rest

theorem lookup_map_assign_ne {β : Type} (key : Nat) (value : β) (k' : Nat) (hne : k' ≠ key) :
    ∀ m : List (Nat × β), (map_assign m key value).lookup k' = m.lookup k'
  | [] => by
    have hb : (k' == key) = false := by
      simp only [beq_eq_false_iff_ne, ne_eq]
      exact hne
    simp [map_assign, List.lookup, hb]
  | (k, v) :: rest => by
    rw [map_assign]
    by_cases h : k = key
    · rw [if_pos h]
      have hb : (k' == key) = false := by
        simp only [beq_eq_false_iff_ne, ne_eq]
        exact hne
      have hb2 : (k' == k) = false := by rw [h]; exact hb
      rw [List.lookup_cons, List.lookup_cons, hb, hb2]
    · rw [if_neg h, List.lookup_cons, List.lookup_cons]
      cases (k' == k)
      · exact lookup_map_assign_ne key value k' hne rest
      · rfl

/-- C21: for every symbol `instantiated_sym` that is a short-term identifier and every
symbol `variable_sym`, neither of them null, and every `identity`, null or not,
`store_variablization` passes its assertions, and afterwards `get_variablization` of
`instantiated_sym` and `get_variablization` of `variable_sym` both return a variablization
whose instantiated symbol is `instantiated_sym`, whose variablized symbol is `variable_sym`
and whose grounding id is that of `identity`, 0 when `identity` is null. -/
theorem store_variablization_sti (is_sti : Symbol → Bool) (vm : Variablization_Manager)
    (instantiated_sym variable_sym : Symbol) (identity : Option identity_info)
    (hi : instantiated_sym ≠ NULL) (hv : variable_sym ≠ NULL)
    (hsti : is_sti instantiated_sym = true) :
    ∃ vm', store_variablization is_sti vm instantiated_sym variable_sym identity = some vm' ∧
      get_variablization_Symbol vm' instantiated_sym =
        some ⟨instantiated_sym, variable_sym,
          match identity with
          | some i => i.grounding_id
          | none => 0⟩ ∧
      get_variablization_Symbol vm' variable_sym =
        some ⟨instantiated_sym, variable_sym,
          match identity with
          | some i => i.grounding_id
          | none => 0⟩ := by
  unfold store_variablization
  rw [if_neg (by rintro (h | h); exact hi h; exact hv h)]
  dsimp only
  rw [if_pos hsti]
  refine ⟨_, rfl, ?_, ?_⟩
  · unfold get_variablization_Symbol get_variablization_for_symbol
    dsimp only [copy_variablization, symbol_add_ref]
    by_cases hne : instantiated_sym = variable_sym
    · subst hne
      rw [lookup_map_assign_self]
    · rw [lookup_map_assign_ne _ _ _ hne, lookup_map_assign_self]
  · unfold get_variablization_Symbol get_variablization_for_symbol
    dsimp only [copy_variablization, symbol_add_ref]
    rw [lookup_map_assign_self]

theorem store_variablization_sti_witness :
    ∃ vm', store_variablization sample_is_sti sample_manager 3 6 (some ⟨9⟩) = some vm' ∧
      get_variablization_Symbol vm' 3 = some ⟨3, 6, 9⟩ ∧
      get_variablization_Symbol vm' 6 = some ⟨3, 6, 9⟩ :=
  store_variablization_sti sample_is_sti sample_manager 3 6 (some ⟨9⟩)
    (by decide) (by decide) (by decide)

/-- C22, as amended: for every symbol `c` that is not a short-term identifier, every symbol
`variable_sym`, neither of them null, and every identity that is not null and whose
grounding id is not 0, `store_variablization` passes its assertions, and afterwards
`get_variablization` of the grounding id returns the variablization just stored: its
instantiated symbol is `c`, its variablized symbol is `variable_sym` and its grounding id is
that of the identity. -/
theorem store_variablization_constant (is_sti : Symbol → Bool) (vm : Variablization_Manager)
    (c variable_sym : Symbol) (identity : identity_info)
    (hc : c ≠ NULL) (hv : variable_sym ≠ NULL) (hns : is_sti c = false)
    (hg : identity.grounding_id ≠ 0) :
    ∃ vm', store_variablization is_sti vm c variable_sym (some identity) = some vm' ∧
      get_variablization_uint64_t vm' identity.grounding_id =
        some ⟨c, variable_sym, identity.grounding_id⟩ := by
  unfold store_variablization
  rw [if_neg (by rintro (h | h); exact hc h; exact hv h)]
  dsimp only
  rw [hns]
  refine ⟨_, rfl, ?_⟩
  unfold get_variablization_uint64_t
  rw [if_neg hg]
  dsimp only [symbol_add_ref]
  rw [lookup_map_assign_self]

theorem store_variablization_constant_witness :
    ∃ vm', store_variablization sample_is_sti sample_manager 5 6 (some ⟨9⟩) = some vm' ∧
      get_variablization_uint64_t vm' 9 = some ⟨5, 6, 9⟩ :=
  store_variablization_constant sample_is_sti sample_manager 5 6 ⟨9⟩
    (by decide) (by decide) (by decide) (by decide)

/-- C22, the claim as written fails for the grounding id 0: in the sample manager, storing
the variablization of the constant 5 by the variable 6 under an identity whose grounding id
is 0 passes the assertions and puts the entry of the key 0 into `g_id_to_var_map`, but
`get_variablization` of 0 returns the null pointer without looking into the map. -/
theorem store_variablization_constant_fails_for_zero :
    sample_is_sti 5 = false ∧
    (store_variablization sample_is_sti sample_manager 5 6 (some ⟨0⟩)).map
      (fun vm' => vm'.g_id_to_var_map.lookup 0) = some (some ⟨5, 6, 0⟩) ∧
    (store_variablization sample_is_sti sample_manager 5 6 (some ⟨0⟩)).map
      (fun vm' => get_variablization_uint64_t vm' 0) = some none := by
  decide

end VariablizationManager
